import Mathlib

/-!
# Audio.cpp: ring buffer (`AudioBuffer`) and the header parsers for ID3v2, WAV, FLAC and M4A

Shallow embedding of `src/Audio.cpp`.

Conventions of the embedding

* A pointer into the input buffer is an `Int`: its offset from `m_buffer`
  (so `m_buffer` itself is offset `0`, `m_buffer - 1` is offset `-1`).
* Raw memory is a total function from offsets to byte values.
* `size_t` and `uint32_t` are 32 bits wide on the target; a value converted
  to them is reduced modulo `2 ^ 32` (`toSizeT`), a value converted to `int`
  is reduced into `[-2 ^ 31, 2 ^ 31)` (`toInt32`).
* The recursive mutex calls and the diagnostic output (`log_e`, `log_i`,
  `AUDIO_INFO`) have no effect on the values computed and are left out.
-/

/-- Conversion to `size_t` / `uint32_t` (32 bit, unsigned). -/
def toSizeT (x : Int) : Int := x % 4294967296

/-- Conversion to `int` / `int32_t` (32 bit, two's complement). -/
def toInt32 (x : Int) : Int := (x + 2147483648) % 4294967296 - 2147483648

/-- Conversion to `uint8_t`. -/
def toUInt8 (x : Int) : Int := x % 256

/-- Conversion to `uint16_t`. -/
def toUInt16 (x : Int) : Int := x % 65536

/-- Raw memory around the input buffer: byte stored at `m_buffer + offset`. -/
abbrev Memory := Int → Nat

/-- The libc `memcpy(dst, src, n)` on non-overlapping regions. -/
def memcpy (mem : Memory) (dst src : Int) (n : Int) : Memory :=
  fun a => if dst ≤ a ∧ a < dst + n then mem (src + (a - dst)) else mem a

/-- The caller's store of the bytes `bs` at consecutive addresses from `dst`. -/
def storeBytes (mem : Memory) (dst : Int) (bs : List Nat) : Memory :=
  fun a => if dst ≤ a ∧ a < dst + bs.length then bs.getD (a - dst).toNat 0 else mem a

/-- The caller's linear read of `n` bytes at consecutive addresses from `src`. -/
def loadBytes (mem : Memory) (src : Int) (n : Nat) : List Nat :=
  (List.range n).map (fun i => mem (src + i))

/-- Members of `class AudioBuffer` that the buffer arithmetic uses. -/
structure AudioBuffer where
  m_buffSizePSRAM : Int
  m_buffSizeRAM : Int
  m_resBuffSizeRAM : Int
  m_resBuffSizePSRAM : Int
  m_maxBlockSize : Int
  m_buffSize : Int
  m_f_psram : Bool
  m_f_init : Bool
  m_f_start : Bool
  /-- True when `m_buffer != NULL`. -/
  m_buffer : Bool
  m_writePtr : Int
  m_readPtr : Int
  m_endPtr : Int
  mem : Memory

namespace AudioBuffer

/-- The constructor `AudioBuffer::AudioBuffer(maxBlockSize)`, applied to an
object `d` that carries the in-class default member values. -/
def ctor (d : AudioBuffer) (maxBlockSize : Int) : AudioBuffer :=
  { d with
    m_resBuffSizeRAM := if maxBlockSize ≠ 0 then maxBlockSize else d.m_resBuffSizeRAM
    m_maxBlockSize := if maxBlockSize ≠ 0 then maxBlockSize else d.m_maxBlockSize }

/-- Method `AudioBuffer::setBufsize`. -/
def setBufsize (s : AudioBuffer) (ram psram : Int) : AudioBuffer :=
  { s with
    m_buffSizeRAM := if ram > -1 then ram else s.m_buffSizeRAM
    m_buffSizePSRAM := if psram > -1 then psram else s.m_buffSizePSRAM }

/-- Method `AudioBuffer::getBufsize`. -/
def getBufsize (s : AudioBuffer) : Int := toInt32 s.m_buffSize

/-- Method `AudioBuffer::resetBuffer`. -/
def resetBuffer (s : AudioBuffer) : AudioBuffer :=
  { s with
    m_writePtr := 0
    m_readPtr := 0
    m_endPtr := 0 + s.m_buffSize
    m_f_start := true }

/-- Method `AudioBuffer::init`. The environment supplies the answer of `psramInit()`
and whether `ps_calloc` / `heap_caps_calloc` succeed; a successful `calloc`
of `n` bytes zeroes the offsets `0 .. n - 1`. Returns the new object and the
value returned. -/
def init (s : AudioBuffer) (psramInit psCallocOk heapCallocOk : Bool) : AudioBuffer × Int :=
  let s0 : AudioBuffer := { s with m_buffer := false }
  let s1 : AudioBuffer :=
    if psramInit ∧ s0.m_buffSizePSRAM > 0 then
      { s0 with
        m_f_psram := true
        m_buffer := psCallocOk
        mem := if psCallocOk then
            (fun a => if 0 ≤ a ∧ a < s0.m_buffSizePSRAM then 0 else s0.mem a) else s0.mem
        m_buffSize := toSizeT (s0.m_buffSizePSRAM - s0.m_resBuffSizePSRAM) }
    else s0
  let s2 : AudioBuffer :=
    if s1.m_buffer = false then
      { s1 with
        m_f_psram := false
        m_buffer := heapCallocOk
        mem := if heapCallocOk then
            (fun a => if 0 ≤ a ∧ a < s1.m_buffSizeRAM then 0 else s1.mem a) else s1.mem
        m_buffSize := toSizeT (s1.m_buffSizeRAM - s1.m_resBuffSizeRAM) }
    else s1
  if s2.m_buffer = false then (s2, 0)
  else
    let s3 := resetBuffer { s2 with m_f_init := true }
    (s3, toSizeT s3.m_buffSize)

/-- Method `AudioBuffer::getMaxBlockSize`. -/
def getMaxBlockSize (s : AudioBuffer) : Int := toUInt16 s.m_maxBlockSize

/-- Method `AudioBuffer::freeSpace`. The three guards `==`, `<`, `>` on the two
cursors are exhaustive and exclusive, so the member `m_freeSpace` is always
assigned before it is returned. -/
def freeSpace (s : AudioBuffer) : Int :=
  if s.m_readPtr = s.m_writePtr then
    if s.m_f_start then toSizeT s.m_buffSize else 0
  else if s.m_readPtr < s.m_writePtr then
    toSizeT ((s.m_endPtr - s.m_writePtr + 1) + (s.m_readPtr - 0))
  else
    toSizeT (s.m_readPtr - s.m_writePtr)

/-- Method `AudioBuffer::writeSpace`. -/
def writeSpace (s : AudioBuffer) : Int :=
  if s.m_readPtr = s.m_writePtr then
    if s.m_f_start then toSizeT (s.m_endPtr - s.m_writePtr + 1) else 0
  else if s.m_readPtr < s.m_writePtr then
    toSizeT (s.m_endPtr - s.m_writePtr + 1)
  else
    toSizeT (s.m_readPtr - s.m_writePtr)

/-- Method `AudioBuffer::bufferFilled`. -/
def bufferFilled (s : AudioBuffer) : Int :=
  if s.m_readPtr = s.m_writePtr then
    if s.m_f_start then 0
    else toSizeT ((s.m_endPtr - s.m_readPtr + 1) + (s.m_writePtr - 0))
  else if s.m_readPtr < s.m_writePtr then
    toSizeT (s.m_writePtr - s.m_readPtr)
  else
    toSizeT ((s.m_endPtr - s.m_readPtr + 1) + (s.m_writePtr - 0))

/-- Method `AudioBuffer::getMaxAvailableBytes`. -/
def getMaxAvailableBytes (s : AudioBuffer) : Int :=
  if s.m_readPtr = s.m_writePtr then
    if s.m_f_start then 0
    else toSizeT ((s.m_endPtr - s.m_readPtr + 1) + (s.m_writePtr - 0))
  else if s.m_readPtr < s.m_writePtr then
    toSizeT (s.m_writePtr - s.m_readPtr)
  else
    toSizeT (s.m_endPtr - s.m_readPtr + 1)

/-- Method `AudioBuffer::bytesWritten`. -/
def bytesWritten (s : AudioBuffer) (bw : Int) : AudioBuffer :=
  let w := s.m_writePtr + bw
  let w := if w = s.m_endPtr + 1 then 0 else w
  { s with
    m_writePtr := w
    m_f_start := if bw ≠ 0 ∧ s.m_f_start then false else s.m_f_start }

/-- Method `AudioBuffer::bytesWasRead`. -/
def bytesWasRead (s : AudioBuffer) (br : Int) : AudioBuffer :=
  let r := s.m_readPtr + br
  let r := if r ≥ s.m_endPtr then
      let tmp := toSizeT (r - s.m_endPtr)
      0 + tmp - 1
    else r
  { s with m_readPtr := r }

/-- Method `AudioBuffer::getWritePtr`. -/
def getWritePtr (s : AudioBuffer) : Int := s.m_writePtr

/-- Method `AudioBuffer::getReadPtr`: returns the object, whose memory past
`m_endPtr` may have been overwritten by the copy, and the pointer. The
comparison `len < m_maxBlockSize` is taken on the mathematical values, which
is what it computes whenever `m_readPtr <= m_endPtr`. -/
def getReadPtr (s : AudioBuffer) : AudioBuffer × Int :=
  let len := toInt32 (s.m_endPtr - s.m_readPtr)
  let s1 : AudioBuffer :=
    if len < s.m_maxBlockSize then
      { s with mem := memcpy s.mem (s.m_endPtr + 1) 0 (toSizeT (s.m_maxBlockSize - (len - 1))) }
    else s
  (s1, s1.m_readPtr)

/-- Method `AudioBuffer::getWritePos`. -/
def getWritePos (s : AudioBuffer) : Int := toSizeT (s.m_writePtr - 0)

/-- Method `AudioBuffer::getReadPos`. -/
def getReadPos (s : AudioBuffer) : Int := toSizeT (s.m_readPtr - 0)

/-- A producer step: store the bytes `bs` at `getWritePtr()`, then commit
them with `bytesWritten(bs.length)`. -/
def produce (s : AudioBuffer) (bs : List Nat) : AudioBuffer :=
  bytesWritten { s with mem := storeBytes s.mem (getWritePtr s) bs } bs.length

/-- A consumer step: take `n` bytes linearly from `getReadPtr()`, then release
them with `bytesWasRead(n)`. Returns the object and the bytes taken. -/
def consume (s : AudioBuffer) (n : Nat) : AudioBuffer × List Nat :=
  let (s1, p) := getReadPtr s
  (bytesWasRead s1 n, loadBytes s1.mem p n)

/-- An object before `init()`: requested RAM size `ram`, reserved margin and
maximal block size `mbs`, no PSRAM; the memory around the future buffer holds
`m0`. -/
def fresh (ram mbs : Int) (m0 : Memory) : AudioBuffer :=
  ctor
    { m_buffSizePSRAM := 0, m_buffSizeRAM := ram, m_resBuffSizeRAM := mbs,
      m_resBuffSizePSRAM := 0, m_maxBlockSize := mbs, m_buffSize := 0,
      m_f_psram := false, m_f_init := false, m_f_start := true, m_buffer := false,
      m_writePtr := 0, m_readPtr := 0, m_endPtr := 0, mem := m0 }
    mbs

end AudioBuffer

/-! ## Helpers declared in `Audio.h` -/

/-- Byte `*(data + i)` of the input window; `data` lists the bytes that lie
at the pointer handed to the parser. -/
def byteAt (data : List Nat) (i : Nat) : Nat := data.getD i 0

/-- The bytes of a string literal. -/
def lit (s : String) : List Nat := s.toList.map Char.toNat

/-- The C string held by a `char` array: its bytes up to the first NUL. -/
def cstr (buf : List Nat) : List Nat := buf.takeWhile (fun c => c != 0)

/-- Modelled from the spec: `bigEndian(base, numBytes, shiftLeft)` is declared in
Audio.h and absent from Audio.cpp. It reads `numBytes` bytes, most
significant first, each shifted by `shiftLeft` bits per position (8 for a
plain big-endian integer, 7 for a synchsafe one), as a `size_t`. -/
def bigEndian (base : List Nat) (numBytes shiftLeft : Nat) : Int :=
  toSizeT (((List.range numBytes).map
    (fun i => (byteAt base i : Int) * 2 ^ ((numBytes - i - 1) * shiftLeft))).sum)

/-- Comparison of the bytes at `base + i` with the string `str`. -/
def matchAt (base str : List Nat) (i : Nat) : Bool :=
  (List.range str.length).all (fun j => byteAt base (i + j) == str.getD j 0)

/-- Modelled from the spec: `specialIndexOf(base, str, baselen)` is declared in
Audio.h and absent from Audio.cpp. It seeks `str` in a buffer that is not NUL
terminated, trying the start offsets `0 .. baselen - strlen(str) - 1`, and
returns the first offset that matches, `-1` when there is none. -/
def specialIndexOf (base str : List Nat) (baselen : Nat) : Int :=
  if str.length > baselen then -1
  else
    match (List.range (baselen - str.length)).find? (fun i => matchAt base str i) with
    | some i => (i : Int)
    | none => -1

/-- Modelled from the spec: `startsWith(base, str)` is declared in Audio.h and
absent from Audio.cpp. It tells whether the bytes of `str` stand at the
beginning of `base`. -/
def startsWith (base str : List Nat) : Bool := matchAt base str 0

/-- First offset `>= i` at which `str` occurs in the C string `base`, counted
from `i`; `fuel` bounds the offsets tried. -/
def strstrFrom (base str : List Nat) : Nat → Nat → Option Nat
  | _, 0 => none
  | i, fuel + 1 =>
    if (base.drop i).take str.length = str then some i
    else strstrFrom base str (i + 1) fuel

/-- Modelled from the spec: `indexOf(base, str, startIndex)` is declared in
Audio.h and absent from Audio.cpp. It returns the offset of the first
occurrence of `str` in the C string `base` at or after `startIndex`, `-1` when
there is none. -/
def indexOf (base str : List Nat) (startIndex : Nat) : Int :=
  if startIndex > base.length then -1
  else
    match strstrFrom base str startIndex (base.length + 1 - startIndex) with
    | some i => (i : Int)
    | none => -1

/-- The libc `strcmp(a, b) == 0` on two C strings. -/
def strcmpEq (a b : List Nat) : Bool := cstr a == cstr b

/-! ## Text conversion -/

/-- The scan for the last byte order mark in `Audio::unicode2utf8`: the loop
`while(m < len - 1)`, started with `bitorder = false`, `j = 0`. -/
def unicode2utf8_bom (buff : List Nat) (len : Nat) : Bool × Nat :=
  (List.range (len - 1)).foldl
    (fun (st : Bool × Nat) m =>
      let st1 := if byteAt buff m = 0xFE ∧ byteAt buff (m + 1) = 0xFF then (true, (m + 2) % 65536) else st
      if byteAt buff m = 0xFF ∧ byteAt buff (m + 1) = 0xFE then (false, (m + 2) % 65536) else st1)
    (false, 0)

/-- The bytes one 16-bit code unit `uni_hl` contributes to `tmpbuff` in
`Audio::unicode2utf8`. -/
def unicode2utf8_unit (uni_h uni_l : Nat) : List Nat :=
  let uni_hl := ((uni_h <<< 8) ||| uni_l) % 65536
  if uni_hl < 0x80 then [uni_l]
  else if uni_hl < 0x800 then
    [((uni_hl >>> 6) ||| 0xC0) % 256, ((uni_hl &&& 0x3F) ||| 0x80) % 256]
  else
    [((uni_hl >>> 12) ||| 0xE0) % 256, (((uni_hl >>> 6) &&& 0x3F) ||| 0x80) % 256,
     ((uni_hl &&& 0x3F) ||| 0x80) % 256]

/-- Method `Audio::unicode2utf8(buff, len)`: the bytes `tmpbuff[0 .. m)` that are
copied back to `buff` before the terminating NUL (`malloc` succeeding). The
loop `for(k = j; k < len; k += 2)` runs `(len - j + 1) / 2` times. -/
def unicode2utf8 (buff : List Nat) (len : Nat) : List Nat :=
  let (bitorder, j) := unicode2utf8_bom buff len
  if j > 0 then
    (List.range ((len - j + 1) / 2)).flatMap (fun i =>
      let k := j + 2 * i
      if bitorder then unicode2utf8_unit (byteAt buff k) (byteAt buff (k + 1))
      else unicode2utf8_unit (byteAt buff (k + 1)) (byteAt buff k))
  else []

/-- The UTF-8 plausibility check of `Audio::latinToUTF8` over the bytes that
remain from `pos` to `len`. -/
def latinToUTF8_check : List Nat → Bool
  | [] => true
  | c :: rest =>
    if 0xC2 ≤ c ∧ c ≤ 0xDF then
      match rest with
      | [] => false
      | c1 :: rest1 => if c1 < 0x80 then false else latinToUTF8_check rest1
    else if 0xE0 ≤ c ∧ c ≤ 0xEF then
      match rest with
      | c1 :: c2 :: rest2 =>
        if c1 < 0x80 ∨ c2 < 0x80 then false else latinToUTF8_check rest2
      | _ => false
    else if 0xF0 ≤ c then
      match rest with
      | c1 :: c2 :: c3 :: rest3 =>
        if c1 < 0x80 ∨ c2 < 0x80 ∨ c3 < 0x80 then false else latinToUTF8_check rest3
      | _ => false
    else latinToUTF8_check rest

/-- The conversion loop of `Audio::latinToUTF8` over the copy `iso8859_1`;
`acc` holds the bytes `buff[0 .. out)` written so far. Returns them and
whether the loop ran to its end (`false` for the `goto exit`). -/
def latinToUTF8_loop (bufflen : Int) : List Nat → List Nat → List Nat × Bool
  | [], acc => (acc, true)
  | c :: rest, acc =>
    if c < 0x80 then
      let acc1 := acc ++ [c]
      if (acc1.length : Int) > bufflen then (acc1, false)
      else latinToUTF8_loop bufflen rest acc1
    else
      let acc1 := acc ++ [0xC0 ||| (c >>> 6)]
      if (acc1.length : Int) + 1 > bufflen then (acc1, false)
      else latinToUTF8_loop bufflen rest (acc1 ++ [0x80 ||| (c &&& 0x3F)])

/-- Method `Audio::latinToUTF8(buff, bufflen, UTF8check)` on the C string `buff`
(`x_strdup` succeeding): the C string left in `buff` and the value returned.
After the `goto exit` no terminator has been written; the bytes of the old
content that were not overwritten follow. `char` is unsigned on the target. -/
def latinToUTF8 (buff : List Nat) (bufflen : Int) ( UTF8check : Bool) : List Nat × Bool :=
  let s := cstr buff
  if UTF8check ∧ latinToUTF8_check (s.take (s.length % 65536)) then (s, true)
  else
    match latinToUTF8_loop bufflen s [] with
    | (out, true) => (out, true)
    | (out, false) => (out ++ s.drop out.length, false)

/-- The number of bytes `buff[0 .. n)` that `Audio::latinToUTF8` stores: none
when the check finds UTF-8, else every byte of the conversion loop up to the
`goto exit`, and the terminator when the loop runs to its end. Each store is
made before the test of `out` against `bufflen` that follows it. -/
def latinToUTF8_written (buff : List Nat) (bufflen : Int) ( UTF8check : Bool) : Nat :=
  let s := cstr buff
  if UTF8check ∧ latinToUTF8_check (s.take (s.length % 65536)) then 0
  else
    match latinToUTF8_loop bufflen s [] with
    | (out, true) => out.length + 1
    | (out, false) => out.length

/-! ## The `Audio` object -/

/-- The values of `m_datamode` (declared in Audio.h). -/
inductive Datamode where
  | AUDIO_NONE | HTTP_RESPONSE_HEADER | AUDIO_DATA | AUDIO_LOCALFILE
  | AUDIO_PLAYLISTINIT | AUDIO_PLAYLISTHEADER | AUDIO_PLAYLISTDATA
  deriving DecidableEq, Repr

/-- The values of `m_codec` (declared in Audio.h). -/
inductive Codec where
  | CODEC_NONE | CODEC_WAV | CODEC_MP3 | CODEC_AAC | CODEC_M4A | CODEC_FLAC
  | CODEC_AACP | CODEC_OPUS | CODEC_OGG | CODEC_VORBIS
  deriving DecidableEq, Repr

/-- A call of one of the optional notification hooks, or of
`Audio::showstreamtitle`, with its argument. -/
inductive Event where
  | audio_id3data (info : List Nat)
  | showstreamtitle (ml : List Nat)
  | audio_id3image (pos size : Int)
  | audio_id3lyrics (pos size : Int)
  deriving DecidableEq, Repr

/-- What Audio.cpp takes from outside the translation unit. -/
structure Env where
  /-- Default value of the parameter `UTF8check` of `latinToUTF8` (Audio.h). -/
  UTF8check : Bool
  /-- The byte found in the uninitialised local `value[dataLen]` of the
  ID3v2.2 branch. -/
  stackByte : Nat

/-- Members of `class Audio` and the function-local statics of
`read_ID3_Header` that the ID3 header parser reads or writes. `m_ibuffSize`
and `m_chbufSize` are the sizes of the heap blocks `m_ibuff` and `m_chbuf`
(the constructor gives both 4096 bytes with PSRAM and 512 + 64 without). -/
structure Audio where
  m_controlCounter : Int
  m_datamode : Datamode
  m_codec : Codec
  m_f_running : Bool
  m_f_unsync : Bool
  m_f_exthdr : Bool
  m_f_m3u8data : Bool
  m_contentlength : Int
  m_audioDataSize : Int
  m_audioDataStart : Int
  m_ID3Size : Int
  m_ibuffSize : Int
  m_chbufSize : Int
  /-- Size of the open `audiofile`, `none` when no file is open. -/
  audiofile : Option Int
  id3Size : Int
  totalId3Size : Int
  remainingHeaderBytes : Int
  universal_tmp : Int
  ID3version : Int
  ehsz : Int
  tag : List Nat
  frameid : List Nat
  framesize : Int
  compressed : Bool
  APIC_size : List Int
  APIC_pos : List Int
  SYLT_seen : Bool
  SYLT_size : Int
  SYLT_pos : Int
  numID3Header : Int
  /-- The hook calls made so far, oldest first. -/
  events : List Event

namespace Audio

/-- Method `Audio::getDatamode`. -/
def getDatamode (a : Audio) : Datamode := a.m_datamode

/-- Method `Audio::isRunning`. -/
def isRunning (a : Audio) : Bool := a.m_f_running

/-- Method `Audio::getFileSize` (built with file system support). -/
def getFileSize (a : Audio) : Int :=
  match a.audiofile with
  | none => if a.m_contentlength > 0 then a.m_contentlength else 0
  | some size => toSizeT size

/-- The table of `Audio::showID3Tag`: frame identifier and the text that
precedes `%s` in the format string, in source order. -/
def showID3Tag_table : List (String × String) :=
  [("CNT", "Play counter: "),
   ("CRA", "Audio encryption: "),
   ("CRM", "Encrypted meta frame: "),
   ("ETC", "Event timing codes: "),
   ("EQU", "Equalization: "),
   ("IPL", "Involved people list: "),
   ("PIC", "Attached picture: "),
   ("SLT", "Synchronized lyric/text: "),
   ("TAL", "Album/Movie/Show title: "),
   ("TBP", "BPM (Beats Per Minute): "),
   ("TCM", "Composer: "),
   ("TCO", "Content type: "),
   ("TCR", "Copyright message: "),
   ("TDA", "Date: "),
   ("TDY", "Playlist delay: "),
   ("TEN", "Encoded by: "),
   ("TFT", "File type: "),
   ("TIM", "Time: "),
   ("TKE", "Initial key: "),
   ("TLA", "Language(s): "),
   ("TLE", "Length: "),
   ("TMT", "Media type: "),
   ("TOA", "Original artist(s)/performer(s): "),
   ("TOF", "Original filename: "),
   ("TOL", "Original Lyricist(s)/text writer(s): "),
   ("TOR", "Original release year: "),
   ("TOT", "Original album/Movie/Show title: "),
   ("TP1", "Lead artist(s)/Lead performer(s)/Soloist(s)/Performing group: "),
   ("TP2", "Band/Orchestra/Accompaniment: "),
   ("TP3", "Conductor/Performer refinement: "),
   ("TP4", "Interpreted, remixed, or otherwise modified by: "),
   ("TPA", "Part of a set: "),
   ("TPB", "Publisher: "),
   ("TRC", "ISRC (International Standard Recording Code): "),
   ("TRD", "Recording dates: "),
   ("TRK", "Track number/Position in set: "),
   ("TSI", "Size: "),
   ("TSS", "Software/hardware and settings used for encoding: "),
   ("TT1", "Content group description: "),
   ("TT2", "Title/Songname/Content description: "),
   ("TT3", "Subtitle/Description refinement: "),
   ("TXT", "Lyricist/text writer: "),
   ("TXX", "User defined text information frame: "),
   ("TYE", "Year: "),
   ("UFI", "Unique file identifier: "),
   ("ULT", "Unsychronized lyric/text transcription: "),
   ("WAF", "Official audio file webpage: "),
   ("WAR", "Official artist/performer webpage: "),
   ("WAS", "Official audio source webpage: "),
   ("WCM", "Commercial information: "),
   ("WCP", "Copyright/Legal information: "),
   ("WPB", "Publishers official webpage: "),
   ("WXX", "User defined URL link frame: "),
   ("OWNE", "Ownership: "),
   ("SYLT", "SynLyrics: "),
   ("TALB", "Album: "),
   ("TBPM", "BeatsPerMinute: "),
   ("TCMP", "Compilation: "),
   ("TCOM", "Composer: "),
   ("TCON", "ContentType: "),
   ("TCOP", "Copyright: "),
   ("TDAT", "Date: "),
   ("TEXT", "Lyricist: "),
   ("TIME", "Time: "),
   ("TIT1", "Grouping: "),
   ("TIT2", "Title: "),
   ("TIT3", "Subtitle: "),
   ("TLAN", "Language: "),
   ("TLEN", "Length (ms): "),
   ("TMED", "Media: "),
   ("TOAL", "OriginalAlbum: "),
   ("TOPE", "OriginalArtist: "),
   ("TORY", "OriginalReleaseYear: "),
   ("TPE1", "Artist: "),
   ("TPE2", "Band: "),
   ("TPE3", "Conductor: "),
   ("TPE4", "InterpretedBy: "),
   ("TPOS", "PartOfSet: "),
   ("TPUB", "Publisher: "),
   ("TRCK", "Track: "),
   ("TSSE", "SettingsForEncoding: "),
   ("TRDA", "RecordingDates: "),
   ("TXXX", "UserDefinedText: "),
   ("TYER", "Year: "),
   ("USER", "TermsOfUse: "),
   ("USLT", "Lyrics: "),
   ("WOAR", "OfficialArtistWebpage: "),
   ("XDOR", "OriginalReleaseTime: ")]

/-- Method `Audio::showID3Tag(tag, value)`: the content of `m_chbuf` after the chain
of `strcmp` tests. The formatting of `TXXX` is skipped for m3u8 data. -/
def showID3Tag_chbuf (a : Audio) (tag value : List Nat) : List Nat :=
  showID3Tag_table.foldl
    (fun chbuf e =>
      if strcmpEq tag (lit e.1) && !(e.1 == "TXXX" && a.m_f_m3u8data) then
        lit e.2 ++ cstr value
      else chbuf)
    []

/-- Method `Audio::showID3Tag(tag, value)`. `sizeof(m_chbuf)` is the size of a
pointer, 4 on the target. The identifiers of the table are pairwise distinct,
so at most one `sprintf` runs; it stores the text and its terminator in
`m_chbuf`, a block of `m_chbufSize` bytes. The result is `none` when the
assignment to `m_chbuf[0]`, the `sprintf` or `latinToUTF8` stores a byte
behind the block. -/
def showID3Tag (env : Env) (a : Audio) (tag value : List Nat) : Option Audio :=
  let chbuf0 := showID3Tag_chbuf a tag value
  if (chbuf0.length : Int) + 1 > a.m_chbufSize then none
  else if (latinToUTF8_written chbuf0 4 env.UTF8check : Int) > a.m_chbufSize then none
  else
    let chbuf := (latinToUTF8 chbuf0 4 env.UTF8check).1
    if indexOf chbuf (lit "?xml") 0 > 0 then
      some { a with events := a.events ++ [Event.showstreamtitle chbuf] }
    else if chbuf ≠ [] then
      some { a with events := a.events ++ [Event.audio_id3data chbuf] }
    else some a

end Audio

namespace Audio

/-- Method `Audio::read_ID3_Header`, `m_controlCounter == 0`: read the ID3 magic and
the tag size. -/
def read_ID3_Header_0 (a : Audio) (data : List Nat) : Audio × Int :=
  let a1 : Audio :=
    if a.getDatamode = Datamode.AUDIO_LOCALFILE then
      { a with ID3version := 0, m_contentlength := a.getFileSize }
    else a
  let a2 : Audio :=
    { a1 with
      m_controlCounter := a1.m_controlCounter + 1
      SYLT_seen := false
      remainingHeaderBytes := 0
      ehsz := 0 }
  if specialIndexOf data (lit "ID3") 4 ≠ 0 then
    ({ a2 with m_audioDataSize := a2.m_contentlength }, -1)
  else
    let ID3version : Int := byteAt data 3
    let a3 : Audio :=
      if ID3version = 2 then
        { a2 with ID3version := ID3version
                  m_f_unsync := byteAt data 5 &&& 0x80 ≠ 0
                  m_f_exthdr := false }
      else if ID3version = 3 ∨ ID3version = 4 then
        { a2 with ID3version := ID3version
                  m_f_unsync := byteAt data 5 &&& 0x80 ≠ 0
                  m_f_exthdr := byteAt data 5 &&& 0x40 ≠ 0 }
      else { a2 with ID3version := ID3version }
    let id3Size := toSizeT (bigEndian (data.drop 6) 4 7 + 10)
    ({ a3 with
       id3Size := id3Size
       m_controlCounter := if ID3version = 2 then 10 else a3.m_controlCounter
       remainingHeaderBytes := toSizeT (id3Size - 10)
       m_ID3Size := id3Size }, 10)

/-- Phase `m_controlCounter == 1`: compute the extended header size if one exists. -/
def read_ID3_Header_1 (a : Audio) (data : List Nat) : Audio × Int :=
  let a1 : Audio := { a with m_controlCounter := a.m_controlCounter + 1 }
  if a1.m_f_exthdr then
    ({ a1 with
       ehsz := toInt32 (toInt32 (bigEndian data 4 8) - 4)
       remainingHeaderBytes := toSizeT (a1.remainingHeaderBytes - 4) }, 4)
  else (a1, 0)

/-- Phase `m_controlCounter == 2`: skip the extended header. The test `ehsz > len`
compares an `int` with a `size_t`, hence as unsigned values. -/
def read_ID3_Header_2 (a : Audio) (len : Int) : Audio × Int :=
  if toSizeT a.ehsz > len then
    ({ a with
       ehsz := toInt32 (toSizeT a.ehsz - len)
       remainingHeaderBytes := toSizeT (a.remainingHeaderBytes - len) }, toInt32 len)
  else
    ({ a with
       m_controlCounter := a.m_controlCounter + 1
       remainingHeaderBytes := toSizeT (a.remainingHeaderBytes - a.ehsz) }, a.ehsz)

/-- Phase `m_controlCounter == 3`: read the identifier of the next frame. -/
def read_ID3_Header_3 (a : Audio) (data : List Nat) : Audio × Int :=
  if a.remainingHeaderBytes = 0 then
    ({ a with m_controlCounter := 99 }, 0)
  else
    let frameid := [byteAt data 0, byteAt data 1, byteAt data 2, byteAt data 3, 0]
    let padding : Bool :=
      byteAt data 0 = 0 ∧ byteAt data 1 = 0 ∧ byteAt data 2 = 0 ∧ byteAt data 3 = 0
    ({ a with
       m_controlCounter := if padding then 98 else a.m_controlCounter + 1
       frameid := frameid
       tag := frameid.take 4 ++ a.tag.drop 4
       remainingHeaderBytes := toSizeT (a.remainingHeaderBytes - 4) }, 4)

/-- Phase `m_controlCounter == 4`: read the frame size and the two flag bytes. -/
def read_ID3_Header_4 (a : Audio) (data : List Nat) : Audio × Int :=
  let framesize := if a.ID3version = 4 then bigEndian data 4 7 else bigEndian data 4 8
  let compressed : Bool := byteAt data 5 &&& 0x80 ≠ 0
  let remaining := toSizeT (toSizeT (toSizeT (a.remainingHeaderBytes - 4) - 1) - 1)
  let a1 : Audio :=
    { a with
      m_controlCounter := 6
      framesize := framesize
      compressed := compressed
      remainingHeaderBytes := remaining }
  if compressed then
    ({ a1 with remainingHeaderBytes := toSizeT (remaining - 4) }, 6 + 4)
  else (a1, 6)

/-- Phase `m_controlCounter == 5`: skip what is left of the frame. -/
def read_ID3_Header_5 (a : Audio) (len : Int) : Audio × Int :=
  if a.framesize > len then
    ({ a with
       framesize := toSizeT (a.framesize - len)
       remainingHeaderBytes := toSizeT (a.remainingHeaderBytes - len) }, toInt32 len)
  else
    ({ a with
       m_controlCounter := 3
       remainingHeaderBytes := toSizeT (a.remainingHeaderBytes - a.framesize) },
     toInt32 a.framesize)

/-- Phase `m_controlCounter == 6`: read the value of the frame. An index past the
end of `APIC_pos` / `APIC_size` leaves the arrays as they are. The text of
the frame goes through `m_ibuff`, a block of `m_ibuffSize` bytes: the result
is `none` when the copy loop with its terminator (`fs + 1` bytes),
`unicode2utf8` (the converted bytes and a terminator) or `latinToUTF8` stores
a byte behind the block, or `showID3Tag` does so in `m_chbuf`. -/
def read_ID3_Header_6 (env : Env) (a : Audio) (data : List Nat) : Option (Audio × Int) :=
  let a1 : Audio := { a with m_controlCounter := 5 }
  let ch := byteAt data 0
  let isUnicode : Bool := ch = 1
  if startsWith a1.tag (lit "APIC") then
    if a1.getDatamode = Datamode.AUDIO_LOCALFILE then
      some ({ a1 with
         APIC_pos := a1.APIC_pos.set a1.numID3Header.toNat
           (toSizeT (a1.totalId3Size + a1.id3Size - a1.remainingHeaderBytes))
         APIC_size := a1.APIC_size.set a1.numID3Header.toNat a1.framesize }, 0)
    else some (a1, 0)
  else if startsWith a1.tag (lit "SYLT") ∨ startsWith a1.tag (lit "TXXX")
      ∨ startsWith a1.tag (lit "USLT") then
    if a1.getDatamode = Datamode.AUDIO_LOCALFILE then
      some ({ a1 with
         SYLT_seen := true
         SYLT_pos := toSizeT (a1.id3Size - a1.remainingHeaderBytes)
         SYLT_size := a1.framesize }, 0)
    else some (a1, 0)
  else
    let fs := if a1.framesize > 1024 then 1024 else a1.framesize
    if fs + 1 > a1.m_ibuffSize then none
    else
      let m_ibuff := (List.range fs.toNat).map (fun i => byteAt data i)
      let a2 : Audio :=
        { a1 with
          framesize := toSizeT (a1.framesize - fs)
          remainingHeaderBytes := toSizeT (a1.remainingHeaderBytes - fs) }
      if isUnicode ∧ fs > 1 ∧ ((unicode2utf8 m_ibuff fs.toNat).length : Int) + 1 > a2.m_ibuffSize
      then none
      else
        let m_ibuff1 := if isUnicode ∧ fs > 1 then unicode2utf8 m_ibuff fs.toNat else m_ibuff
        if ¬ isUnicode ∧
            (latinToUTF8_written (m_ibuff1.filter (fun c => c > 0x1F)) a2.m_ibuffSize false : Int)
              > a2.m_ibuffSize
        then none
        else
          let m_ibuff2 :=
            if ¬ isUnicode then
              (latinToUTF8 (m_ibuff1.filter (fun c => c > 0x1F)) a2.m_ibuffSize false).1
            else m_ibuff1
          (showID3Tag env a2 a2.tag m_ibuff2).map (fun a3 => (a3, toInt32 fs))

/-- Phase `m_controlCounter == 10`: the frames of ID3v2.2, with 3-byte identifier
and 3-byte size. The value is kept in the local `value[256]`, of which at
most 251 bytes are stored; the result is `none` when `showID3Tag` stores a
byte behind `m_chbuf`. -/
def read_ID3_Header_10 (env : Env) (a : Audio) (data : List Nat) : Option (Audio × Int) :=
  if a.universal_tmp > 0 then
    if a.universal_tmp > 256 then
      some ({ a with universal_tmp := toSizeT (a.universal_tmp - 256) }, 256)
    else
      some ({ a with universal_tmp := 0 }, toUInt8 a.universal_tmp)
  else
    let frameid := [byteAt data 0, byteAt data 1, byteAt data 2, 0] ++ a.frameid.drop 4
    let tag := frameid.take 4 ++ a.tag.drop 4
    let dataLen0 := bigEndian (data.drop 3) 3 8
    let universal_tmp := dataLen0
    let remaining := toSizeT (toSizeT (a.remainingHeaderBytes - 3) - 3)
    let dataLen := if dataLen0 > 249 then 249 else dataLen0
    let value := (List.range dataLen.toNat).map (fun i => byteAt data (7 + i))
      ++ [env.stackByte, 0]
    let a1 : Audio :=
      { a with frameid := frameid, tag := tag, universal_tmp := universal_tmp
               remainingHeaderBytes := remaining }
    let shown : Option Audio :=
      if startsWith tag (lit "PIC") then
        if a1.getDatamode = Datamode.AUDIO_LOCALFILE then
          some { a1 with
            APIC_pos := a1.APIC_pos.set a1.numID3Header.toNat
              (toSizeT (a1.id3Size - a1.remainingHeaderBytes))
            APIC_size := a1.APIC_size.set a1.numID3Header.toNat universal_tmp }
        else some a1
      else if startsWith tag (lit "SLT") then
        if a1.getDatamode = Datamode.AUDIO_LOCALFILE then
          some { a1 with
            SYLT_seen := true
            SYLT_pos := toSizeT (a1.id3Size - a1.remainingHeaderBytes)
            SYLT_size := universal_tmp }
        else some a1
      else showID3Tag env a1 tag value
    shown.map (fun a2 =>
      let remaining2 := toSizeT (a2.remainingHeaderBytes - universal_tmp)
      ({ a2 with
         remainingHeaderBytes := remaining2
         universal_tmp := toSizeT (universal_tmp - dataLen)
         m_controlCounter :=
           if remaining2 = 0 then 98 else if dataLen = 0 then 98 else a2.m_controlCounter },
       3 + 3 + dataLen))

/-- Phase `m_controlCounter == 98`: skip the padding. -/
def read_ID3_Header_98 (a : Audio) (len : Int) : Audio × Int :=
  if a.remainingHeaderBytes > len then
    ({ a with remainingHeaderBytes := toSizeT (a.remainingHeaderBytes - len) }, toInt32 len)
  else
    ({ a with m_controlCounter := 99 }, toInt32 a.remainingHeaderBytes)

/-- Phase `m_controlCounter == 99`: look for a further ID3 tag. The image and
lyrics hooks are taken as installed. -/
def read_ID3_Header_99 (a : Audio) (data : List Nat) : Audio × Int :=
  let a1 : Audio := { a with m_audioDataStart := toSizeT (a.m_audioDataStart + a.id3Size) }
  if byteAt data 0 = 73 ∧ byteAt data 1 = 68 ∧ byteAt data 2 = 51 then
    ({ a1 with
       m_controlCounter := 0
       numID3Header := toUInt8 (a1.numID3Header + 1)
       totalId3Size := toSizeT (a1.totalId3Size + a1.id3Size) }, 0)
  else
    let a2 : Audio :=
      { a1 with
        m_controlCounter := 100
        m_audioDataSize := toSizeT (a1.m_contentlength - a1.m_audioDataStart) }
    let a3 : Audio :=
      if a2.APIC_pos.getD 0 0 ≠ 0 then
        { a2 with events := a2.events ++
            [Event.audio_id3image (a2.APIC_pos.getD 0 0) (a2.APIC_size.getD 0 0)] }
      else a2
    let a4 : Audio :=
      if a3.SYLT_seen then
        { a3 with events := a3.events ++ [Event.audio_id3lyrics a3.SYLT_pos a3.SYLT_size] }
      else a3
    ({ a4 with
       numID3Header := 0
       totalId3Size := 0
       APIC_pos := [0, 0, 0]
       APIC_size := [0, 0, 0] }, 0)

/-- Method `Audio::read_ID3_Header(data, len)`: the object after the call and the
value returned; `none` when the call stores a byte behind `m_ibuff` or
`m_chbuf` (phases 6 and 10), which leaves the behaviour of the program
undefined. -/
def read_ID3_Header (env : Env) (a : Audio) (data : List Nat) (len : Int) :
    Option (Audio × Int) :=
  if a.m_controlCounter = 0 then some (read_ID3_Header_0 a data)
  else if a.m_controlCounter = 1 then some (read_ID3_Header_1 a data)
  else if a.m_controlCounter = 2 then some (read_ID3_Header_2 a len)
  else if a.m_controlCounter = 3 then some (read_ID3_Header_3 a data)
  else if a.m_controlCounter = 4 then some (read_ID3_Header_4 a data)
  else if a.m_controlCounter = 5 then some (read_ID3_Header_5 a len)
  else if a.m_controlCounter = 6 then read_ID3_Header_6 env a data
  else if a.m_controlCounter = 10 then read_ID3_Header_10 env a data
  else if a.m_controlCounter = 98 then some (read_ID3_Header_98 a len)
  else if a.m_controlCounter = 99 then some (read_ID3_Header_99 a data)
  else some (a, 0)

/-- Method `Audio::readAudioHeader(bytes)`; `data` lists the bytes at
`InBuff.getReadPtr()`. Returns the object and the number of bytes read. The
branches of `CODEC_WAV`, `CODEC_M4A` and `CODEC_FLAC` are left out: their
parsers work on members that this record does not hold (see `AudioWAV` and
`AudioFLAC` for the first and the last). The result is `none` when
`read_ID3_Header` is. -/
def readAudioHeader (env : Env) (a : Audio) (data : List Nat) (bytes : Int) :
    Option (Audio × Int) :=
  let r : Option (Audio × Int) :=
    if a.m_codec = Codec.CODEC_MP3 then
      (read_ID3_Header env a data bytes).map (fun p =>
        if p.2 ≥ 0 then (p.1, toSizeT p.2)
        else ({ p.1 with m_controlCounter := 100 }, 0))
    else if a.m_codec = Codec.CODEC_AAC then
      some ({ a with m_audioDataSize := a.getFileSize, m_controlCounter := 100 }, 0)
    else if a.m_codec = Codec.CODEC_OPUS ∨ a.m_codec = Codec.CODEC_VORBIS
        ∨ a.m_codec = Codec.CODEC_OGG then
      some ({ a with m_controlCounter := 100 }, 0)
    else some (a, 0)
  r.map (fun r => if ¬ r.1.isRunning then (r.1, 0) else r)

/-- The header loop of `Audio::processLocalFile`: while
`m_controlCounter != 100`, each turn calls
`InBuff.bytesWasRead(readAudioHeader(InBuff.getMaxAvailableBytes()))`. The
buffered input is `stream` from offset `pos` on; `wins` lists the window
lengths of the successive turns. Returns the object, the offset reached and
the values returned by the calls made; `none` when one of the calls is. -/
def readHeaderLoop (env : Env) (stream : List Nat) :
    List Int → Audio → Nat → Option (Audio × Nat × List Int)
  | [], a, pos => some (a, pos, [])
  | len :: wins, a, pos =>
    if a.m_controlCounter = 100 then some (a, pos, [])
    else
      match readAudioHeader env a (stream.drop pos) len with
      | none => none
      | some r =>
        (readHeaderLoop env stream wins r.1 (pos + r.2.toNat)).map
          (fun q => (q.1, q.2.1, r.2 :: q.2.2))

end Audio

/-- The object after `Audio::setDefaults` with the statics of
`read_ID3_Header` at their initial values, set up to play a local MP3 file
of `fileSize` bytes; `m_ibuff` and `m_chbuf` have `buffSize` bytes each. -/
def Audio.localMP3 (fileSize buffSize : Int) : Audio :=
  { m_controlCounter := 0, m_datamode := Datamode.AUDIO_LOCALFILE, m_codec := Codec.CODEC_MP3,
    m_f_running := true, m_f_unsync := false, m_f_exthdr := false, m_f_m3u8data := false,
    m_contentlength := 0, m_audioDataSize := 0, m_audioDataStart := 0, m_ID3Size := 0,
    m_ibuffSize := buffSize, m_chbufSize := buffSize, audiofile := some fileSize,
    id3Size := 0, totalId3Size := 0, remainingHeaderBytes := 0, universal_tmp := 0,
    ID3version := 0, ehsz := 0, tag := [0, 0, 0, 0, 0], frameid := [0, 0, 0, 0, 0],
    framesize := 0, compressed := false, APIC_size := [0, 0, 0], APIC_pos := [0, 0, 0],
    SYLT_seen := false, SYLT_size := 0, SYLT_pos := 0, numID3Header := 0, events := [] }

/-! ## The WAV header parser -/

/-- The values of `m_streamType` (declared in Audio.h). -/
inductive StreamType where
  | ST_NONE | ST_WEBFILE | ST_WEBSTREAM
  deriving DecidableEq, Repr

/-- The C expression `x << n` on a value that fits the result type. -/
def shl (x : Int) (n : Nat) : Int := x * 2 ^ n

/-- Members of `class Audio` and the function-local statics of
`read_WAV_Header` (`headerSize`, `cs`, `bts`) that the WAV header parser reads
or writes. -/
structure AudioWAV where
  m_controlCounter : Int
  m_datamode : Datamode
  m_streamType : StreamType
  m_codec : Codec
  m_f_running : Bool
  m_contentlength : Int
  m_audioDataSize : Int
  m_audioDataStart : Int
  m_bitsPerSample : Int
  m_channels : Int
  m_sampleRate : Int
  m_bitRate : Int
  /-- Size of the open `audiofile`, `none` when no file is open. -/
  audiofile : Option Int
  headerSize : Int
  cs : Int
  bts : Int

namespace AudioWAV

/-- Method `Audio::getDatamode`. -/
def getDatamode (a : AudioWAV) : Datamode := a.m_datamode

/-- Method `Audio::getFileSize` (built with file system support). -/
def getFileSize (a : AudioWAV) : Int :=
  match a.audiofile with
  | none => if a.m_contentlength > 0 then a.m_contentlength else 0
  | some size => toSizeT size

/-- Method `Audio::stopSong`, as far as it touches the members kept here: the
player stops, the file is closed, the codec is forgotten. -/
def stopSong (a : AudioWAV) : AudioWAV :=
  { a with
    m_f_running := false
    m_streamType :=
      if a.m_f_running ∧ a.getDatamode = Datamode.AUDIO_LOCALFILE then StreamType.ST_NONE
      else a.m_streamType
    audiofile := none
    m_codec := Codec.CODEC_NONE }

/-- Method `Audio::setBitsPerSample`. -/
def setBitsPerSample (a : AudioWAV) (bits : Int) : AudioWAV :=
  if bits ≠ 16 ∧ bits ≠ 8 then a else { a with m_bitsPerSample := toUInt8 bits }

/-- Method `Audio::setChannels`. -/
def setChannels (a : AudioWAV) (ch : Int) : AudioWAV := { a with m_channels := toUInt8 ch }

/-- Method `Audio::setSampleRate`: a rate of zero is replaced by 44100. -/
def setSampleRate (a : AudioWAV) (sampRate : Int) : AudioWAV :=
  { a with m_sampleRate := if sampRate = 0 then 44100 else sampRate }

/-- Method `Audio::setBitrate`. -/
def setBitrate (a : AudioWAV) (br : Int) : AudioWAV := { a with m_bitRate := toSizeT br }

/-- Phase `m_controlCounter == 0` of `Audio::read_WAV_Header`: the RIFF tag. -/
def read_WAV_Header_0 (a : AudioWAV) (data : List Nat) : AudioWAV × Int :=
  let a1 : AudioWAV := { a with m_controlCounter := a.m_controlCounter + 1 }
  if byteAt data 0 ≠ 82 ∨ byteAt data 1 ≠ 73 ∨ byteAt data 2 ≠ 70 ∨ byteAt data 3 ≠ 70 then
    ({ a1 with headerSize := 0 }, -1)
  else ({ a1 with headerSize := 4 }, 4)

/-- Phase `m_controlCounter == 1`: the RIFF chunk size. -/
def read_WAV_Header_1 (a : AudioWAV) (data : List Nat) : AudioWAV × Int :=
  ({ a with
     m_controlCounter := a.m_controlCounter + 1
     cs := toSizeT ((byteAt data 0 : Int) + shl (byteAt data 1) 8 + shl (byteAt data 2) 16
            + shl (byteAt data 3) 24 - 8)
     headerSize := toSizeT (a.headerSize + 4) }, 4)

/-- Phase `m_controlCounter == 2`: the WAVE tag. -/
def read_WAV_Header_2 (a : AudioWAV) (data : List Nat) : AudioWAV × Int :=
  let a1 : AudioWAV := { a with m_controlCounter := a.m_controlCounter + 1 }
  if byteAt data 0 ≠ 87 ∨ byteAt data 1 ≠ 65 ∨ byteAt data 2 ≠ 86 ∨ byteAt data 3 ≠ 69 then
    (a1, -1)
  else ({ a1 with headerSize := toSizeT (a1.headerSize + 4) }, 4)

/-- Phase `m_controlCounter == 3`: seek the tag of the fmt chunk, four bytes
at a time. -/
def read_WAV_Header_3 (a : AudioWAV) (data : List Nat) : AudioWAV × Int :=
  if byteAt data 0 = 102 ∧ byteAt data 1 = 109 ∧ byteAt data 2 = 116 then
    ({ a with
       m_controlCounter := a.m_controlCounter + 1
       headerSize := toSizeT (a.headerSize + 4) }, 4)
  else ({ a with headerSize := toSizeT (a.headerSize + 4) }, 4)

/-- Phase `m_controlCounter == 4`: the size of the fmt chunk. -/
def read_WAV_Header_4 (a : AudioWAV) (data : List Nat) : AudioWAV × Int :=
  let cs := toSizeT ((byteAt data 0 : Int) + shl (byteAt data 1) 8)
  let a1 : AudioWAV := { a with m_controlCounter := a.m_controlCounter + 1, cs := cs }
  if cs > 40 then (a1, -1)
  else
    ({ a1 with
       bts := toUInt8 (cs - 16)
       headerSize := toSizeT (a1.headerSize + 4) }, 4)

/-- Phase `m_controlCounter == 5`: the 16 bytes of the fmt payload. -/
def read_WAV_Header_5 (a : AudioWAV) (data : List Nat) : AudioWAV × Int :=
  let a1 : AudioWAV := { a with m_controlCounter := a.m_controlCounter + 1 }
  let fc := toUInt16 ((byteAt data 0 : Int) + shl (byteAt data 1) 8)
  let nic := toUInt16 ((byteAt data 2 : Int) + shl (byteAt data 3) 8)
  let sr := toSizeT ((byteAt data 4 : Int) + shl (byteAt data 5) 8 + shl (byteAt data 6) 16
    + shl (byteAt data 7) 24)
  let bps := toUInt16 ((byteAt data 14 : Int) + shl (byteAt data 15) 8)
  if bps ≠ 8 ∧ bps ≠ 16 then (a1.stopSong, -1)
  else if nic ≠ 1 ∧ nic ≠ 2 then (a1.stopSong, -1)
  else if fc ≠ 1 then (a1.stopSong, -1)
  else
    let a2 := (((a1.setBitsPerSample bps).setChannels nic).setSampleRate sr).setBitrate
      (toSizeT (nic * sr * bps))
    ({ a2 with headerSize := toSizeT (a2.headerSize + 16) }, 16)

/-- Phase `m_controlCounter == 6`: skip what the fmt chunk holds beyond 16
bytes. -/
def read_WAV_Header_6 (a : AudioWAV) : AudioWAV × Int :=
  ({ a with
     m_controlCounter := a.m_controlCounter + 1
     headerSize := toSizeT (a.headerSize + a.bts) }, a.bts)

/-- Phase `m_controlCounter == 7`: seek the tag of the data chunk, one byte at
a time. -/
def read_WAV_Header_7 (a : AudioWAV) (data : List Nat) : AudioWAV × Int :=
  if byteAt data 0 = 100 ∧ byteAt data 1 = 97 ∧ byteAt data 2 = 116 ∧ byteAt data 3 = 97 then
    ({ a with
       m_controlCounter := a.m_controlCounter + 1
       headerSize := toSizeT (a.headerSize + 4) }, 4)
  else ({ a with headerSize := toSizeT (a.headerSize + 1) }, 1)

/-- Phase `m_controlCounter == 8`: the size of the data chunk. -/
def read_WAV_Header_8 (a : AudioWAV) (data : List Nat) : AudioWAV × Int :=
  let cs := toSizeT ((byteAt data 0 : Int) + shl (byteAt data 1) 8 + shl (byteAt data 2) 16
    + shl (byteAt data 3) 24)
  let a1 : AudioWAV :=
    { a with
      m_controlCounter := a.m_controlCounter + 1
      headerSize := toSizeT (a.headerSize + 4) }
  let a2 : AudioWAV :=
    if a1.getDatamode = Datamode.AUDIO_LOCALFILE then
      { a1 with m_contentlength := a1.getFileSize }
    else a1
  if cs ≠ 0 then ({ a2 with m_audioDataSize := toSizeT (cs - 44) }, 4)
  else
    let a3 : AudioWAV :=
      if a2.getDatamode = Datamode.AUDIO_LOCALFILE then
        { a2 with m_audioDataSize := toSizeT (a2.getFileSize - a2.headerSize) }
      else a2
    let a4 : AudioWAV :=
      if a3.m_streamType = StreamType.ST_WEBFILE then
        { a3 with m_audioDataSize := toSizeT (a3.m_contentlength - a3.headerSize) }
      else a3
    (a4, 4)

/-- Method `Audio::read_WAV_Header(data, len)`: the object after the call and
the value returned. -/
def read_WAV_Header (a : AudioWAV) (data : List Nat) (_len : Int) : AudioWAV × Int :=
  if a.m_controlCounter = 0 then read_WAV_Header_0 a data
  else if a.m_controlCounter = 1 then read_WAV_Header_1 a data
  else if a.m_controlCounter = 2 then read_WAV_Header_2 a data
  else if a.m_controlCounter = 3 then read_WAV_Header_3 a data
  else if a.m_controlCounter = 4 then read_WAV_Header_4 a data
  else if a.m_controlCounter = 5 then read_WAV_Header_5 a data
  else if a.m_controlCounter = 6 then read_WAV_Header_6 a
  else if a.m_controlCounter = 7 then read_WAV_Header_7 a data
  else if a.m_controlCounter = 8 then read_WAV_Header_8 a data
  else ({ a with m_controlCounter := 100, m_audioDataStart := a.headerSize }, 0)

/-- Successive calls of `read_WAV_Header` on the buffered input `stream`, each
followed by the release of the bytes it reports: the calls stop at the first
fatal result and once a call has set `m_controlCounter` to 100. Returns the
object, the offset reached and the values returned by the calls made. -/
def readWAVLoop (stream : List Nat) : List Int → AudioWAV → Nat → AudioWAV × Nat × List Int
  | [], a, pos => (a, pos, [])
  | len :: wins, a, pos =>
    if a.m_controlCounter = 100 then (a, pos, [])
    else
      let r := read_WAV_Header a (stream.drop pos) len
      if r.2 < 0 then (r.1, pos, [r.2])
      else
        let q := readWAVLoop stream wins r.1 (pos + r.2.toNat)
        (q.1, q.2.1, r.2 :: q.2.2)

/-- The object after `Audio::setDefaults`, set up to play a local WAV file of
`fileSize` bytes; the statics of `read_WAV_Header` hold `hs`, `cs`, `bts`. -/
def localWAV (fileSize hs cs bts : Int) : AudioWAV :=
  { m_controlCounter := 0, m_datamode := Datamode.AUDIO_LOCALFILE,
    m_streamType := StreamType.ST_NONE, m_codec := Codec.CODEC_WAV, m_f_running := true,
    m_contentlength := 0, m_audioDataSize := 0, m_audioDataStart := 0,
    m_bitsPerSample := 16, m_channels := 2, m_sampleRate := 16000, m_bitRate := 0,
    audiofile := some fileSize, headerSize := hs, cs := cs, bts := bts }

end AudioWAV

/-! ## The FLAC header parser -/

/-- Modelled from the spec: the phase numbers of `read_FLAC_Header` are an
anonymous enumeration of Audio.h, absent from Audio.cpp; only their being
distinct matters. -/
def FLAC_BEGIN : Int := 0

/-- Modelled from the spec: phase "magic string", see `FLAC_BEGIN`. -/
def FLAC_MAGIC : Int := 1

/-- Modelled from the spec: phase "metadata block header", see `FLAC_BEGIN`. -/
def FLAC_MBH : Int := 2

/-- Modelled from the spec: phase "stream info", see `FLAC_BEGIN`. -/
def FLAC_SINFO : Int := 3

/-- Modelled from the spec: phase "padding", see `FLAC_BEGIN`. -/
def FLAC_PADDING : Int := 4

/-- Modelled from the spec: phase "application", see `FLAC_BEGIN`. -/
def FLAC_APP : Int := 5

/-- Modelled from the spec: phase "seek table", see `FLAC_BEGIN`. -/
def FLAC_SEEK : Int := 6

/-- Modelled from the spec: phase "vorbis comment", see `FLAC_BEGIN`. -/
def FLAC_VORBIS : Int := 7

/-- Modelled from the spec: phase "cue sheet", see `FLAC_BEGIN`. -/
def FLAC_CUESHEET : Int := 8

/-- Modelled from the spec: phase "picture", see `FLAC_BEGIN`. -/
def FLAC_PICTURE : Int := 9

/-- Modelled from the spec: the terminal phase, see `FLAC_BEGIN`. -/
def FLAC_OKAY : Int := 100

/-- Members of `class Audio` and the function-local statics of
`read_FLAC_Header` (`headerSize`, `retvalue`, `f_lastMetaBlock`, `picPos`,
`picLen`) that the FLAC header parser reads or writes. The members
`m_flacMaxBlockSize` and `m_flacMaxFrameSize` are declared in Audio.h; they are
taken to hold the value assigned to them. -/
structure AudioFLAC where
  m_controlCounter : Int
  m_datamode : Datamode
  m_streamType : StreamType
  m_codec : Codec
  m_f_running : Bool
  m_contentlength : Int
  m_audioDataSize : Int
  m_audioDataStart : Int
  m_flacMaxBlockSize : Int
  m_flacMaxFrameSize : Int
  m_flacSampleRate : Int
  m_flacNumChannels : Int
  m_flacBitsPerSample : Int
  m_flacTotalSamplesInStream : Int
  /-- Size of the open `audiofile`, `none` when no file is open. -/
  audiofile : Option Int
  /-- The member `InBuff`. -/
  InBuff : AudioBuffer
  headerSize : Int
  retvalue : Int
  f_lastMetaBlock : Bool
  picPos : Int
  picLen : Int
  /-- The hook calls made so far, oldest first. -/
  events : List Event

namespace AudioFLAC

/-- Method `Audio::getDatamode`. -/
def getDatamode (a : AudioFLAC) : Datamode := a.m_datamode

/-- Method `Audio::getFileSize` (built with file system support). -/
def getFileSize (a : AudioFLAC) : Int :=
  match a.audiofile with
  | none => if a.m_contentlength > 0 then a.m_contentlength else 0
  | some size => toSizeT size

/-- Method `Audio::stopSong`, as far as it touches the members kept here. -/
def stopSong (a : AudioFLAC) : AudioFLAC :=
  { a with
    m_f_running := false
    m_streamType :=
      if a.m_f_running ∧ a.getDatamode = Datamode.AUDIO_LOCALFILE then StreamType.ST_NONE
      else a.m_streamType
    audiofile := none
    m_codec := Codec.CODEC_NONE }

/-- The little-endian 32-bit value `data[0] + (data[1] << 8) + (data[2] << 16)
+ (data[3] << 24)` read at offset `off`, as a `size_t`. -/
def le32 (data : List Nat) (off : Nat) : Int :=
  toSizeT ((byteAt data off : Int) + shl (byteAt data (off + 1)) 8
    + shl (byteAt data (off + 2)) 16 + shl (byteAt data (off + 3)) 24)

/-- The bytes `strncpy(m_chbuf, data + off, n)` followed by the terminator
leave in `m_chbuf`, read as a C string. `strncpy` reads `n` bytes or up to
the first NUL, whichever comes first; the result is `none` when that takes it
behind the last byte of the window. -/
def strncpyAt (data : List Nat) (off n : Nat) : Option (List Nat) :=
  let src := (data.drop off).take n
  if src.length = n ∨ 0 ∈ src then some (cstr src) else none

/-- The comment loop of the phase `FLAC_VORBIS`: `n` turns are left, `off` is
the distance of the moving `data` from the start of the window, kept in the
32 bits of a pointer. The result is `none` when a length or a comment is read
outside the window. -/
def read_FLAC_Header_comments (data : List Nat) : Nat → Nat → List Event → Option (List Event)
  | 0, _, ev => some ev
  | n + 1, off, ev =>
    if data.length < off + 4 then none
    else
      let commentLength := (le32 data off).toNat
      let off1 := (off + 4) % 4294967296
      let ev1 : Option (List Event) :=
        if commentLength < 512 then
          (strncpyAt data off1 commentLength).map (fun s => ev ++ [Event.audio_id3data s])
        else some ev
      match ev1 with
      | none => none
      | some ev2 => read_FLAC_Header_comments data n ((off1 + commentLength) % 4294967296) ev2

/-- The pending skip at the head of `Audio::read_FLAC_Header`, entered when
`retvalue != 0`. -/
def read_FLAC_Header_skip (a : AudioFLAC) (len : Int) : AudioFLAC × Int :=
  if a.retvalue > len then
    let len1 := if len > a.InBuff.getMaxBlockSize then a.InBuff.getMaxBlockSize else len
    ({ a with retvalue := toSizeT (a.retvalue - len1) }, toInt32 len1)
  else ({ a with retvalue := 0 }, toInt32 a.retvalue)

/-- Phase `FLAC_BEGIN`. -/
def read_FLAC_Header_BEGIN (a : AudioFLAC) : AudioFLAC × Int :=
  let a1 : AudioFLAC :=
    { a with
      headerSize := 0
      retvalue := 0
      m_audioDataStart := 0
      picPos := 0
      picLen := 0
      f_lastMetaBlock := false
      m_controlCounter := FLAC_MAGIC }
  if a1.getDatamode = Datamode.AUDIO_LOCALFILE then
    ({ a1 with m_contentlength := a1.getFileSize }, 0)
  else (a1, 0)

/-- Phase `FLAC_MAGIC`. `specialIndexOf` is told that 10 bytes lie at `data`;
the result is `none` when the window has fewer. -/
def read_FLAC_Header_MAGIC (a : AudioFLAC) (data : List Nat) : Option (AudioFLAC × Int) :=
  if data.length < 10 then none
  else if specialIndexOf data (lit "OggS") 10 = 0 then
    some ({ a with headerSize := 0, retvalue := 0, m_controlCounter := FLAC_OKAY }, 0)
  else if specialIndexOf data (lit "fLaC") 10 ≠ 0 then some (a.stopSong, -1)
  else some ({ a with m_controlCounter := FLAC_MBH, headerSize := 4, retvalue := 4 }, 0)

/-- Phase `FLAC_MBH`: the header byte of a metadata block, or the end of the
metadata. The image hook is taken as installed. The byte `*data` is read in
either case; the result is `none` when the window is empty. -/
def read_FLAC_Header_MBH (a : AudioFLAC) (data : List Nat) : Option (AudioFLAC × Int) :=
  if data.length < 1 then none
  else
  let blockType0 := byteAt data 0
  if ¬ a.f_lastMetaBlock then
    let blockType := blockType0 &&& 127
    let cc : Int :=
      if blockType = 0 then FLAC_SINFO
      else if blockType = 1 then FLAC_PADDING
      else if blockType = 2 then FLAC_APP
      else if blockType = 3 then FLAC_SEEK
      else if blockType = 4 then FLAC_VORBIS
      else if blockType = 5 then FLAC_CUESHEET
      else if blockType = 6 then FLAC_PICTURE
      else a.m_controlCounter
    some ({ a with
       f_lastMetaBlock := if blockType0 &&& 128 ≠ 0 then true else a.f_lastMetaBlock
       m_controlCounter := cc
       headerSize := toSizeT (a.headerSize + 1)
       retvalue := 1 }, 0)
  else
    let a1 : AudioFLAC :=
      { a with
        m_controlCounter := FLAC_OKAY
        m_audioDataStart := a.headerSize
        m_audioDataSize := toSizeT (a.m_contentlength - a.headerSize) }
    let a2 : AudioFLAC :=
      if a1.picLen ≠ 0 then
        { a1 with events := a1.events ++ [Event.audio_id3image a1.picPos a1.picLen] }
      else a1
    some ({ a2 with retvalue := 0 }, 0)

/-- Phase `FLAC_SINFO`: the stream info block. The bytes 0 to 12 of the
window are read up to the test of the frame size, the bytes 13 to 16 up to
the test of the bit depth, the bytes 17 to 20 after it. The duration that is
logged is `m_flacTotalSamplesInStream / m_flacSampleRate`, an argument of
`AUDIO_INFO` that is evaluated whether or not the hook is installed. The
result is `none` when a byte is read outside the window or the division is
by zero. -/
def read_FLAC_Header_SINFO (a : AudioFLAC) (data : List Nat) : Option (AudioFLAC × Int) :=
  if data.length < 13 then none
  else
  let l := bigEndian data 3 8
  let a1 : AudioFLAC :=
    { a with
      m_flacMaxBlockSize := bigEndian (data.drop 5) 2 8
      m_flacMaxFrameSize := bigEndian (data.drop 10) 3 8 }
  if a1.m_flacMaxFrameSize > a1.InBuff.getMaxBlockSize then some (a1.stopSong, -1)
  else if data.length < 17 then none
  else
    let nextval := (bigEndian (data.drop 13) 3 8).toNat
    let bps := (((nextval &&& 0x01) <<< 4) % 256 + ((byteAt data 16 >>> 4) + 1)) % 256
    let a2 : AudioFLAC :=
      { a1 with
        m_flacSampleRate := ((nextval >>> 4 : Nat) : Int)
        m_flacNumChannels := ((((nextval &&& 0x06) >>> 1) + 1 : Nat) : Int)
        m_flacBitsPerSample := (bps : Int) }
    if bps ≠ 8 ∧ bps ≠ 16 then some (a2.stopSong, -1)
    else if data.length < 21 then none
    else
      let a3 : AudioFLAC :=
        { a2 with m_flacTotalSamplesInStream := bigEndian (data.drop 17) 4 8 }
      if bps ≠ 0 ∧ a3.m_flacTotalSamplesInStream ≠ 0 ∧ a3.m_flacSampleRate = 0 then none
      else
        let retvalue := toSizeT (l + 3)
        some ({ a3 with
           m_controlCounter := FLAC_MBH
           retvalue := retvalue
           headerSize := toSizeT (a3.headerSize + retvalue) }, 0)

/-- The phases `FLAC_PADDING`, `FLAC_APP`, `FLAC_SEEK` and `FLAC_CUESHEET`,
which share their text: schedule the skip of the block. The result is `none`
when the window does not hold the 3 bytes of the length. -/
def read_FLAC_Header_block (a : AudioFLAC) (data : List Nat) : Option (AudioFLAC × Int) :=
  if data.length < 3 then none
  else
  let retvalue := toSizeT (bigEndian data 3 8 + 3)
  some ({ a with
     m_controlCounter := FLAC_MBH
     retvalue := retvalue
     headerSize := toSizeT (a.headerSize + retvalue) }, 0)

/-- Phase `FLAC_VORBIS`: the vendor string and the comments. The hook
`audio_id3data` is taken as installed. The copies into `m_chbuf` are capped
at 15 + 495 + 1 and at 511 + 1 bytes, within the 512 + 64 bytes of the
smaller `m_chbuf`; the reads are not checked against the window, and the
result is `none` when one of them leaves it. -/
def read_FLAC_Header_VORBIS (a : AudioFLAC) (data : List Nat) : Option (AudioFLAC × Int) :=
  if data.length < 7 then none
  else
  let vendorLength := bigEndian data 3 8
  let vendorStringLength0 := le32 data 3
  let off := if vendorStringLength0 ≠ 0 then 7 else 3
  let vendorStringLength := if vendorStringLength0 > 495 then 495 else vendorStringLength0
  match strncpyAt data off vendorStringLength.toNat with
  | none => none
  | some vendor =>
    let ev1 := a.events ++ [Event.audio_id3data (lit "VENDOR_STRING: " ++ vendor)]
    let off1 := off + vendorStringLength.toNat
    if data.length < off1 + 4 then none
    else
      let commentListLength := le32 data off1
      match read_FLAC_Header_comments data commentListLength.toNat (off1 + 4) ev1 with
      | none => none
      | some ev2 =>
        let retvalue := toSizeT (vendorLength + 3)
        some ({ a with
           events := ev2
           m_controlCounter := FLAC_MBH
           retvalue := retvalue
           headerSize := toSizeT (a.headerSize + retvalue) }, 0)

/-- Phase `FLAC_PICTURE`. The result is `none` when the window does not hold
the 3 bytes of the length. -/
def read_FLAC_Header_PICTURE (a : AudioFLAC) (data : List Nat) : Option (AudioFLAC × Int) :=
  if data.length < 3 then none
  else
  let picLen := bigEndian data 3 8
  let retvalue := toSizeT (picLen + 3)
  some ({ a with
     picLen := picLen
     picPos := a.headerSize
     m_controlCounter := FLAC_MBH
     retvalue := retvalue
     headerSize := toSizeT (a.headerSize + retvalue) }, 0)

/-- Method `Audio::read_FLAC_Header(data, len)`: the object after the call and
the value returned. `data` lists the bytes of the window, the bytes that the
caller has made available at the pointer; `len` is the count it passes. The
result is `none` when the call reads a byte outside the window or divides by
zero: its behaviour is then not determined by the input. -/
def read_FLAC_Header (a : AudioFLAC) (data : List Nat) (len : Int) : Option (AudioFLAC × Int) :=
  if a.retvalue ≠ 0 then some (read_FLAC_Header_skip a len)
  else if a.m_controlCounter = FLAC_BEGIN then some (read_FLAC_Header_BEGIN a)
  else if a.m_controlCounter = FLAC_MAGIC then read_FLAC_Header_MAGIC a data
  else if a.m_controlCounter = FLAC_MBH then read_FLAC_Header_MBH a data
  else if a.m_controlCounter = FLAC_SINFO then read_FLAC_Header_SINFO a data
  else if a.m_controlCounter = FLAC_PADDING then read_FLAC_Header_block a data
  else if a.m_controlCounter = FLAC_APP then read_FLAC_Header_block a data
  else if a.m_controlCounter = FLAC_SEEK then read_FLAC_Header_block a data
  else if a.m_controlCounter = FLAC_VORBIS then read_FLAC_Header_VORBIS a data
  else if a.m_controlCounter = FLAC_CUESHEET then read_FLAC_Header_block a data
  else if a.m_controlCounter = FLAC_PICTURE then read_FLAC_Header_PICTURE a data
  else some (a, 0)

/-- The object in the phase `FLAC_SINFO` with no skip pending, playing a local
FLAC file of `fileSize` bytes through an input buffer whose maximal block size
is `mbs`. -/
def atSINFO (fileSize mbs : Int) (m0 : Memory) : AudioFLAC :=
  { m_controlCounter := FLAC_SINFO, m_datamode := Datamode.AUDIO_LOCALFILE,
    m_streamType := StreamType.ST_NONE, m_codec := Codec.CODEC_FLAC, m_f_running := true,
    m_contentlength := fileSize, m_audioDataSize := 0, m_audioDataStart := 0,
    m_flacMaxBlockSize := 0, m_flacMaxFrameSize := 0, m_flacSampleRate := 0,
    m_flacNumChannels := 0, m_flacBitsPerSample := 0, m_flacTotalSamplesInStream := 0,
    audiofile := some fileSize, InBuff := AudioBuffer.fresh 0 mbs m0,
    headerSize := 5, retvalue := 0, f_lastMetaBlock := false, picPos := 0, picLen := 0,
    events := [] }

end AudioFLAC

/-! ## Reference encodings and test objects -/

/-- Standard UTF-8 encoding of a code point below `0x10000`: one byte below
`0x80`, two bytes below `0x800`, three bytes otherwise. -/
def utf8Standard (u : Nat) : List Nat :=
  if u < 0x80 then [u]
  else if u < 0x800 then [0xC0 + u / 64, 0x80 + u % 64]
  else [0xE0 + u / 4096, 0x80 + u / 64 % 64, 0x80 + u % 64]

/-- The bytes of a UTF-16 text stored high byte first: the mark `FE FF`, then
the code units `us`. -/
def utf16BE (us : List Nat) : List Nat :=
  [0xFE, 0xFF] ++ us.flatMap (fun u => [u / 256, u % 256])

/-- The bytes of a UTF-16 text stored low byte first: the mark `FF FE`, then
the code units `us`. -/
def utf16LE (us : List Nat) : List Nat :=
  [0xFF, 0xFE] ++ us.flatMap (fun u => [u % 256, u / 256])

/-- The 16 bytes of the payload of a WAV fmt chunk, all fields little-endian:
format code, channel count, sample rate, data rate, block size, bits per
sample. -/
def fmtPayload (fc nic sr dr dbs bps : Nat) : List Nat :=
  [fc % 256, fc / 256 % 256, nic % 256, nic / 256 % 256,
   sr % 256, sr / 256 % 256, sr / 65536 % 256, sr / 16777216 % 256,
   dr % 256, dr / 256 % 256, dr / 65536 % 256, dr / 16777216 % 256,
   dbs % 256, dbs / 256 % 256, bps % 256, bps / 256 % 256]

/-- The four bytes of a little-endian 32-bit value. -/
def le32Bytes (s : Nat) : List Nat :=
  [s % 256, s / 256 % 256, s / 65536 % 256, s / 16777216 % 256]

/-- The bytes of a FLAC metadata block `STREAMINFO` behind its header byte:
the 24-bit block length 34, then minimal and maximal block size (16 bits
each), minimal and maximal frame size (24 bits each), sample rate (20 bits),
channel count minus one (3 bits), bits per sample minus one (5 bits), total
samples (36 bits), all most significant bit first, then the MD5 signature. -/
def streaminfoBlock (minBlk maxBlk minFrm maxFrm sr ch1 bps1 total : Nat) (md5 : List Nat) :
    List Nat :=
  [0, 0, 34,
   minBlk / 256 % 256, minBlk % 256,
   maxBlk / 256 % 256, maxBlk % 256,
   minFrm / 65536 % 256, minFrm / 256 % 256, minFrm % 256,
   maxFrm / 65536 % 256, maxFrm / 256 % 256, maxFrm % 256,
   sr / 4096 % 256, sr / 16 % 256, sr % 16 * 16 + ch1 % 8 * 2 + bps1 / 16 % 2,
   bps1 % 16 * 16 + total / 4294967296 % 16,
   total / 16777216 % 256, total / 65536 % 256, total / 256 % 256, total % 256] ++ md5

/-- An input buffer of capacity 4: 6 bytes of RAM are requested, 2 of them
are the reserve behind the nominal end, the maximal block size is 2. -/
def AudioBuffer.ring4 (m0 : Memory) : AudioBuffer :=
  (AudioBuffer.init (AudioBuffer.fresh 6 2 m0) false false true).1

/-- What holds of the object while `read_ID3_Header` walks through a tag of
version `v` whose header announces `S` bytes, the first tag of the file
starting at `start`: phase, bytes of the tag still to come, size of the
current frame, current frame identifier and the hook calls made. -/
structure ID3Facts (a : Audio) (S v start : Int) (cc rem fsz : Int) (tag : List Nat)
    (ev : List Event) : Prop where
  cc : a.m_controlCounter = cc
  codec : a.m_codec = Codec.CODEC_MP3
  run : a.m_f_running = true
  ext : a.m_f_exthdr = false
  ehsz : a.ehsz = 0
  id3 : a.id3Size = S + 10
  ver : a.ID3version = v
  rem : a.remainingHeaderBytes = rem
  fsz : a.framesize = fsz
  tag : a.tag = tag
  ev : a.events = ev
  start : a.m_audioDataStart = start
  apic : a.APIC_pos.getD 0 0 = 0
  sylt : a.SYLT_seen = false

/-- An ID3v2 tag (version `v`, flags 0) that holds the single frame `TIT2`
with text encoding 0 (Latin-1) and text `t`; `S = 11 + |t|` is the tag size,
`z0 .. z3` are the four bytes of the frame size `1 + |t|`. -/
def tit2Tag (v s0 s1 s2 s3 z0 z1 z2 z3 : Nat) (t : List Nat) : List Nat :=
  [73, 68, 51, v, 0, 0, s0, s1, s2, s3, 84, 73, 84, 50, z0, z1, z2, z3, 0, 0, 0] ++ t

/-- The canonical 44-byte header of a WAV file with 1000 bytes of 16-bit
stereo PCM at 44100 Hz. -/
def wavHeader44 : List Nat :=
  lit "RIFF" ++ le32Bytes 1036 ++ lit "WAVE" ++ lit "fmt " ++ le32Bytes 16
    ++ fmtPayload 1 2 44100 176400 4 16 ++ lit "data" ++ le32Bytes 1000

/-- The 72-byte header of a WAV file with 4 bytes of 16-bit stereo PCM at
44100 Hz whose fmt chunk is followed by a `LIST` chunk of type `INFO` that
holds the comment `metadata`; the tag of the data chunk is at offset 64. -/
def wavHeaderInfoList : List Nat :=
  lit "RIFF" ++ le32Bytes 68 ++ lit "WAVE" ++ lit "fmt " ++ le32Bytes 16
    ++ fmtPayload 1 2 44100 176400 4 16
    ++ lit "LIST" ++ le32Bytes 20 ++ lit "INFO" ++ lit "ICMT" ++ le32Bytes 8 ++ lit "metadata"
    ++ lit "data" ++ le32Bytes 4

/-! ## The M4A header parser -/

/-- Modelled from the spec: `specialIndexOf(base, str, baselen, exact)` with its
fourth parameter (declared in Audio.h, see `specialIndexOf`). With `exact` set
the byte that follows the match has to be the NUL that ends `str`. -/
def specialIndexOf_exact (base str : List Nat) (baselen : Nat) (exact : Bool) : Int :=
  if str.length > baselen then -1
  else
    match (List.range (baselen - str.length)).find?
        (fun i => matchAt base (if exact then str ++ [0] else str) i) with
    | some i => (i : Int)
    | none => -1

/-- Modelled from the spec: the phase numbers of `read_M4A_Header` are an
anonymous enumeration of Audio.h, absent from Audio.cpp; only their being
distinct matters, and that `setDefaults` leaves the first one (0) in
`m_controlCounter` while the callers test for the last one (100). -/
def M4A_BEGIN : Int := 0

/-- Modelled from the spec: phase "file type atom", see `M4A_BEGIN`. -/
def M4A_FTYP : Int := 1

/-- Modelled from the spec: phase "check the atom", see `M4A_BEGIN`. -/
def M4A_CHK : Int := 2

/-- Modelled from the spec: phase "movie atom", see `M4A_BEGIN`. -/
def M4A_MOOV : Int := 3

/-- Modelled from the spec: phase "track atom", see `M4A_BEGIN`. -/
def M4A_TRAK : Int := 5

/-- Modelled from the spec: phase "media data atom", see `M4A_BEGIN`. -/
def M4A_MDAT : Int := 6

/-- Modelled from the spec: phase "item list atom", see `M4A_BEGIN`. -/
def M4A_ILST : Int := 7

/-- Modelled from the spec: phase "almost ready", see `M4A_BEGIN`. -/
def M4A_AMRDY : Int := 99

/-- Modelled from the spec: the terminal phase, see `M4A_BEGIN`. -/
def M4A_OKAY : Int := 100

/-- Members of `class Audio` and the function-local statics of
`read_M4A_Header` (`headerSize`, `retvalue`, `atomsize`, `audioDataPos`,
`picPos`, `picLen`, `cnt`) that the M4A code reads or writes. -/
structure AudioM4A where
  m_controlCounter : Int
  m_datamode : Datamode
  m_streamType : StreamType
  m_codec : Codec
  m_f_running : Bool
  m_contentlength : Int
  m_audioDataSize : Int
  m_audioDataStart : Int
  m_bitsPerSample : Int
  m_channels : Int
  m_sampleRate : Int
  m_bitRate : Int
  m_f_m4aID3dataAreRead : Bool
  m_resumeFilePos : Int
  m_haveNewFilePos : Int
  m_stsz_position : Int
  m_stsz_numEntries : Int
  /-- Size of the open `audiofile`, `none` when no file is open. -/
  audiofile : Option Int
  /-- The member `InBuff`. -/
  InBuff : AudioBuffer
  headerSize : Int
  retvalue : Int
  atomsize : Int
  audioDataPos : Int
  picPos : Int
  picLen : Int
  cnt : Int
  /-- The hook calls made so far, oldest first. -/
  events : List Event

namespace AudioM4A

/-- Method `Audio::getDatamode`. -/
def getDatamode (a : AudioM4A) : Datamode := a.m_datamode

/-- Method `Audio::stopSong`, as far as it touches the members kept here. -/
def stopSong (a : AudioM4A) : AudioM4A :=
  { a with
    m_f_running := false
    m_streamType :=
      if a.m_f_running ∧ a.getDatamode = Datamode.AUDIO_LOCALFILE then StreamType.ST_NONE
      else a.m_streamType
    audiofile := none
    m_codec := Codec.CODEC_NONE }

/-- Method `Audio::setBitsPerSample`. -/
def setBitsPerSample (a : AudioM4A) (bits : Int) : AudioM4A :=
  if bits ≠ 16 ∧ bits ≠ 8 then a else { a with m_bitsPerSample := toUInt8 bits }

/-- Method `Audio::setChannels`. -/
def setChannels (a : AudioM4A) (ch : Int) : AudioM4A := { a with m_channels := toUInt8 ch }

/-- Method `Audio::setSampleRate`: a rate of zero is replaced by 44100. -/
def setSampleRate (a : AudioM4A) (sampRate : Int) : AudioM4A :=
  { a with m_sampleRate := if sampRate = 0 then 44100 else sampRate }

/-- Method `Audio::setBitrate`. -/
def setBitrate (a : AudioM4A) (br : Int) : AudioM4A := { a with m_bitRate := toSizeT br }

/-- Method `Audio::setFilePos(pos)`, as far as it touches the members kept
here; `m_resumeFilePos` is an `int32_t`, `m_haveNewFilePos` holds the value
assigned to it. -/
def setFilePos (a : AudioM4A) (pos : Int) : AudioM4A :=
  if a.audiofile = none then a
  else if a.m_codec = Codec.CODEC_OPUS then a
  else if a.m_codec = Codec.CODEC_VORBIS then a
  else { a with m_resumeFilePos := toInt32 pos, m_haveNewFilePos := pos }

/-- The pending skip at the head of `Audio::read_M4A_Header`, entered when
`retvalue != 0`. -/
def read_M4A_Header_skip (a : AudioM4A) (len : Int) : AudioM4A × Int :=
  let len1 := if len > a.InBuff.getMaxBlockSize then a.InBuff.getMaxBlockSize else len
  if a.retvalue > len1 then
    ({ a with retvalue := toSizeT (a.retvalue - len1), cnt := toSizeT (a.cnt + len1) },
      toInt32 len1)
  else ({ a with retvalue := 0, cnt := 0 }, toInt32 a.retvalue)

/-- Phase `M4A_BEGIN`. -/
def read_M4A_Header_BEGIN (a : AudioM4A) : AudioM4A × Int :=
  ({ a with
     headerSize := 0
     retvalue := 0
     atomsize := 0
     audioDataPos := 0
     picPos := 0
     picLen := 0
     m_controlCounter := M4A_FTYP }, 0)

/-- Phase `M4A_FTYP`: the file type atom and its subtype. -/
def read_M4A_Header_FTYP (a : AudioM4A) (data : List Nat) : AudioM4A × Int :=
  let a1 : AudioM4A := { a with atomsize := bigEndian data 4 8 }
  if specialIndexOf data (lit "ftyp") 10 ≠ 4 then (a1.stopSong, -1)
  else
    let m4a := specialIndexOf data (lit "M4A ") 20
    let isom := specialIndexOf data (lit "isom") 20
    let mp42 := specialIndexOf data (lit "mp42") 20
    if m4a ≠ 8 ∧ isom ≠ 8 ∧ mp42 ≠ 8 then (a1.stopSong, -1)
    else
      ({ a1 with
         m_controlCounter := M4A_CHK
         retvalue := a1.atomsize
         headerSize := a1.atomsize }, 0)

/-- Phase `M4A_CHK`: route on the name of the atom that starts here. -/
def read_M4A_Header_CHK (a : AudioM4A) (data : List Nat) : AudioM4A × Int :=
  let a1 : AudioM4A := { a with atomsize := bigEndian data 4 8 }
  if specialIndexOf data (lit "moov") 10 = 4 then ({ a1 with m_controlCounter := M4A_MOOV }, 0)
  else if specialIndexOf data (lit "free") 10 = 4 then
    ({ a1 with retvalue := a1.atomsize, headerSize := toSizeT (a1.headerSize + a1.atomsize) }, 0)
  else if specialIndexOf data (lit "mdat") 10 = 4 then
    ({ a1 with m_controlCounter := M4A_MDAT }, 0)
  else
    ({ a1 with retvalue := a1.atomsize, headerSize := toSizeT (a1.headerSize + a1.atomsize) }, 0)

/-- Phase `M4A_MOOV`: descend to `trak` or `ilst`, or leave the atom. -/
def read_M4A_Header_MOOV (a : AudioM4A) (data : List Nat) (len : Int) : AudioM4A × Int :=
  if specialIndexOf data (lit "trak") len.toNat > 0 then
    let offset := specialIndexOf data (lit "trak") len.toNat
    ({ a with
       retvalue := toSizeT offset
       atomsize := toSizeT (a.atomsize - offset)
       headerSize := toSizeT (a.headerSize + offset)
       m_controlCounter := M4A_TRAK }, 0)
  else if specialIndexOf data (lit "ilst") len.toNat > 0 then
    let offset := specialIndexOf data (lit "ilst") len.toNat
    ({ a with
       retvalue := toSizeT offset
       atomsize := toSizeT (a.atomsize - offset)
       headerSize := toSizeT (a.headerSize + offset)
       m_controlCounter := M4A_ILST }, 0)
  else
    ({ a with
       m_controlCounter := M4A_CHK
       headerSize := toSizeT (a.headerSize + a.atomsize)
       retvalue := a.atomsize }, 0)

/-- Phase `M4A_TRAK`: the `esds` box, which is only reported but stops the
player on an unknown object type or on more than two channels, and the `mp4a`
box with the audio parameters. -/
def read_M4A_Header_TRAK (a : AudioM4A) (data : List Nat) (len : Int) : AudioM4A × Int :=
  let a1 : AudioM4A :=
    if specialIndexOf data (lit "esds") len.toNat > 0 then
      let esds := (specialIndexOf data (lit "esds") len.toNat).toNat
      let ASC := (toUInt16 (bigEndian (data.drop (esds + 39)) 2 8)).toNat
      let objectType := (ASC >>> 11) % 256
      let a2 : AudioM4A := if 1 ≤ objectType ∧ objectType ≤ 6 then a else a.stopSong
      let chConfig := ((ASC &&& 0x78) >>> 3) % 256
      if chConfig > 2 then a2.stopSong else a2
    else a
  if specialIndexOf data (lit "mp4a") len.toNat > 0 then
    let offset := (specialIndexOf data (lit "mp4a") len.toNat).toNat
    let channel := toInt32 (bigEndian (data.drop (offset + 20)) 2 8)
    let bps := toInt32 (bigEndian (data.drop (offset + 22)) 2 8)
    let srate := toInt32 (bigEndian (data.drop (offset + 26)) 4 8)
    let a3 := (((a1.setBitsPerSample bps).setChannels channel).setSampleRate
      (toSizeT srate)).setBitrate (toInt32 (bps * channel * srate))
    if a3.audioDataPos ≠ 0 ∧ a3.getDatamode = Datamode.AUDIO_LOCALFILE then
      (({ a3 with m_controlCounter := M4A_AMRDY } : AudioM4A).setFilePos a3.audioDataPos, 0)
    else ({ a3 with m_controlCounter := M4A_MOOV }, 0)
  else ({ a1 with m_controlCounter := M4A_MOOV }, 0)

/-- The table `info` of the item names sought in `ilst`, each with the text
that `sprintf` puts before its value. -/
def ilstInfo : List (String × String) :=
  [("nam", "Title: "), ("ART", "Artist: "), ("alb", "Album: "), ("too", "Encoder: "),
   ("cmt", "Comment: "), ("wrt", "Composer: "), ("tmpo", "BPM: "), ("trkn", "Track Number: "),
   ("day", "Year: "), ("cpil", "Compile: "), ("aART", "Album Artist: "), ("gen", "Types of: ")]

/-- The loop over `info` that `read_M4A_Header` (phase `M4A_ILST`) and
`seek_m4a_ilst` share word for word: every item found in the window is
reported through `audio_id3data` (taken as installed). -/
def ilstItems (data : List Nat) (len : Int) (ev : List Event) : List Event :=
  ilstInfo.foldl
    (fun ev item =>
      let offset := specialIndexOf_exact data (lit item.1) len.toNat true
      if offset > 0 then
        let off1 := offset.toNat + 19
        let off2 := if byteAt data off1 = 0 then off1 + 1 else off1
        let value := (cstr (data.drop off2)).take 254
        let chbuf := lit item.2 ++ value
        if byteAt chbuf 0 ≠ 0 then ev ++ [Event.audio_id3data chbuf] else ev
      else ev)
    ev

/-- Phase `M4A_ILST`: the items of the list, unless they were read before,
and the cover art. -/
def read_M4A_Header_ILST (a : AudioM4A) (data : List Nat) (len : Int) : AudioM4A × Int :=
  let a1 : AudioM4A :=
    if ¬ a.m_f_m4aID3dataAreRead then { a with events := ilstItems data len a.events } else a
  let offset := specialIndexOf data (lit "covr") len.toNat
  let a2 : AudioM4A :=
    if offset > 0 then
      { a1 with
        picLen := toSizeT (bigEndian (data.drop (offset.toNat + 4)) 4 8 - 4)
        picPos := toSizeT (a1.headerSize + offset + 12) }
    else a1
  ({ a2 with m_controlCounter := M4A_MOOV }, 0)

/-- Phase `M4A_MDAT`. -/
def read_M4A_Header_MDAT (a : AudioM4A) (data : List Nat) : AudioM4A × Int :=
  ({ a with
     m_audioDataSize := toSizeT (bigEndian data 4 8 - 8)
     retvalue := 8
     headerSize := toSizeT (a.headerSize + 8)
     m_controlCounter := M4A_AMRDY }, 0)

/-- Phase `M4A_AMRDY`. -/
def read_M4A_Header_AMRDY (a : AudioM4A) : AudioM4A × Int :=
  let a1 : AudioM4A := { a with m_audioDataStart := a.headerSize }
  let a2 : AudioM4A :=
    if a1.picLen ≠ 0 then
      { a1 with events := a1.events ++ [Event.audio_id3image a1.picPos a1.picLen] }
    else a1
  ({ a2 with m_controlCounter := M4A_OKAY }, 0)

/-- Method `Audio::read_M4A_Header(data, len)`: the object after the call and
the value returned. -/
def read_M4A_Header (a : AudioM4A) (data : List Nat) (len : Int) : AudioM4A × Int :=
  let a0 : AudioM4A := if a.m_controlCounter = M4A_BEGIN then { a with retvalue := 0 } else a
  if a0.retvalue ≠ 0 then read_M4A_Header_skip a0 len
  else if a0.m_controlCounter = M4A_BEGIN then read_M4A_Header_BEGIN a0
  else if a0.m_controlCounter = M4A_FTYP then read_M4A_Header_FTYP a0 data
  else if a0.m_controlCounter = M4A_CHK then read_M4A_Header_CHK a0 data
  else if a0.m_controlCounter = M4A_MOOV then read_M4A_Header_MOOV a0 data len
  else if a0.m_controlCounter = M4A_TRAK then read_M4A_Header_TRAK a0 data len
  else if a0.m_controlCounter = M4A_ILST then read_M4A_Header_ILST a0 data len
  else if a0.m_controlCounter = M4A_MDAT then read_M4A_Header_MDAT a0 data
  else if a0.m_controlCounter = M4A_AMRDY then read_M4A_Header_AMRDY a0
  else (a0, 0)

/-- The end of `Audio::seek_m4a_ilst`, from the point where the atom `ilst`
has been found in the open file and `len` bytes of it have been read into
`data`: the items are reported and the one-time flag is set. -/
def seek_m4a_ilst_found (a : AudioM4A) (data : List Nat) (len : Int) : AudioM4A :=
  { a with events := ilstItems data len a.events, m_f_m4aID3dataAreRead := true }

/-- The loop of `Audio::m4a_correctResumeFilePos`: `n` entries of the table
are left, `fp` is the position of the file cursor. A `read()` beyond the end
of the file yields -1, kept as the byte 255. -/
def m4a_correctResumeFilePos_loop (file : List Nat) (resumeFilePos : Int) :
    Nat → Nat → Int → Int
  | 0, _, pos => pos
  | n + 1, fp, pos =>
    let u32 : Int := (file.getD fp 255 : Int) * 16777216 + (file.getD (fp + 1) 255 : Int) * 65536
      + (file.getD (fp + 2) 255 : Int) * 256 + (file.getD (fp + 3) 255 : Int)
    let pos1 := toSizeT (pos + u32)
    if pos1 ≥ resumeFilePos then pos1
    else m4a_correctResumeFilePos_loop file resumeFilePos n (fp + 4) pos1

/-- Method `Audio::m4a_correctResumeFilePos(resumeFilePos)` on the open file
whose bytes are `file`. -/
def m4a_correctResumeFilePos (a : AudioM4A) (file : List Nat) (resumeFilePos : Int) : Int :=
  if a.m_stsz_position = 0 then a.m_audioDataStart
  else
    m4a_correctResumeFilePos_loop file resumeFilePos a.m_stsz_numEntries.toNat
      a.m_stsz_position.toNat a.m_audioDataStart

end AudioM4A

/-- Method `Audio::determineOggCodec(data, len)`; the parameter `len` is not
used. A C condition holds when its value differs from zero. -/
def determineOggCodec (data : List Nat) : Codec :=
  let idx := specialIndexOf data (lit "OggS") 6
  if idx ≠ 0 then
    if specialIndexOf data (lit "fLaC") 6 ≠ 0 then Codec.CODEC_FLAC else Codec.CODEC_NONE
  else
    let data1 := data.drop 27
    if specialIndexOf data1 (lit "OpusHead") 40 ≥ 0 then Codec.CODEC_OPUS
    else if specialIndexOf data1 (lit "fLaC") 40 ≥ 0 then Codec.CODEC_FLAC
    else if specialIndexOf data1 (lit "vorbis") 40 ≥ 0 then Codec.CODEC_VORBIS
    else Codec.CODEC_NONE

/-! ## Driving a header parser over a stream -/

/-- Successive calls of a header parser `call` on the buffered input `stream`,
each followed by the release of the bytes it reports, as `processLocalFile`
and `processWebStream` do while `m_controlCounter != 100`: the calls stop at
the first fatal (negative) result and once the phase is 100. Returns the
object, the offset reached and the values returned by the calls made. -/
def headerLoop {S : Type} (call : S → List Nat → Int → S × Int) (phase : S → Int)
    (stream : List Nat) : List Int → S → Nat → S × Nat × List Int
  | [], a, pos => (a, pos, [])
  | len :: wins, a, pos =>
    if phase a = 100 then (a, pos, [])
    else
      let r := call a (stream.drop pos) len
      if r.2 < 0 then (r.1, pos, [r.2])
      else
        let q := headerLoop call phase stream wins r.1 (pos + r.2.toNat)
        (q.1, q.2.1, r.2 :: q.2.2)

/-- The loop `headerLoop` for a parser `call` whose reads are checked against
the window: each call is given the `len` bytes of `stream` at the offset
reached (fewer when the stream ends before). The result is `none` when one of
the calls is. -/
def windowLoop {S : Type} (call : S → List Nat → Int → Option (S × Int)) (phase : S → Int)
    (stream : List Nat) : List Int → S → Nat → Option (S × Nat × List Int)
  | [], a, pos => some (a, pos, [])
  | len :: wins, a, pos =>
    if phase a = 100 then some (a, pos, [])
    else
      match call a ((stream.drop pos).take len.toNat) len with
      | none => none
      | some r =>
        if r.2 < 0 then some (r.1, pos, [r.2])
        else
          (windowLoop call phase stream wins r.1 (pos + r.2.toNat)).map
            (fun q => (q.1, q.2.1, r.2 :: q.2.2))

/-- The calls of `read_FLAC_Header` on `stream` with the window lengths `wins`. -/
def AudioFLAC.readFLACLoop (stream : List Nat) (wins : List Int) (a : AudioFLAC) (pos : Nat) :
    Option (AudioFLAC × Nat × List Int) :=
  windowLoop AudioFLAC.read_FLAC_Header (fun a => a.m_controlCounter) stream wins a pos

/-- The calls of `read_M4A_Header` on `stream` with the window lengths `wins`. -/
def AudioM4A.readM4ALoop (stream : List Nat) (wins : List Int) (a : AudioM4A) (pos : Nat) :
    AudioM4A × Nat × List Int :=
  headerLoop AudioM4A.read_M4A_Header (fun a => a.m_controlCounter) stream wins a pos

/-- The result `q` of the later calls, with the values `rs` of the earlier
calls put in front. -/
def prependRets {S : Type} (rs : List Int) (q : S × Nat × List Int) : S × Nat × List Int :=
  (q.1, q.2.1, rs ++ q.2.2)

/-- With windows of at least one byte, at most `N` calls take the parser from
the object `a` at offset `pos` to the object `b` at offset `pos1`; none of
them is fatal and the values they return sum to `total`. -/
def HeaderRun {S : Type} (call : S → List Nat → Int → S × Int) (phase : S → Int)
    (stream : List Nat) (N : Nat) (a : S) (pos : Nat) (b : S) (pos1 : Nat) (total : Int) :
    Prop :=
  ∀ wins : List Int, (∀ w ∈ wins, 1 ≤ w ∧ w < 2147483648) → N ≤ wins.length →
    ∃ (k : Nat) (rs : List Int), k ≤ N ∧ rs.sum = total ∧ (∀ r ∈ rs, 0 ≤ r) ∧
      headerLoop call phase stream wins a pos
        = prependRets rs (headerLoop call phase stream (wins.drop k) b pos1)

/-- With windows of at least `W` bytes, at most `N` calls take the parser
from the object `a` at offset `pos` to the object `b` at offset `pos1`; each
of them returns, none is fatal and the values they return sum to `total`. -/
def WindowRun {S : Type} (call : S → List Nat → Int → Option (S × Int)) (phase : S → Int)
    (stream : List Nat) (W : Int) (N : Nat) (a : S) (pos : Nat) (b : S) (pos1 : Nat)
    (total : Int) : Prop :=
  ∀ wins : List Int, (∀ w ∈ wins, W ≤ w ∧ w < 2147483648) → N ≤ wins.length →
    ∃ (k : Nat) (rs : List Int), k ≤ N ∧ rs.sum = total ∧ (∀ r ∈ rs, 0 ≤ r) ∧
      windowLoop call phase stream wins a pos
        = (windowLoop call phase stream (wins.drop k) b pos1).map (prependRets rs)

/-- The calls of `read_FLAC_Header` made while a skip is pending, with the
window lengths `wins`: the object reached and the values returned. What the
window holds has no influence. -/
def AudioFLAC.pendingSkipCalls (data : List Nat) :
    List Int → AudioFLAC → Option (AudioFLAC × List Int)
  | [], a => some (a, [])
  | len :: wins, a =>
    if a.retvalue = 0 then some (a, [])
    else
      match AudioFLAC.read_FLAC_Header a data len with
      | none => none
      | some r => (AudioFLAC.pendingSkipCalls data wins r.1).map (fun q => (q.1, r.2 :: q.2))

/-- The calls of `read_M4A_Header` made while a skip is pending, with the
window lengths `wins`: the object reached and the values returned. -/
def AudioM4A.pendingSkipCalls (data : List Nat) : List Int → AudioM4A → AudioM4A × List Int
  | [], a => (a, [])
  | len :: wins, a =>
    if a.retvalue = 0 then (a, [])
    else
      let r := AudioM4A.read_M4A_Header a data len
      let q := AudioM4A.pendingSkipCalls data wins r.1
      (q.1, r.2 :: q.2)

/-! ## Streams built from their parts -/

/-- The three bytes of a big-endian 24-bit value. -/
def be24Bytes (l : Nat) : List Nat := [l / 65536 % 256, l / 256 % 256, l % 256]

/-- The four bytes of a big-endian 32-bit value. -/
def be32Bytes (s : Nat) : List Nat :=
  [s / 16777216 % 256, s / 65536 % 256, s / 256 % 256, s % 256]

/-- A FLAC metadata block: its type and its payload. -/
structure FlacBlock where
  type : Nat
  payload : List Nat

/-- The bytes of a metadata block: the header byte with the
last-metadata-block flag in its top bit, the 24-bit length of the payload,
the payload. -/
def flacBlockBytes (last : Bool) (b : FlacBlock) : List Nat :=
  ((if last then 128 else 0) + b.type) :: (be24Bytes b.payload.length ++ b.payload)

/-- A FLAC stream: the magic, the metadata blocks `blocks` without the flag,
the block `lastBlock` with the flag, the audio frames. -/
def flacStream (blocks : List FlacBlock) (lastBlock : FlacBlock) (audio : List Nat) : List Nat :=
  lit "fLaC" ++ (blocks.flatMap (flacBlockBytes false) ++ (flacBlockBytes true lastBlock ++ audio))

/-- The sum of `4 + l` over the payload lengths `l` of the blocks. -/
def flacBlocksSize (blocks : List FlacBlock) : Nat :=
  (blocks.map (fun b => 4 + b.payload.length)).sum

/-- The payload of a `VORBIS_COMMENT` block: the length-prefixed vendor
string, the number of comments, the length-prefixed comments (all lengths
32 bits, little-endian). -/
def vorbisPayload (vendor : List Nat) (comments : List (List Nat)) : List Nat :=
  le32Bytes vendor.length ++ vendor ++ le32Bytes comments.length
    ++ comments.flatMap (fun c => le32Bytes c.length ++ c)

/-- The stream info phase, given the bytes `block` of a block behind its
header byte and nothing else, returns 0: the block has the 21 bytes that the
phase reads, passes the two tests and does not make the duration a division
by zero. -/
def AudioFLAC.acceptsStreamInfo (a : AudioFLAC) (block : List Nat) : Prop :=
  (AudioFLAC.read_FLAC_Header_SINFO a block).map Prod.snd = some 0

/-- The vorbis comment phase, given the bytes `block` of a block behind its
header byte and nothing else, returns: the lengths found in the block keep
every read of the phase inside the block. -/
def AudioFLAC.readsVorbisInside (a : AudioFLAC) (block : List Nat) : Prop :=
  (AudioFLAC.read_FLAC_Header_VORBIS a block).isSome = true

/-- What holds of the object between two steps of `read_FLAC_Header`: phase,
pending skip, header size so far, whether the last block has been announced,
content length and input buffer. -/
structure FlacFacts (a : AudioFLAC) (cc ret hs : Int) (last : Bool) (cl : Int)
    (ib : AudioBuffer) : Prop where
  cc : a.m_controlCounter = cc
  ret : a.retvalue = ret
  hs : a.headerSize = hs
  last : a.f_lastMetaBlock = last
  cl : a.m_contentlength = cl
  ib : a.InBuff = ib

/-- An atom of an MP4 file: its four-byte name and its body. -/
structure M4aAtom where
  name : List Nat
  body : List Nat

/-- The declared size of an atom: its 8 header bytes and its body. -/
def M4aAtom.size (t : M4aAtom) : Nat := 8 + t.body.length

/-- The bytes of an atom: size, name, body. -/
def M4aAtom.bytes (t : M4aAtom) : List Nat := be32Bytes t.size ++ (t.name ++ t.body)

/-- An M4A stream: the atom `ftyp` whose body starts with `brand`, the atoms
`atoms`, then the header of an atom `mdat` of declared size `m` and what
follows it. -/
def m4aStream (brand ftypRest : List Nat) (atoms : List M4aAtom) (m : Nat) (rest : List Nat) :
    List Nat :=
  M4aAtom.bytes ⟨lit "ftyp", brand ++ ftypRest⟩
    ++ (atoms.flatMap M4aAtom.bytes ++ (be32Bytes m ++ (lit "mdat" ++ rest)))

/-- An item of the atom `ilst`: the atom named by the byte `0xA9` and the
three letters `name`, which holds one atom `data` with the type 1 (text), the
locale 0 and the text `value`. -/
def ilstItem (name value : List Nat) : List Nat :=
  be32Bytes (24 + value.length) ++ [169] ++ name ++ be32Bytes (16 + value.length)
    ++ lit "data" ++ be32Bytes 1 ++ be32Bytes 0 ++ value

/-- The sum of the declared sizes of the atoms. -/
def m4aAtomsSize (atoms : List M4aAtom) : Nat := (atoms.map M4aAtom.size).sum

/-- What holds of the object between two steps of `read_M4A_Header`: phase,
pending skip, header size so far and input buffer. -/
structure M4aFacts (a : AudioM4A) (cc ret hs : Int) (ib : AudioBuffer) : Prop where
  cc : a.m_controlCounter = cc
  ret : a.retvalue = ret
  hs : a.headerSize = hs
  ib : a.InBuff = ib

/-! ## States of the input buffer -/

/-- A player of a FLAC stream before the first call of `read_FLAC_Header`:
phase `FLAC_BEGIN`, nothing pending, content length `cl`, maximal block size
`mbs` of the input buffer. -/
def AudioFLAC.webFLAC (cl mbs : Int) : AudioFLAC :=
  { m_controlCounter := FLAC_BEGIN, m_datamode := Datamode.AUDIO_DATA,
    m_streamType := StreamType.ST_NONE, m_codec := Codec.CODEC_FLAC, m_f_running := true,
    m_contentlength := cl, m_audioDataSize := 0, m_audioDataStart := 0,
    m_flacMaxBlockSize := 0, m_flacMaxFrameSize := 0, m_flacSampleRate := 0,
    m_flacNumChannels := 0, m_flacBitsPerSample := 0, m_flacTotalSamplesInStream := 0,
    audiofile := none, InBuff := AudioBuffer.fresh 0 mbs (fun _ => 0),
    headerSize := 0, retvalue := 0, f_lastMetaBlock := false, picPos := 0, picLen := 0,
    events := [] }

/-- A player of an M4A stream in the phase `cc` with `ret` bytes still to
skip; the maximal block size of the input buffer is `mbs`. -/
def AudioM4A.webM4A (cc ret mbs : Int) : AudioM4A :=
  { m_controlCounter := cc, m_datamode := Datamode.AUDIO_DATA,
    m_streamType := StreamType.ST_NONE, m_codec := Codec.CODEC_M4A, m_f_running := true,
    m_contentlength := 0, m_audioDataSize := 0, m_audioDataStart := 0,
    m_bitsPerSample := 16, m_channels := 2, m_sampleRate := 16000, m_bitRate := 0,
    m_f_m4aID3dataAreRead := false, m_resumeFilePos := -1, m_haveNewFilePos := 0,
    m_stsz_position := 0, m_stsz_numEntries := 0, audiofile := none,
    InBuff := AudioBuffer.fresh 0 mbs (fun _ => 0),
    headerSize := 0, retvalue := ret, atomsize := 0, audioDataPos := 0, picPos := 0,
    picLen := 0, cnt := 0, events := [] }

section

open Audio

/-! ## Auxiliary lemmas -/


theorem lit_ID3 : lit "ID3" = [73, 68, 51] := by decide
theorem lit_xml : lit "?xml" = [63, 120, 109, 108] := by decide
theorem lit_Title : lit "Title: " = [84, 105, 116, 108, 101, 58, 32] := by decide
theorem lit_TIT2 : lit "TIT2" = [84, 73, 84, 50] := by decide
theorem lit_APIC : lit "APIC" = [65, 80, 73, 67] := by decide
theorem lit_SYLT : lit "SYLT" = [83, 89, 76, 84] := by decide
theorem lit_TXXX : lit "TXXX" = [84, 88, 88, 88] := by decide
theorem lit_USLT : lit "USLT" = [85, 83, 76, 84] := by decide

theorem byteAt_cons_zero (x : Nat) (l : List Nat) : byteAt (x :: l) 0 = x := rfl
theorem byteAt_cons_succ (x : Nat) (l : List Nat) (i : Nat) :
    byteAt (x :: l) (i + 1) = byteAt l i := rfl

theorem byteAt_eq_getElem (l : List Nat) (i : Nat) (h : i < l.length) : byteAt l i = l[i] := by
  simp [byteAt, List.getD, List.getElem?_eq_getElem h]

theorem map_byteAt_range (l : List Nat) (k : Nat) (hk : k ≤ l.length) :
    (List.range k).map (fun i => byteAt l i) = l.take k := by
  induction k with
  | zero => simp
  | succ n ih =>
    have hn : n < l.length := by omega
    rw [List.range_succ, List.map_append, ih (by omega), List.take_succ]
    simp [byteAt_eq_getElem l n hn, List.getElem?_eq_getElem hn]

theorem cstr_eq_self (t : List Nat) (h : ∀ c ∈ t, c ≠ 0) : cstr t = t := by
  unfold cstr
  rw [List.takeWhile_eq_self_iff]
  intro c hc
  simpa using h c hc

theorem specialIndexOf_ID3 (data : List Nat) :
    specialIndexOf data [73, 68, 51] 4 =
      if byteAt data 0 = 73 ∧ byteAt data 1 = 68 ∧ byteAt data 2 = 51 then 0 else -1 := by
  by_cases h : byteAt data 0 = 73 ∧ byteAt data 1 = 68 ∧ byteAt data 2 = 51
  · obtain ⟨h0, h1, h2⟩ := h
    simp [specialIndexOf, matchAt, List.range_succ, List.find?, h0, h1, h2]
  · have hb : (byteAt data 0 == 73 && (byteAt data 1 == 68 && byteAt data 2 == 51)) = false := by
      rw [Bool.eq_false_iff]
      intro hh
      simp at hh
      exact h hh
    simp [specialIndexOf, matchAt, List.range_succ, List.find?, hb, h]

theorem bigEndian_4_7 (b0 b1 b2 b3 : Nat) (l : List Nat) :
    bigEndian (b0 :: b1 :: b2 :: b3 :: l) 4 7 =
      toSizeT ((b0 : Int) * 2097152 + b1 * 16384 + b2 * 128 + b3) := by
  simp [bigEndian, List.range_succ, byteAt]
  ring_nf

theorem bigEndian_4_8 (b0 b1 b2 b3 : Nat) (l : List Nat) :
    bigEndian (b0 :: b1 :: b2 :: b3 :: l) 4 8 =
      toSizeT ((b0 : Int) * 16777216 + b1 * 65536 + b2 * 256 + b3) := by
  simp [bigEndian, List.range_succ, byteAt]
  ring_nf

theorem latinToUTF8_loop_ascii (bl : Int) : ∀ (s acc : List Nat), (∀ c ∈ s, c < 0x80) →
    ∃ k, (latinToUTF8_loop bl s acc).1 = acc ++ s.take k ∧
      ((latinToUTF8_loop bl s acc).2 = true → (latinToUTF8_loop bl s acc).1 = acc ++ s) := by
  intro s
  induction s with
  | nil => intro acc _; exact ⟨0, by simp [latinToUTF8_loop], by simp [latinToUTF8_loop]⟩
  | cons c rest ih =>
    intro acc h
    have hc : c < 0x80 := h c (List.mem_cons_self _ _)
    have hr : ∀ x ∈ rest, x < 0x80 := fun x hx => h x (List.mem_cons_of_mem _ hx)
    have hunf : latinToUTF8_loop bl (c :: rest) acc =
        if ((acc ++ [c]).length : Int) > bl then (acc ++ [c], false)
        else latinToUTF8_loop bl rest (acc ++ [c]) := by
      simp only [latinToUTF8_loop, hc, if_true]
    rw [hunf]
    by_cases hlen : ((acc ++ [c]).length : Int) > bl
    · rw [if_pos hlen]
      exact ⟨1, by simp, by simp⟩
    · rw [if_neg hlen]
      obtain ⟨k, hk1, hk2⟩ := ih (acc ++ [c]) hr
      refine ⟨k + 1, ?_, ?_⟩
      · rw [hk1]; simp
      · intro hh
        rw [hk2 hh]; simp

theorem latinToUTF8_ascii (s : List Nat) (bl : Int) (chk : Bool)
    (h : ∀ c ∈ s, c ≠ 0 ∧ c < 0x80) : (latinToUTF8 s bl chk).1 = s := by
  have hc : cstr s = s := cstr_eq_self s (fun c hc => (h c hc).1)
  unfold latinToUTF8
  simp only [hc]
  split
  · rfl
  · obtain ⟨k, hk1, hk2⟩ := latinToUTF8_loop_ascii bl s [] (fun c hc => (h c hc).2)
    split
    · rename_i out heq
      have := hk2 (by rw [heq])
      rw [heq] at this
      simpa using this
    · rename_i out heq
      rw [heq] at hk1
      simp only [List.nil_append] at hk1
      subst hk1
      by_cases hk : k ≤ s.length
      · rw [List.length_take, Nat.min_eq_left hk, List.take_append_drop]
      · rw [List.length_take, Nat.min_eq_right (by omega), List.take_of_length_le (by omega)]
        simp

theorem strstrFrom_some (base str : List Nat) : ∀ (fuel i j : Nat),
    strstrFrom base str i fuel = some j → i ≤ j ∧ (base.drop j).take str.length = str := by
  intro fuel
  induction fuel with
  | zero => intro i j h; simp [strstrFrom] at h
  | succ n ih =>
    intro i j h
    unfold strstrFrom at h
    split at h
    · rename_i hm
      injection h with h
      subst h
      exact ⟨le_refl _, hm⟩
    · obtain ⟨h1, h2⟩ := ih (i + 1) j h
      exact ⟨by omega, h2⟩

theorem indexOf_Title_le (t : List Nat) (hxml : ¬ lit "?xml" <:+: t) :
    ¬ indexOf (lit "Title: " ++ t) (lit "?xml") 0 > 0 := by
  intro hpos
  unfold indexOf at hpos
  simp only [Nat.not_lt_zero, if_false, Nat.sub_zero] at hpos
  split at hpos
  · rename_i j hj
    obtain ⟨_, hm⟩ := strstrFrom_some _ _ _ _ _ hj
    have hj0 : 0 < j := by exact_mod_cast hpos
    rw [lit_xml, lit_Title] at hm
    by_cases hj7 : j < 7
    · interval_cases j <;> simp at hm
    · apply hxml
      rw [lit_xml]
      have : ([84, 105, 116, 108, 101, 58, 32] ++ t).drop j = t.drop (j - 7) := by
        rw [List.drop_append_eq_append_drop]
        simp
        omega
      rw [this] at hm
      refine ⟨t.take (j - 7), (t.drop (j - 7)).drop 4, ?_⟩
      have h4 : (List.take 4 (t.drop (j - 7))) ++ (t.drop (j - 7)).drop 4 = t.drop (j - 7) :=
        List.take_append_drop _ _
      simp only [List.length_cons, List.length_nil] at hm
      rw [List.append_assoc, ← hm, h4, List.take_append_drop]
  · simp at hpos


@[simp] theorem toSizeT_zero : toSizeT 0 = 0 := by decide
@[simp] theorem toSizeT_four : toSizeT 4 = 4 := by decide
@[simp] theorem toSizeT_six : toSizeT 6 = 6 := by decide
@[simp] theorem toSizeT_ten : toSizeT 10 = 10 := by decide
@[simp] theorem toInt32_zero : toInt32 0 = 0 := by decide

theorem toSizeT_of_range (x : Int) (h0 : 0 ≤ x) (h1 : x < 4294967296) : toSizeT x = x := by
  unfold toSizeT; omega

theorem toInt32_of_range (x : Int) (h0 : 0 ≤ x) (h1 : x < 2147483648) : toInt32 x = x := by
  unfold toInt32; omega

theorem step0 (env : Env) (a : Audio) (data : List Nat) (len : Int) (S v start fsz : Int)
    (tag : List Nat) (ev : List Event)
    (hcc : a.m_controlCounter = 0) (hcodec : a.m_codec = Codec.CODEC_MP3)
    (hrun : a.m_f_running = true) (hstart : a.m_audioDataStart = start)
    (hapic : a.APIC_pos.getD 0 0 = 0) (htag : a.tag = tag) (hev : a.events = ev)
    (hfsz : a.framesize = fsz)
    (h0 : byteAt data 0 = 73) (h1 : byteAt data 1 = 68) (h2 : byteAt data 2 = 51)
    (h3 : (byteAt data 3 : Int) = v) (hv : v = 3 ∨ v = 4) (hfl : byteAt data 5 &&& 0x40 = 0)
    (hS : bigEndian (data.drop 6) 4 7 = S) (hS0 : 0 ≤ S) (hS1 : S < 4294967286) :
    ∃ b, readAudioHeader env a data len = some (b, 10) ∧
      ID3Facts b S v start 1 S fsz tag ev := by
  have e1 : toSizeT (S + 10) = S + 10 := toSizeT_of_range _ (by omega) (by omega)
  have e2 : toSizeT (S + 10 - 10) = S := by rw [toSizeT_of_range _ (by omega) (by omega)]; omega
  have e3 : toSizeT 10 = 10 := by decide
  have hapic' : a.APIC_pos[0]?.getD 0 = 0 := by simpa using hapic
  have e0 : toSizeT S = S := toSizeT_of_range _ hS0 (by omega)
  have hv2 : v ≠ 2 := by omega
  have hsp : specialIndexOf data (lit "ID3") 4 = 0 := by
    rw [lit_ID3, specialIndexOf_ID3]; simp [h0, h1, h2]
  have hv' : (byteAt data 3 : Int) = 3 ∨ (byteAt data 3 : Int) = 4 := by rw [h3]; exact hv
  have hv2' : ¬ ((byteAt data 3 : Int) = 2) := by rw [h3]; exact hv2
  refine ⟨(read_ID3_Header_0 a data).1, ?_, ?_⟩
  · by_cases hl : a.getDatamode = Datamode.AUDIO_LOCALFILE <;>
    simp [readAudioHeader, read_ID3_Header, read_ID3_Header_0, hcc, hcodec, hrun, hsp, hl,
        hv', hv2', hv, hv2, hS, e1, e2, e3, isRunning]
  · by_cases hl : a.getDatamode = Datamode.AUDIO_LOCALFILE <;>
    · constructor <;>
      simp [read_ID3_Header_0, hcc, hcodec, hrun, hsp, hl,
          hv', hv2', hv, hv2, hS, e0, e1, e2, e3, isRunning, hfl, hstart, htag, hev, hfsz, h3,
          hapic']

theorem step1 (env : Env) (a : Audio) (data : List Nat) (len : Int) (S v start rem fsz : Int)
    (tag : List Nat) (ev : List Event) (h : ID3Facts a S v start 1 rem fsz tag ev) :
    ∃ b, readAudioHeader env a data len = some (b, 0) ∧
      ID3Facts b S v start 2 rem fsz tag ev := by
  obtain ⟨hcc, hcodec, hrun, hext, hehsz, hid3, hver, hrem, hfsz, htag, hev, hstart, hapic0, hsylt⟩ := h
  have hapic : a.APIC_pos[0]?.getD 0 = 0 := by simpa using hapic0
  have e0 : toSizeT 0 = 0 := by decide
  refine ⟨(read_ID3_Header_1 a data).1, ?_, ?_⟩
  · simp [readAudioHeader, read_ID3_Header, read_ID3_Header_1, hcc, hcodec, hrun, hext, isRunning,
      e0]
  · constructor <;>
    simp [read_ID3_Header_1, hcc, hcodec, hrun, hext, isRunning,
      hehsz, hid3, hver, hrem, hfsz, htag, hev, hstart, hapic, hsylt]

theorem step2 (env : Env) (a : Audio) (data : List Nat) (len : Int) (S v start rem fsz : Int)
    (tag : List Nat) (ev : List Event) (h : ID3Facts a S v start 2 rem fsz tag ev)
    (hlen : 0 ≤ len) (hr0 : 0 ≤ rem) (hr1 : rem < 4294967296) :
    ∃ b, readAudioHeader env a data len = some (b, 0) ∧
      ID3Facts b S v start 3 rem fsz tag ev := by
  obtain ⟨hcc, hcodec, hrun, hext, hehsz, hid3, hver, hrem, hfsz, htag, hev, hstart, hapic0, hsylt⟩ := h
  have hapic : a.APIC_pos[0]?.getD 0 = 0 := by simpa using hapic0
  have e0 : toSizeT 0 = 0 := by decide
  have hnl : ¬ (0 > len) := by omega
  have er : toSizeT rem = rem := toSizeT_of_range _ hr0 hr1
  refine ⟨(read_ID3_Header_2 a len).1, ?_, ?_⟩
  · simp [readAudioHeader, read_ID3_Header, read_ID3_Header_2, hcc, hcodec, hrun, hext, isRunning,
      hehsz, e0, hnl]
  · constructor <;>
    simp [read_ID3_Header_2, hcc, hcodec, hrun, hext, isRunning,
      hehsz, hid3, hver, hrem, hfsz, htag, hev, hstart, hapic, hsylt, e0, hnl, er]

theorem step3_frame (env : Env) (a : Audio) (d0 d1 d2 d3 : Nat) (tl : List Nat) (len : Int)
    (S v start rem fsz : Int) (tag : List Nat) (ev : List Event)
    (h : ID3Facts a S v start 3 rem fsz tag ev)
    (hnz : ¬ (d0 = 0 ∧ d1 = 0 ∧ d2 = 0 ∧ d3 = 0)) (hr0 : 4 ≤ rem) (hr1 : rem < 4294967296) :
    ∃ b, readAudioHeader env a (d0 :: d1 :: d2 :: d3 :: tl) len = some (b, 4) ∧
      ID3Facts b S v start 4 (rem - 4) fsz ([d0, d1, d2, d3] ++ tag.drop 4) ev := by
  obtain ⟨hcc, hcodec, hrun, hext, hehsz, hid3, hver, hrem, hfsz, htag, hev, hstart, hapic0, hsylt⟩ := h
  have hapic : a.APIC_pos[0]?.getD 0 = 0 := by simpa using hapic0
  have e4 : toSizeT 4 = 4 := by decide
  have hr : ¬ (rem = 0) := by omega
  have er : toSizeT (rem - 4) = rem - 4 := toSizeT_of_range _ (by omega) (by omega)
  refine ⟨(read_ID3_Header_3 a (d0 :: d1 :: d2 :: d3 :: tl)).1, ?_, ?_⟩
  · simp [readAudioHeader, read_ID3_Header, read_ID3_Header_3, hcc, hcodec, hrun, isRunning,
      hrem, hr, e4]
  · constructor <;>
    simp [read_ID3_Header_3, hcc, hcodec, hrun, hext, isRunning,
      hehsz, hid3, hver, hrem, hfsz, htag, hev, hstart, hapic, hsylt, hr, e4, er,
      byteAt_cons_zero, byteAt_cons_succ, hnz]

theorem step3_end (env : Env) (a : Audio) (data : List Nat) (len : Int)
    (S v start fsz : Int) (tag : List Nat) (ev : List Event)
    (h : ID3Facts a S v start 3 0 fsz tag ev) :
    ∃ b, readAudioHeader env a data len = some (b, 0) ∧
      ID3Facts b S v start 99 0 fsz tag ev := by
  obtain ⟨hcc, hcodec, hrun, hext, hehsz, hid3, hver, hrem, hfsz, htag, hev, hstart, hapic0, hsylt⟩ := h
  have hapic : a.APIC_pos[0]?.getD 0 = 0 := by simpa using hapic0
  have e0 : toSizeT 0 = 0 := by decide
  refine ⟨(read_ID3_Header_3 a data).1, ?_, ?_⟩
  · simp [readAudioHeader, read_ID3_Header, read_ID3_Header_3, hcc, hcodec, hrun, isRunning, hrem,
      e0]
  · constructor <;>
    simp [read_ID3_Header_3, hcc, hcodec, hrun, hext, isRunning,
      hehsz, hid3, hver, hrem, hfsz, htag, hev, hstart, hapic, hsylt]

theorem step4 (env : Env) (a : Audio) (data : List Nat) (len : Int)
    (S v start rem fsz n : Int) (tag : List Nat) (ev : List Event)
    (h : ID3Facts a S v start 4 rem fsz tag ev)
    (hn : (if v = 4 then bigEndian data 4 7 else bigEndian data 4 8) = n)
    (hf : byteAt data 5 &&& 0x80 = 0) (hr0 : 6 ≤ rem) (hr1 : rem < 4294967296) :
    ∃ b, readAudioHeader env a data len = some (b, 6) ∧
      ID3Facts b S v start 6 (rem - 6) n tag ev := by
  obtain ⟨hcc, hcodec, hrun, hext, hehsz, hid3, hver, hrem, hfsz, htag, hev, hstart, hapic0, hsylt⟩ := h
  have hapic : a.APIC_pos[0]?.getD 0 = 0 := by simpa using hapic0
  have er : toSizeT (toSizeT (toSizeT (rem - 4) - 1) - 1) = rem - 6 := by
    unfold toSizeT; omega
  have e6 : toSizeT 6 = 6 := by decide
  refine ⟨(read_ID3_Header_4 a data).1, ?_, ?_⟩
  · simp [readAudioHeader, read_ID3_Header, read_ID3_Header_4, hcc, hcodec, hrun, isRunning, hf,
      e6]
  · constructor <;>
    simp [read_ID3_Header_4, hcc, hcodec, hrun, hext, isRunning,
      hehsz, hid3, hver, hrem, hfsz, htag, hev, hstart, hapic, hsylt, er, hf, hn]

theorem step5 (env : Env) (a : Audio) (data : List Nat) (len : Int)
    (S v start rem fsz : Int) (tag : List Nat) (ev : List Event)
    (h : ID3Facts a S v start 5 rem fsz tag ev)
    (hlen : fsz ≤ len) (hf0 : 0 ≤ fsz) (hf1 : fsz < 2147483648) (hr0 : fsz ≤ rem)
    (hr1 : rem < 4294967296) :
    ∃ b, readAudioHeader env a data len = some (b, fsz) ∧
      ID3Facts b S v start 3 (rem - fsz) fsz tag ev := by
  obtain ⟨hcc, hcodec, hrun, hext, hehsz, hid3, hver, hrem, hfsz, htag, hev, hstart, hapic0, hsylt⟩ := h
  have hapic : a.APIC_pos[0]?.getD 0 = 0 := by simpa using hapic0
  have er : toSizeT (rem - fsz) = rem - fsz := toSizeT_of_range _ (by omega) (by omega)
  have ei : toInt32 fsz = fsz := toInt32_of_range _ hf0 hf1
  have es : toSizeT fsz = fsz := toSizeT_of_range _ hf0 (by omega)
  have hnl : ¬ (fsz > len) := by omega
  have hnl' : ¬ (len < fsz) := by omega
  refine ⟨(read_ID3_Header_5 a len).1, ?_, ?_⟩
  · simp [readAudioHeader, read_ID3_Header, read_ID3_Header_5, hcc, hcodec, hrun, isRunning, hfsz,
      hnl, hnl', ei, es, hf0]
  · constructor <;>
    simp [read_ID3_Header_5, hcc, hcodec, hrun, hext, isRunning,
      hehsz, hid3, hver, hrem, hfsz, htag, hev, hstart, hapic, hsylt, er, hnl, hnl', ei, es, hf0]

theorem step99 (env : Env) (a : Audio) (data : List Nat) (len : Int)
    (S v start rem fsz : Int) (tag : List Nat) (ev : List Event)
    (h : ID3Facts a S v start 99 rem fsz tag ev)
    (hd : ¬ (byteAt data 0 = 73 ∧ byteAt data 1 = 68 ∧ byteAt data 2 = 51)) :
    ∃ b, readAudioHeader env a data len = some (b, 0) ∧
      b.m_controlCounter = 100 ∧
      b.events = ev ∧
      b.m_audioDataStart = toSizeT (start + (S + 10)) ∧
      b.m_audioDataSize = toSizeT (a.m_contentlength - toSizeT (start + (S + 10))) := by
  obtain ⟨hcc, hcodec, hrun, hext, hehsz, hid3, hver, hrem, hfsz, htag, hev, hstart, hapic0, hsylt⟩ := h
  have hapic : a.APIC_pos[0]?.getD 0 = 0 := by simpa using hapic0
  have e0 : toSizeT 0 = 0 := by decide
  refine ⟨(read_ID3_Header_99 a data).1, ?_, ?_, ?_, ?_, ?_⟩
  · simp [readAudioHeader, read_ID3_Header, read_ID3_Header_99, hcc, hcodec, hrun, hext,
      isRunning, hehsz, hid3, hver, hrem, hfsz, htag, hev, hstart, hapic, hsylt, hd, e0]
  all_goals
    simp [read_ID3_Header_99, hcc, hcodec, hrun, hext, isRunning,
      hehsz, hid3, hver, hrem, hfsz, htag, hev, hstart, hapic, hsylt, hd]

theorem chbuf_TIT2 (a : Audio) (tl v : List Nat) :
    showID3Tag_chbuf a (84 :: 73 :: 84 :: 50 :: 0 :: tl) v =
      [84, 105, 116, 108, 101, 58, 32] ++ cstr v := by
  rfl

theorem latinToUTF8_written_ascii (s : List Nat) (bl : Int) (chk : Bool)
    (h : ∀ c ∈ s, c ≠ 0 ∧ c < 0x80) : latinToUTF8_written s bl chk ≤ s.length + 1 := by
  have hc : cstr s = s := cstr_eq_self s (fun c hc => (h c hc).1)
  unfold latinToUTF8_written
  simp only [hc]
  split
  · omega
  · obtain ⟨k, hk1, hk2⟩ := latinToUTF8_loop_ascii bl s [] (fun c hc => (h c hc).2)
    split
    · rename_i out heq
      have := hk2 (by rw [heq])
      rw [heq] at this
      simp only [List.nil_append] at this
      rw [this]
    · rename_i out heq
      rw [heq] at hk1
      simp only [List.nil_append] at hk1
      rw [hk1, List.length_take]
      omega

theorem showID3Tag_TIT2 (env : Env) (a : Audio) (tl v : List Nat)
    (hv : ∀ c ∈ v, c ≠ 0 ∧ c < 0x80) (hx : ¬ lit "?xml" <:+: v)
    (hfit : (v.length : Int) + 8 ≤ a.m_chbufSize) :
    showID3Tag env a (84 :: 73 :: 84 :: 50 :: 0 :: tl) v =
      some { a with events := a.events ++ [Event.audio_id3data (lit "Title: " ++ v)] } := by
  have hc : cstr v = v := cstr_eq_self v (fun c hc => (hv c hc).1)
  have hall : ∀ c ∈ lit "Title: " ++ v, c ≠ 0 ∧ c < 0x80 := by
    intro c hc
    rw [List.mem_append] at hc
    rcases hc with hc | hc
    · rw [lit_Title] at hc
      simp at hc
      omega
    · exact hv c hc
  have hl : (latinToUTF8 (lit "Title: " ++ v) 4 env.UTF8check).1 = lit "Title: " ++ v :=
    latinToUTF8_ascii _ _ _ hall
  have hw := latinToUTF8_written_ascii (lit "Title: " ++ v) 4 env.UTF8check hall
  have hlen : (lit "Title: " ++ v).length = v.length + 7 := by rw [lit_Title]; simp
  have hi := indexOf_Title_le v hx
  have hne : lit "Title: " ++ v ≠ [] := by rw [lit_Title]; simp
  have g1 : ¬ (((lit "Title: " ++ v).length : Int) + 1 > a.m_chbufSize) := by
    rw [hlen]; push_cast; omega
  have g2 : ¬ ((latinToUTF8_written (lit "Title: " ++ v) 4 env.UTF8check : Int)
      > a.m_chbufSize) := by
    rw [hlen] at hw
    have : (latinToUTF8_written (lit "Title: " ++ v) 4 env.UTF8check : Int) ≤ v.length + 8 := by
      exact_mod_cast hw
    omega
  unfold showID3Tag
  rw [chbuf_TIT2, hc, ← lit_Title]
  simp only [g1, g2, hl, hi, if_false, hne, ne_eq, not_false_eq_true, if_true]

theorem startsWith_TIT2 (tl : List Nat) :
    startsWith (84 :: 73 :: 84 :: 50 :: 0 :: tl) (lit "APIC") = false ∧
    startsWith (84 :: 73 :: 84 :: 50 :: 0 :: tl) (lit "SYLT") = false ∧
    startsWith (84 :: 73 :: 84 :: 50 :: 0 :: tl) (lit "TXXX") = false ∧
    startsWith (84 :: 73 :: 84 :: 50 :: 0 :: tl) (lit "USLT") = false := by
  refine ⟨rfl, rfl, rfl, rfl⟩

theorem id3_frame_bytes (t rest : List Nat) :
    (List.range (1 + min t.length 1023)).map (fun i => byteAt (0 :: (t ++ rest)) i) =
      0 :: t.take 1023 := by
  have := map_byteAt_range (0 :: (t ++ rest)) (1 + min t.length 1023)
    (by simp; omega)
  rw [this, Nat.add_comm 1, List.take_succ_cons, List.take_append_of_le_length (by omega)]
  congr 1
  rw [List.take_eq_take]
  simp [Nat.min_comm]

theorem id3_frame_filter (t : List Nat) (ht : ∀ c ∈ t, 0x20 ≤ c ∧ c ≤ 0x7E) :
    (0 :: t.take 1023).filter (fun c => decide (c > 0x1F)) = t.take 1023 := by
  rw [List.filter_cons_of_neg (by simp), List.filter_eq_self]
  intro c hc
  have := ht c (List.mem_of_mem_take hc)
  simp; omega

theorem id3_frame_ascii (t : List Nat) (ht : ∀ c ∈ t, 0x20 ≤ c ∧ c ≤ 0x7E) :
    ∀ c ∈ t.take 1023, c ≠ 0 ∧ c < 0x80 := by
  intro c hc
  have := ht c (List.mem_of_mem_take hc)
  omega

theorem id3_frame_written (t : List Nat) (ht : ∀ c ∈ t, 0x20 ≤ c ∧ c ≤ 0x7E) (B : Int)
    (hib : ((min t.length 1023 : Nat) : Int) + 2 ≤ B) :
    ¬ ((latinToUTF8_written (t.take 1023) B false : Int) > B) := by
  have hlw := latinToUTF8_written_ascii (t.take 1023) B false (id3_frame_ascii t ht)
  have h1 : (latinToUTF8_written (t.take 1023) B false : Int)
      ≤ ((t.take 1023).length + 1 : Nat) := by exact_mod_cast hlw
  rw [List.length_take] at h1
  have h2 : min 1023 t.length = min t.length 1023 := Nat.min_comm _ _
  rw [h2] at h1
  generalize (latinToUTF8_written (t.take 1023) B false : Int) = W at h1 ⊢
  push_cast at h1 hib
  omega

theorem step6_TIT2_show (env : Env) (a : Audio) (t rest : List Nat) (len : Int)
    (S v start rem : Int) (ev : List Event) (e : Event)
    (h : ID3Facts a S v start 6 rem (1 + t.length) [84, 73, 84, 50, 0] ev)
    (ht : ∀ c ∈ t, 0x20 ≤ c ∧ c ≤ 0x7E)
    (hib : ((min t.length 1023 : Nat) : Int) + 2 ≤ a.m_ibuffSize)
    (hshow : ∀ a' : Audio, a'.m_chbufSize = a.m_chbufSize →
      showID3Tag env a' [84, 73, 84, 50, 0] (t.take 1023) =
        some { a' with events := a'.events ++ [e] })
    (hr0 : (1 + t.length : Int) ≤ rem) (hr1 : rem < 4294967296) :
    ∃ b, readAudioHeader env a (0 :: (t ++ rest)) len
        = some (b, ((1 + min t.length 1023 : Nat) : Int)) ∧
      ID3Facts b S v start 5
        (rem - ((1 + min t.length 1023 : Nat) : Int))
        ((1 + t.length) - ((1 + min t.length 1023 : Nat) : Int))
        [84, 73, 84, 50, 0] (ev ++ [e]) := by
  obtain ⟨hcc, hcodec, hrun, hext, hehsz, hid3, hver, hrem, hfsz, htag, hev, hstart, hapic0, hsylt⟩ := h
  obtain ⟨hs1, hs2, hs3, hs4⟩ := startsWith_TIT2 []
  have hlw2 := id3_frame_written t ht a.m_ibuffSize hib
  have hibK : ((1 + min t.length 1023 : Nat) : Int) + 1 ≤ a.m_ibuffSize := by
    push_cast; push_cast at hib; omega
  clear hib
  revert hlw2
  generalize hK : ((1 + min t.length 1023 : Nat) : Int) = K at hibK ⊢
  have hK0 : 1 ≤ K := by omega
  have hK1 : K ≤ 1024 := by omega
  have hK2 : K ≤ 1 + t.length := by omega
  have hge : K ≥ 0 := by omega
  have hKn : K.toNat = 1 + min t.length 1023 := by omega
  have hfs : (if (1 + (t.length : Int)) > 1024 then (1024 : Int) else 1 + t.length) = K := by
    split <;> omega
  have b1 : -2147483648 ≤ K := by omega
  have b2 : K < 2147483648 := by omega
  have b3 : K < 4294967296 := by omega
  have b4 : 0 ≤ rem - K := by omega
  have b5 : rem - K < 4294967296 := by omega
  have b6 : 0 ≤ 1 + (t.length : Int) - K := by omega
  have b7 : 1 + (t.length : Int) - K < 4294967296 := by omega
  have hnK : ¬ (K + 1 > a.m_ibuffSize) := by omega
  have ei : toInt32 K = K := toInt32_of_range _ hge b2
  have es : toSizeT K = K := toSizeT_of_range _ hge b3
  have er : toSizeT (rem - K) = rem - K := toSizeT_of_range _ b4 b5
  have ef : toSizeT (1 + (t.length : Int) - K) = (1 + t.length) - K :=
    toSizeT_of_range _ b6 b7
  intro hlw2
  have hib1 := id3_frame_bytes t rest
  have hfil := id3_frame_filter t ht
  have hasc := id3_frame_ascii t ht
  have hlat : (latinToUTF8 (t.take 1023) a.m_ibuffSize false).1 = t.take 1023 :=
    latinToUTF8_ascii _ _ _ hasc
  have key : read_ID3_Header env a (0 :: (t ++ rest)) len =
      read_ID3_Header_6 env a (0 :: (t ++ rest)) := by
    simp [read_ID3_Header, hcc]
  have k6 : read_ID3_Header_6 env a (0 :: (t ++ rest)) =
      some ({ a with
          m_controlCounter := 5
          framesize := toSizeT (1 + (t.length : Int) - K)
          remainingHeaderBytes := toSizeT (rem - K)
          events := a.events ++ [e] },
       toInt32 K) := by
    unfold read_ID3_Header_6
    simp only [htag, hs1, hs2, hs3, hs4, Bool.false_eq_true, if_false, or_self, hfsz, hfs,
      hKn, hib1, byteAt_cons_zero, hrem, hnK]
    simp only [show ¬ ((0 : Nat) = 1) by decide, decide_False, Bool.false_eq_true, false_and,
      if_false, not_false_eq_true, if_true, hfil, hlat, hlw2, true_and]
    rw [hshow]
    · rfl
    · rfl
  have hapic : a.APIC_pos[0]?.getD 0 = 0 := by simpa using hapic0
  refine ⟨{ a with
          m_controlCounter := 5
          framesize := (1 + t.length) - K
          remainingHeaderBytes := rem - K
          events := a.events ++ [e] }, ?_, ?_⟩
  · simp only [readAudioHeader, hcodec, if_true, key, k6, ei, es, hge, er, ef, isRunning, hrun,
      Bool.not_true, decide_True, Bool.false_eq_true, not_true_eq_false, if_false,
      Option.map_some']
  · constructor <;> simp [hcodec, hrun, hext, hehsz, hid3, hver, htag, hev, hstart, hapic, hsylt]

theorem loop_done (env : Env) (stream : List Nat) (wins : List Int) (a : Audio) (pos : Nat)
    (h : a.m_controlCounter = 100) :
    readHeaderLoop env stream wins a pos = some (a, pos, []) := by
  cases wins <;> simp [readHeaderLoop, h]

theorem loop_next (env : Env) (stream : List Nat) (w : Int) (ws : List Int) (a b : Audio)
    (pos : Nat) (data : List Nat) (n : Int) (pos' : Nat) (hcc : a.m_controlCounter ≠ 100)
    (hd : stream.drop pos = data)
    (h2 : readAudioHeader env a data w = some (b, n)) (hp : pos + n.toNat = pos') :
    readHeaderLoop env stream (w :: ws) a pos =
      (readHeaderLoop env stream ws b pos').map (fun q => (q.1, q.2.1, n :: q.2.2)) := by
  subst hd hp
  simp only [readHeaderLoop, if_neg hcc, h2]

theorem showID3Tag_fields (env : Env) (a b : Audio) (tag value : List Nat)
    (h : showID3Tag env a tag value = some b) :
    b.m_ibuffSize = a.m_ibuffSize ∧ b.m_chbufSize = a.m_chbufSize ∧
    b.m_controlCounter = a.m_controlCounter ∧ b.m_f_running = a.m_f_running := by
  unfold showID3Tag at h
  simp only [] at h
  split_ifs at h <;> (injection h with h; subst h; simp)

theorem read_ID3_Header_6_sizes (env : Env) (a : Audio) (data : List Nat) (p : Audio × Int)
    (h : read_ID3_Header_6 env a data = some p) :
    p.1.m_ibuffSize = a.m_ibuffSize ∧ p.1.m_chbufSize = a.m_chbufSize := by
  unfold read_ID3_Header_6 at h
  simp only [] at h
  split_ifs at h
  all_goals first
    | (injection h with h; subst h; simp)
    | (rw [Option.map_eq_some'] at h
       obtain ⟨c, hc, rfl⟩ := h
       obtain ⟨h1, h2, -, -⟩ := showID3Tag_fields env _ _ _ _ hc
       exact ⟨h1, h2⟩)

theorem read_ID3_Header_10_sizes (env : Env) (a : Audio) (data : List Nat) (p : Audio × Int)
    (h : read_ID3_Header_10 env a data = some p) :
    p.1.m_ibuffSize = a.m_ibuffSize ∧ p.1.m_chbufSize = a.m_chbufSize := by
  unfold read_ID3_Header_10 at h
  simp only [] at h
  split_ifs at h
  all_goals first
    | (injection h with h; subst h; simp)
    | (rw [Option.map_eq_some'] at h
       obtain ⟨c, hc, rfl⟩ := h
       obtain ⟨h1, h2, -, -⟩ := showID3Tag_fields env _ _ _ _ hc
       simpa using And.intro h1 h2)

theorem read_ID3_Header_sizes (env : Env) (a : Audio) (data : List Nat) (len : Int)
    (p : Audio × Int) (h : read_ID3_Header env a data len = some p) :
    p.1.m_ibuffSize = a.m_ibuffSize ∧ p.1.m_chbufSize = a.m_chbufSize := by
  unfold read_ID3_Header at h
  by_cases h0 : a.m_controlCounter = 0
  · rw [if_pos h0] at h
    have h := Option.some.inj h; subst h; unfold read_ID3_Header_0; simp only []; split_ifs <;> simp
  rw [if_neg h0] at h
  by_cases h1 : a.m_controlCounter = 1
  · rw [if_pos h1] at h
    have h := Option.some.inj h; subst h; unfold read_ID3_Header_1; simp only []; split_ifs <;> simp
  rw [if_neg h1] at h
  by_cases h2 : a.m_controlCounter = 2
  · rw [if_pos h2] at h
    have h := Option.some.inj h; subst h; unfold read_ID3_Header_2; split_ifs <;> simp
  rw [if_neg h2] at h
  by_cases h3 : a.m_controlCounter = 3
  · rw [if_pos h3] at h
    have h := Option.some.inj h; subst h; unfold read_ID3_Header_3; simp only []; split_ifs <;> simp
  rw [if_neg h3] at h
  by_cases h4 : a.m_controlCounter = 4
  · rw [if_pos h4] at h
    have h := Option.some.inj h; subst h; unfold read_ID3_Header_4; simp only []; split_ifs <;> simp
  rw [if_neg h4] at h
  by_cases h5 : a.m_controlCounter = 5
  · rw [if_pos h5] at h
    have h := Option.some.inj h; subst h; unfold read_ID3_Header_5; split_ifs <;> simp
  rw [if_neg h5] at h
  by_cases h6 : a.m_controlCounter = 6
  · rw [if_pos h6] at h
    exact read_ID3_Header_6_sizes env a data p h
  rw [if_neg h6] at h
  by_cases h10 : a.m_controlCounter = 10
  · rw [if_pos h10] at h
    exact read_ID3_Header_10_sizes env a data p h
  rw [if_neg h10] at h
  by_cases h98 : a.m_controlCounter = 98
  · rw [if_pos h98] at h
    have h := Option.some.inj h; subst h; unfold read_ID3_Header_98; split_ifs <;> simp
  rw [if_neg h98] at h
  by_cases h99 : a.m_controlCounter = 99
  · rw [if_pos h99] at h
    have h := Option.some.inj h; subst h; unfold read_ID3_Header_99; simp only []; split_ifs <;> simp
  rw [if_neg h99] at h
  have h := Option.some.inj h; subst h; simp

theorem readAudioHeader_sizes (env : Env) (a b : Audio) (data : List Nat) (len r : Int)
    (h : readAudioHeader env a data len = some (b, r)) :
    b.m_ibuffSize = a.m_ibuffSize ∧ b.m_chbufSize = a.m_chbufSize := by
  unfold readAudioHeader at h
  simp only [Option.map_eq_some'] at h
  obtain ⟨q, hq, hb⟩ := h
  have hb1 : q.1 = b := by
    split_ifs at hb <;> simpa using congrArg Prod.fst hb
  subst hb1
  split_ifs at hq
  · rw [Option.map_eq_some'] at hq
    obtain ⟨p, hp, rfl⟩ := hq
    have := read_ID3_Header_sizes env a data len p hp
    split_ifs <;> simpa using this
  · have hq := Option.some.inj hq; subst hq; simp
  · have hq := Option.some.inj hq; subst hq; simp
  · have hq := Option.some.inj hq; subst hq; simp

end

section

open Audio

/-! ## Auxiliary lemmas on the parse of a tag with one frame -/

theorem localMP3_facts (fileSize buffSize : Int) :
    (localMP3 fileSize buffSize).m_controlCounter = 0 ∧
    (localMP3 fileSize buffSize).m_codec = Codec.CODEC_MP3 ∧
    (localMP3 fileSize buffSize).m_f_running = true ∧
    (localMP3 fileSize buffSize).m_audioDataStart = 0 ∧
    (localMP3 fileSize buffSize).APIC_pos.getD 0 0 = 0 ∧
    (localMP3 fileSize buffSize).tag = [0, 0, 0, 0, 0] ∧
    (localMP3 fileSize buffSize).events = [] ∧
    (localMP3 fileSize buffSize).framesize = 0 :=
  ⟨rfl, rfl, rfl, rfl, rfl, rfl, rfl, rfl⟩

theorem localMP3_sizes (fileSize buffSize : Int) :
    (localMP3 fileSize buffSize).m_ibuffSize = buffSize ∧
    (localMP3 fileSize buffSize).m_chbufSize = buffSize :=
  ⟨rfl, rfl⟩

theorem tit2Tag_drop (v s0 s1 s2 s3 z0 z1 z2 z3 : Nat) (t rest : List Nat) :
    (tit2Tag v s0 s1 s2 s3 z0 z1 z2 z3 t ++ rest).drop 0 =
      73 :: 68 :: 51 :: v :: 0 :: 0 :: s0 :: s1 :: s2 :: s3 :: 84 :: 73 :: 84 :: 50 ::
        z0 :: z1 :: z2 :: z3 :: 0 :: 0 :: 0 :: (t ++ rest) ∧
    (tit2Tag v s0 s1 s2 s3 z0 z1 z2 z3 t ++ rest).drop 10 =
      84 :: 73 :: 84 :: 50 :: z0 :: z1 :: z2 :: z3 :: 0 :: 0 :: 0 :: (t ++ rest) ∧
    (tit2Tag v s0 s1 s2 s3 z0 z1 z2 z3 t ++ rest).drop 14 =
      z0 :: z1 :: z2 :: z3 :: 0 :: 0 :: 0 :: (t ++ rest) ∧
    (tit2Tag v s0 s1 s2 s3 z0 z1 z2 z3 t ++ rest).drop 20 = 0 :: (t ++ rest) ∧
    (tit2Tag v s0 s1 s2 s3 z0 z1 z2 z3 t ++ rest).drop (21 + t.length) = rest := by
  refine ⟨rfl, rfl, rfl, rfl, ?_⟩
  apply List.drop_left'
  simp [tit2Tag]
  omega

theorem step3_frame_u (env : Env) (a : Audio) (d0 d1 d2 d3 : Nat) (tl : List Nat) (len : Int)
    (S v start rem fsz : Int) (tag : List Nat) (ev : List Event)
    (h : ID3Facts a S v start 3 rem fsz tag ev)
    (hnz : ¬ (d0 = 0 ∧ d1 = 0 ∧ d2 = 0 ∧ d3 = 0)) (hr : rem ≠ 0) :
    ∃ b, readAudioHeader env a (d0 :: d1 :: d2 :: d3 :: tl) len = some (b, 4) ∧
      ID3Facts b S v start 4 (toSizeT (rem - 4)) fsz ([d0, d1, d2, d3] ++ tag.drop 4) ev := by
  obtain ⟨hcc, hcodec, hrun, hext, hehsz, hid3, hver, hrem, hfsz, htag, hev, hstart, hapic0, hsylt⟩ := h
  have hapic : a.APIC_pos[0]?.getD 0 = 0 := by simpa using hapic0
  have e4 : toSizeT 4 = 4 := by decide
  refine ⟨(read_ID3_Header_3 a (d0 :: d1 :: d2 :: d3 :: tl)).1, ?_, ?_⟩
  · simp [readAudioHeader, read_ID3_Header, read_ID3_Header_3, hcc, hcodec, hrun, isRunning,
      hrem, hr, e4]
  · constructor <;>
    simp [read_ID3_Header_3, hcc, hcodec, hrun, hext, isRunning,
      hehsz, hid3, hver, hrem, hfsz, htag, hev, hstart, hapic, hsylt, hr, e4,
      byteAt_cons_zero, byteAt_cons_succ, hnz]

theorem latinToUTF8_loop_length (bl : Int) : ∀ (s acc : List Nat),
    (latinToUTF8_loop bl s acc).1.length ≤ acc.length + 2 * s.length := by
  intro s
  induction s with
  | nil => intro acc; simp [latinToUTF8_loop]
  | cons c rest ih =>
    intro acc
    unfold latinToUTF8_loop
    simp only []
    split_ifs
    · simp only [List.length_append, List.length_singleton, List.length_cons, List.length_nil]
      omega
    · have := ih (acc ++ [c])
      simp only [List.length_append, List.length_singleton, List.length_cons,
        List.length_nil] at this ⊢
      omega
    · simp only [List.length_append, List.length_singleton, List.length_cons, List.length_nil]
      omega
    · have := ih (acc ++ [0xC0 ||| (c >>> 6)] ++ [0x80 ||| (c &&& 0x3F)])
      simp only [List.length_append, List.length_singleton, List.length_cons,
        List.length_nil] at this ⊢
      omega

theorem latinToUTF8_written_le (s : List Nat) (bl : Int) (chk : Bool) :
    latinToUTF8_written s bl chk ≤ 2 * s.length + 1 := by
  have hc : (cstr s).length ≤ s.length := by
    unfold cstr
    exact (List.takeWhile_sublist _).length_le
  have hl := latinToUTF8_loop_length bl (cstr s) []
  unfold latinToUTF8_written
  simp only []
  split
  · omega
  · split
    · rename_i out heq
      rw [heq] at hl
      simp only [List.length_nil] at hl
      omega
    · rename_i out heq
      rw [heq] at hl
      simp only [List.length_nil] at hl
      omega

theorem showID3Tag_no_tag (env : Env) (a : Audio) (tl value : List Nat)
    (h : 1 ≤ a.m_chbufSize) : showID3Tag env a (0 :: tl) value = some a := by
  have hc : showID3Tag_chbuf a (0 :: tl) value = [] := rfl
  have hw : latinToUTF8_written [] 4 env.UTF8check ≤ 1 := by
    have := latinToUTF8_written_le [] 4 env.UTF8check
    simpa using this
  have hl : (latinToUTF8 [] 4 env.UTF8check).1 = [] := by
    unfold latinToUTF8
    simp [cstr, latinToUTF8_loop]
  have g1 : ¬ ((([] : List Nat).length : Int) + 1 > a.m_chbufSize) := by
    simp only [List.length_nil]; push_cast; omega
  have g2 : ¬ ((latinToUTF8_written [] 4 env.UTF8check : Int) > a.m_chbufSize) := by
    have : (latinToUTF8_written [] 4 env.UTF8check : Int) ≤ 1 := by exact_mod_cast hw
    omega
  have hi : ¬ (indexOf [] (lit "?xml") 0 > 0) := by decide
  unfold showID3Tag
  rw [hc]
  simp only [g1, g2, hl, hi, if_false, ne_eq, not_true_eq_false]

theorem step6_other_ret (env : Env) (a : Audio) (data : List Nat) (len : Int)
    (S v start rem fsz : Int) (tl : List Nat) (ev : List Event)
    (h : ID3Facts a S v start 6 rem fsz (0 :: tl) ev)
    (hf : 1024 < fsz) (hnu : byteAt data 0 ≠ 1)
    (hib : 2049 ≤ a.m_ibuffSize) (hcb : 1 ≤ a.m_chbufSize) :
    ∃ b, readAudioHeader env a data len = some (b, 1024) ∧ b.m_controlCounter = 5 := by
  obtain ⟨hcc, hcodec, hrun, hext, hehsz, hid3, hver, hrem, hfsz, htag, hev, hstart, hapic0, hsylt⟩ := h
  have key : read_ID3_Header env a data len = read_ID3_Header_6 env a data := by
    simp [read_ID3_Header, hcc]
  have hgt : a.framesize > 1024 := by rw [hfsz]; exact hf
  have h1 : startsWith (0 :: tl) (lit "APIC") = false := rfl
  have h2 : startsWith (0 :: tl) (lit "SYLT") = false := rfl
  have h3 : startsWith (0 :: tl) (lit "TXXX") = false := rfl
  have h4 : startsWith (0 :: tl) (lit "USLT") = false := rfl
  have hn1 : ¬ ((1024 : Int) + 1 > a.m_ibuffSize) := by omega
  have hw : ∀ s : List Nat, s.length ≤ 1024 →
      ¬ ((latinToUTF8_written s a.m_ibuffSize false : Int) > a.m_ibuffSize) := by
    intro s hs
    have := latinToUTF8_written_le s a.m_ibuffSize false
    have h2 : (latinToUTF8_written s a.m_ibuffSize false : Int) ≤ 2049 := by
      have : latinToUTF8_written s a.m_ibuffSize false ≤ 2049 := by omega
      exact_mod_cast this
    omega
  have hflen : ((List.map (fun i => byteAt data i) (List.range (1024 : Int).toNat)).filter
      (fun c => decide (c > 0x1F))).length ≤ 1024 := by
    refine le_trans (List.length_filter_le _ _) ?_
    simp
  have k6 : ∃ a2, read_ID3_Header_6 env a data = some (a2, 1024) ∧
      a2.m_controlCounter = 5 ∧ a2.m_f_running = true := by
    unfold read_ID3_Header_6
    simp only [htag, h1, h2, h3, h4, Bool.false_eq_true, if_false, or_self, if_pos hgt, hn1,
      hnu, decide_False, false_and, not_false_eq_true, if_true, true_and, hw _ hflen]
    rw [showID3Tag_no_tag]
    · exact ⟨_, rfl, rfl, hrun⟩
    · exact hcb
  obtain ⟨a2, e6, c2, r2⟩ := k6
  refine ⟨a2, ?_, c2⟩
  have hge : (1024 : Int) ≥ 0 := by decide
  have es : toSizeT 1024 = 1024 := by decide
  simp only [readAudioHeader, hcodec, if_true, key, e6, hge, es, isRunning, r2,
    Bool.not_true, decide_True, Bool.false_eq_true, not_true_eq_false, if_false,
    Option.map_some']

/-- The first seven calls on a tag of version 2.3 with one TIT2 frame, in
terms of the hook call `e` that the value phase makes for the text. -/
theorem tit2_frame_parse (env : Env) (a0 : Audio) (s0 s1 s2 s3 z0 z1 z2 z3 : Nat)
    (t rest : List Nat) (w1 w2 w3 w4 w5 w6 w7 : Int) (e : Event) (S : Int)
    (hcc : a0.m_controlCounter = 0) (hcodec : a0.m_codec = Codec.CODEC_MP3)
    (hrun : a0.m_f_running = true) (hstart : a0.m_audioDataStart = 0)
    (hapic : a0.APIC_pos.getD 0 0 = 0) (htag : a0.tag = [0, 0, 0, 0, 0]) (hev : a0.events = [])
    (hfsz : a0.framesize = 0)
    (hlen : t.length ≤ 1023)
    (hS : bigEndian [s0, s1, s2, s3] 4 7 = S) (hS0 : 11 + (t.length : Int) ≤ S)
    (hS1 : S < 4294967286)
    (hz : bigEndian [z0, z1, z2, z3] 4 8 = 1 + t.length)
    (hw3 : 0 ≤ w3) (hw7 : 0 ≤ w7)
    (h6 : ∀ (a : Audio) (len rem : Int) (ev : List Event),
      ID3Facts a S 3 0 6 rem (1 + t.length) [84, 73, 84, 50, 0] ev →
      a.m_ibuffSize = a0.m_ibuffSize → a.m_chbufSize = a0.m_chbufSize →
      (1 + t.length : Int) ≤ rem → rem < 4294967296 →
      ∃ b, readAudioHeader env a (0 :: (t ++ rest)) len = some (b, 1 + (t.length : Int)) ∧
        ID3Facts b S 3 0 5 (rem - (1 + t.length)) 0 [84, 73, 84, 50, 0] (ev ++ [e])) :
    ∃ a7, ID3Facts a7 S 3 0 3 (S - 11 - t.length) 0 [84, 73, 84, 50, 0] [e] ∧
      a7.m_ibuffSize = a0.m_ibuffSize ∧ a7.m_chbufSize = a0.m_chbufSize ∧
      ∀ ws, readHeaderLoop env (tit2Tag 3 s0 s1 s2 s3 z0 z1 z2 z3 t ++ rest)
        (w1 :: w2 :: w3 :: w4 :: w5 :: w6 :: w7 :: ws) a0 0 =
        (readHeaderLoop env (tit2Tag 3 s0 s1 s2 s3 z0 z1 z2 z3 t ++ rest) ws a7
            (21 + t.length)).map
          (fun q => (q.1, q.2.1,
            10 :: 0 :: 0 :: 4 :: 6 :: (1 + (t.length : Int)) :: 0 :: q.2.2)) := by
  have hTl : (t.length : Int) ≤ 1023 := by exact_mod_cast hlen
  obtain ⟨d0, d10, d14, d20, dend⟩ := tit2Tag_drop 3 s0 s1 s2 s3 z0 z1 z2 z3 t rest
  generalize tit2Tag 3 s0 s1 s2 s3 z0 z1 z2 z3 t ++ rest = stream at d0 d10 d14 d20 dend ⊢
  -- call 1: the tag header
  have hS' : bigEndian ((73 :: 68 :: 51 :: 3 :: 0 :: 0 :: s0 :: s1 :: s2 :: s3 :: 84 :: 73 :: 84
      :: 50 :: z0 :: z1 :: z2 :: z3 :: 0 :: 0 :: 0 :: (t ++ rest)).drop 6) 4 7 = S := by
    show bigEndian (s0 :: s1 :: s2 :: s3 :: _) 4 7 = _
    rw [bigEndian_4_7]; rw [bigEndian_4_7] at hS; exact hS
  obtain ⟨a1, r1, f1⟩ := step0 env a0 (73 :: 68 :: 51 :: 3 :: 0 :: 0 :: s0 :: s1 :: s2 :: s3 :: 84
      :: 73 :: 84 :: 50 :: z0 :: z1 :: z2 :: z3 :: 0 :: 0 :: 0 :: (t ++ rest)) w1
    S 3 0 0 [0, 0, 0, 0, 0] [] hcc hcodec hrun hstart hapic htag hev hfsz
    rfl rfl rfl rfl (Or.inl rfl) (by simp [byteAt_cons_zero, byteAt_cons_succ]) hS'
    (by omega) (by omega)
  obtain ⟨i1, c1⟩ := readAudioHeader_sizes env a0 a1 _ _ _ r1
  -- call 2: no extended header
  obtain ⟨a2, r2, f2⟩ := step1 env a1 (84 :: 73 :: 84 :: 50 :: z0 :: z1 :: z2 :: z3 :: 0 :: 0 :: 0
    :: (t ++ rest)) w2 _ _ _ _ _ _ _ f1
  obtain ⟨i2, c2⟩ := readAudioHeader_sizes env a1 a2 _ _ _ r2
  -- call 3: nothing to skip
  obtain ⟨a3, r3, f3⟩ := step2 env a2 (84 :: 73 :: 84 :: 50 :: z0 :: z1 :: z2 :: z3 :: 0 :: 0 :: 0
    :: (t ++ rest)) w3 _ _ _ _ _ _ _ f2 hw3 (by omega) (by omega)
  obtain ⟨i3, c3⟩ := readAudioHeader_sizes env a2 a3 _ _ _ r3
  -- call 4: the frame identifier
  obtain ⟨a4, r4, f4⟩ := step3_frame env a3 84 73 84 50 (z0 :: z1 :: z2 :: z3 :: 0 :: 0 :: 0
    :: (t ++ rest)) w4 _ _ _ _ _ _ _ f3 (by decide) (by omega) (by omega)
  obtain ⟨i4, c4⟩ := readAudioHeader_sizes env a3 a4 _ _ _ r4
  -- call 5: the frame size and flags
  have hz' : (if (3 : Int) = 4 then bigEndian (z0 :: z1 :: z2 :: z3 :: 0 :: 0 :: 0 :: (t ++ rest)) 4 7
      else bigEndian (z0 :: z1 :: z2 :: z3 :: 0 :: 0 :: 0 :: (t ++ rest)) 4 8) = 1 + t.length := by
    rw [if_neg (by decide), bigEndian_4_8]; rw [bigEndian_4_8] at hz; exact hz
  obtain ⟨a5, r5, f5⟩ := step4 env a4 (z0 :: z1 :: z2 :: z3 :: 0 :: 0 :: 0 :: (t ++ rest)) w5
    _ _ _ _ _ _ _ _ f4 hz' (by simp [byteAt_cons_zero, byteAt_cons_succ]) (by omega) (by omega)
  obtain ⟨i5, c5⟩ := readAudioHeader_sizes env a4 a5 _ _ _ r5
  -- call 6: the value
  obtain ⟨a6, r6, f6⟩ := h6 a5 w6 _ _ f5 (by rw [i5, i4, i3, i2, i1])
    (by rw [c5, c4, c3, c2, c1]) (by omega) (by omega)
  obtain ⟨i6, c6⟩ := readAudioHeader_sizes env a5 a6 _ _ _ r6
  -- call 7: nothing is left of the frame
  obtain ⟨a7, r7, f7⟩ := step5 env a6 rest w7 _ _ _ _ _ _ _ f6 hw7 (by omega) (by omega) (by omega)
    (by omega)
  obtain ⟨i7, c7⟩ := readAudioHeader_sizes env a6 a7 _ _ _ r7
  refine ⟨a7, ?_, by rw [i7, i6, i5, i4, i3, i2, i1], by rw [c7, c6, c5, c4, c3, c2, c1], ?_⟩
  · have : S - 4 - 6 - (1 + (t.length : Int)) - 0 = S - 11 - t.length := by omega
    rw [this] at f7
    simpa using f7
  · intro ws
    rw [loop_next env stream w1 _ a0 a1 0 _ 10 10 (by omega) d0 r1 rfl,
      loop_next env stream w2 _ a1 a2 10 _ 0 10 (by rw [f1.cc]; decide) d10 r2 rfl,
      loop_next env stream w3 _ a2 a3 10 _ 0 10 (by rw [f2.cc]; decide) d10 r3 rfl,
      loop_next env stream w4 _ a3 a4 10 _ 4 14 (by rw [f3.cc]; decide) d10 r4 rfl,
      loop_next env stream w5 _ a4 a5 14 _ 6 20 (by rw [f4.cc]; decide) d14 r5 rfl,
      loop_next env stream w6 _ a5 a6 20 _ (1 + t.length) (21 + t.length)
        (by rw [f5.cc]; decide) d20 r6 (by omega),
      loop_next env stream w7 _ a6 a7 (21 + t.length) _ 0 (21 + t.length)
        (by rw [f6.cc]; decide) dend r7 rfl]
    simp only [Option.map_map]
    rfl

theorem showID3Tag_xml (env : Env) (a : Audio) (h : 12 ≤ a.m_chbufSize) :
    showID3Tag env a [84, 73, 84, 50, 0] [63, 120, 109, 108] =
      some { a with events := a.events ++
          [Event.showstreamtitle [84, 105, 116, 108, 101, 58, 32, 63, 120, 109, 108]] } := by
  have hl : (latinToUTF8 [84, 105, 116, 108, 101, 58, 32, 63, 120, 109, 108] 4
      env.UTF8check).1 = [84, 105, 116, 108, 101, 58, 32, 63, 120, 109, 108] :=
    latinToUTF8_ascii _ _ _ (by decide)
  have hw := latinToUTF8_written_ascii [84, 105, 116, 108, 101, 58, 32, 63, 120, 109, 108] 4
    env.UTF8check (by decide)
  have g2 : ¬ ((latinToUTF8_written [84, 105, 116, 108, 101, 58, 32, 63, 120, 109, 108] 4
      env.UTF8check : Int) > a.m_chbufSize) := by
    have : (latinToUTF8_written [84, 105, 116, 108, 101, 58, 32, 63, 120, 109, 108] 4
      env.UTF8check : Int) ≤ 12 := by exact_mod_cast hw
    omega
  have g1 : ¬ ((([84, 105, 116, 108, 101, 58, 32, 63, 120, 109, 108] : List Nat).length : Int)
      + 1 > a.m_chbufSize) := by
    simp only [List.length_cons, List.length_nil]; push_cast; omega
  have hi : indexOf [84, 105, 116, 108, 101, 58, 32, 63, 120, 109, 108] (lit "?xml") 0 > 0 := by
    decide
  unfold showID3Tag
  rw [chbuf_TIT2]
  rw [show [84, 105, 116, 108, 101, 58, 32] ++ cstr [63, 120, 109, 108] =
    [84, 105, 116, 108, 101, 58, 32, 63, 120, 109, 108] from by decide]
  simp only [g1, g2, hl, hi, if_true, if_false]

theorem step6_TIT2 (env : Env) (a : Audio) (t rest : List Nat) (len : Int)
    (S v start rem : Int) (ev : List Event) (e : Event)
    (h : ID3Facts a S v start 6 rem (1 + t.length) [84, 73, 84, 50, 0] ev)
    (ht : ∀ c ∈ t, 0x20 ≤ c ∧ c ≤ 0x7E) (hlen : t.length ≤ 1023)
    (hib : (t.length : Int) + 2 ≤ a.m_ibuffSize)
    (hshow : ∀ a' : Audio, a'.m_chbufSize = a.m_chbufSize →
      showID3Tag env a' [84, 73, 84, 50, 0] t = some { a' with events := a'.events ++ [e] })
    (hr0 : (1 + t.length : Int) ≤ rem) (hr1 : rem < 4294967296) :
    ∃ b, readAudioHeader env a (0 :: (t ++ rest)) len = some (b, 1 + (t.length : Int)) ∧
      ID3Facts b S v start 5 (rem - (1 + t.length)) 0 [84, 73, 84, 50, 0] (ev ++ [e]) := by
  have htake : t.take 1023 = t := List.take_of_length_le hlen
  have hmin : min t.length 1023 = t.length := Nat.min_eq_left hlen
  have h6 := step6_TIT2_show env a t rest len S v start rem ev e h ht
    (by rw [hmin]; exact hib) (by rw [htake]; exact hshow) hr0 hr1
  rw [hmin] at h6
  have e1 : ((1 + t.length : Nat) : Int) = 1 + (t.length : Int) := by push_cast; rfl
  have e2 : (1 + (t.length : Int)) - (1 + (t.length : Int)) = 0 := by omega
  rw [e1, e2] at h6
  exact h6

theorem list_nine (l : List Int) (h : 9 ≤ l.length) :
    ∃ w1 w2 w3 w4 w5 w6 w7 w8 w9 ws,
      l = w1 :: w2 :: w3 :: w4 :: w5 :: w6 :: w7 :: w8 :: w9 :: ws := by
  rcases l with _ | ⟨w1, l⟩
  · simp at h
  rcases l with _ | ⟨w2, l⟩
  · simp at h
  rcases l with _ | ⟨w3, l⟩
  · simp at h
  rcases l with _ | ⟨w4, l⟩
  · simp at h
  rcases l with _ | ⟨w5, l⟩
  · simp at h
  rcases l with _ | ⟨w6, l⟩
  · simp at h
  rcases l with _ | ⟨w7, l⟩
  · simp at h
  rcases l with _ | ⟨w8, l⟩
  · simp at h
  rcases l with _ | ⟨w9, l⟩
  · simp at h
  exact ⟨w1, w2, w3, w4, w5, w6, w7, w8, w9, l, rfl⟩

/-- The full parse of a tag of version 2.3 that holds one TIT2 frame and no
padding, followed by bytes that are not a further tag. -/
theorem tit2_parse (env : Env) (a0 : Audio) (s0 s1 s2 s3 z0 z1 z2 z3 : Nat)
    (t rest : List Nat) (wins : List Int) (e : Event)
    (hcc : a0.m_controlCounter = 0) (hcodec : a0.m_codec = Codec.CODEC_MP3)
    (hrun : a0.m_f_running = true) (hstart : a0.m_audioDataStart = 0)
    (hapic : a0.APIC_pos.getD 0 0 = 0) (htag : a0.tag = [0, 0, 0, 0, 0]) (hev : a0.events = [])
    (hfsz : a0.framesize = 0)
    (ht : ∀ c ∈ t, 0x20 ≤ c ∧ c ≤ 0x7E) (hlen : t.length ≤ 1023)
    (hib : (t.length : Int) + 2 ≤ a0.m_ibuffSize)
    (hshow : ∀ a' : Audio, a'.m_chbufSize = a0.m_chbufSize →
      showID3Tag env a' [84, 73, 84, 50, 0] t = some { a' with events := a'.events ++ [e] })
    (hS : bigEndian [s0, s1, s2, s3] 4 7 = 11 + t.length)
    (hz : bigEndian [z0, z1, z2, z3] 4 8 = 1 + t.length)
    (hrest : ¬ (byteAt rest 0 = 73 ∧ byteAt rest 1 = 68 ∧ byteAt rest 2 = 51))
    (hw : 9 ≤ wins.length) (hwn : ∀ w ∈ wins, 0 ≤ w) :
    ∃ a', readHeaderLoop env (tit2Tag 3 s0 s1 s2 s3 z0 z1 z2 z3 t ++ rest) wins a0 0 =
        some (a', 21 + t.length, ([10, 0, 0, 4, 6, 1 + (t.length : Int), 0, 0, 0] : List Int)) ∧
      a'.m_controlCounter = 100 ∧ a'.events = [e] ∧
      a'.m_audioDataStart = 10 + (11 + t.length) := by
  obtain ⟨w1, w2, w3, w4, w5, w6, w7, w8, w9, ws, rfl⟩ := list_nine wins hw
  have hTl : (t.length : Int) ≤ 1023 := by exact_mod_cast hlen
  have hw3 : 0 ≤ w3 := hwn w3 (by simp)
  have hw7 : 0 ≤ w7 := hwn w7 (by simp)
  obtain ⟨a7, f7, -, -, hloop⟩ := tit2_frame_parse env a0 s0 s1 s2 s3 z0 z1 z2 z3 t rest
    w1 w2 w3 w4 w5 w6 w7 e (11 + t.length) hcc hcodec hrun hstart hapic htag hev hfsz hlen hS
    (le_refl _) (by omega) hz hw3 hw7
    (fun a len rem ev hf hi hc h1 h2 => step6_TIT2 env a t rest len _ _ _ rem ev e hf ht hlen
      (by rw [hi]; exact hib) (fun a' ha' => hshow a' (by rw [ha', hc])) h1 h2)
  have dend := (tit2Tag_drop 3 s0 s1 s2 s3 z0 z1 z2 z3 t rest).2.2.2.2
  rw [hloop]
  generalize tit2Tag 3 s0 s1 s2 s3 z0 z1 z2 z3 t ++ rest = stream at dend ⊢
  have f7' : ID3Facts a7 (11 + t.length) 3 0 3 0 0 [84, 73, 84, 50, 0] [e] := by
    have : (11 + (t.length : Int) - 11 - t.length) = 0 := by omega
    rw [this] at f7; exact f7
  obtain ⟨a8, r8, f8⟩ := step3_end env a7 rest w8 _ _ _ _ _ _ f7'
  rw [loop_next env stream w8 _ a7 a8 (21 + t.length) _ 0 (21 + t.length)
    (by rw [f7'.cc]; decide) dend r8 rfl]
  obtain ⟨a9, r9, c9, e9, s9, -⟩ := step99 env a8 rest w9 _ _ _ _ _ _ _ f8 hrest
  rw [loop_next env stream w9 _ a8 a9 (21 + t.length) _ 0 (21 + t.length)
    (by rw [f8.cc]; decide) dend r9 rfl]
  rw [loop_done env stream ws a9 _ c9]
  refine ⟨a9, rfl, c9, e9, ?_⟩
  rw [s9, toSizeT_of_range _ (by omega) (by omega)]
  ring

end

section

open Audio

/-! ## Auxiliary lemmas on the values returned by the ID3 parser -/

theorem toInt32_le_self (x : Int) (hx : 0 ≤ x) : toInt32 x ≤ x := by
  unfold toInt32; omega

theorem read_ID3_Header_0_ret (a : Audio) (data : List Nat) :
    (read_ID3_Header_0 a data).2 = -1 ∨ (read_ID3_Header_0 a data).2 = 10 := by
  unfold read_ID3_Header_0
  simp only [apply_ite Prod.snd]
  split_ifs
  · left; rfl
  · right; rfl

theorem read_ID3_Header_1_ret (a : Audio) (data : List Nat) :
    (read_ID3_Header_1 a data).2 = 4 ∨ (read_ID3_Header_1 a data).2 = 0 := by
  unfold read_ID3_Header_1
  simp only [apply_ite Prod.snd]
  split_ifs
  · left; rfl
  · right; rfl

theorem read_ID3_Header_2_ret (a : Audio) (len : Int) (hlen : 0 ≤ len)
    (he : a.ehsz < 2147483648) : (read_ID3_Header_2 a len).2 ≤ len := by
  unfold read_ID3_Header_2
  simp only [apply_ite Prod.snd]
  split_ifs with hc
  · exact toInt32_le_self len hlen
  · show a.ehsz ≤ len
    unfold toSizeT at hc
    omega

theorem read_ID3_Header_3_ret (a : Audio) (data : List Nat) :
    (read_ID3_Header_3 a data).2 = 0 ∨ (read_ID3_Header_3 a data).2 = 4 := by
  unfold read_ID3_Header_3
  simp only [apply_ite Prod.snd]
  split_ifs
  · left; rfl
  · right; rfl

theorem read_ID3_Header_4_ret (a : Audio) (data : List Nat) :
    (read_ID3_Header_4 a data).2 = 10 ∨ (read_ID3_Header_4 a data).2 = 6 := by
  unfold read_ID3_Header_4
  simp only [apply_ite Prod.snd]
  split_ifs
  · left; rfl
  · right; rfl

theorem read_ID3_Header_5_ret (a : Audio) (len : Int) (hlen : 0 ≤ len)
    (hf : 0 ≤ a.framesize) : (read_ID3_Header_5 a len).2 ≤ len := by
  unfold read_ID3_Header_5
  simp only [apply_ite Prod.snd]
  split_ifs with hc
  · exact toInt32_le_self len hlen
  · show toInt32 a.framesize ≤ len
    have := toInt32_le_self a.framesize hf
    omega

theorem read_ID3_Header_6_ret (env : Env) (a : Audio) (data : List Nat) (p : Audio × Int)
    (hf : 0 ≤ a.framesize) (h : read_ID3_Header_6 env a data = some p) :
    p.2 = 0 ∨ p.2 = (if a.framesize > 1024 then 1024 else a.framesize) := by
  have e : toInt32 (if a.framesize > 1024 then 1024 else a.framesize) =
      (if a.framesize > 1024 then 1024 else a.framesize) := by
    split_ifs with c
    · decide
    · unfold toInt32; omega
  unfold read_ID3_Header_6 at h
  simp only [e] at h
  split_ifs at h
  all_goals first
    | (have h := Option.some.inj h; subst h; left; rfl)
    | (rw [Option.map_eq_some'] at h
       obtain ⟨c, -, rfl⟩ := h
       right; split_ifs; rfl)

theorem read_ID3_Header_10_ret (env : Env) (a : Audio) (data : List Nat) (p : Audio × Int)
    (h : read_ID3_Header_10 env a data = some p) : 0 ≤ p.2 ∧ p.2 ≤ 256 := by
  have hb : 0 ≤ bigEndian (data.drop 3) 3 8 := by unfold bigEndian toSizeT; omega
  have hu : 0 ≤ toUInt8 a.universal_tmp ∧ toUInt8 a.universal_tmp ≤ 256 := by
    unfold toUInt8; omega
  unfold read_ID3_Header_10 at h
  simp only [] at h
  split_ifs at h
  all_goals first
    | (have h := Option.some.inj h; subst h; simp only []; omega)
    | (rw [Option.map_eq_some'] at h
       obtain ⟨c, -, rfl⟩ := h
       simp only []
       omega)

theorem read_ID3_Header_98_ret (a : Audio) (len : Int) (hlen : 0 ≤ len)
    (hr : 0 ≤ a.remainingHeaderBytes) : (read_ID3_Header_98 a len).2 ≤ len := by
  unfold read_ID3_Header_98
  simp only [apply_ite Prod.snd]
  split_ifs with hc
  · exact toInt32_le_self len hlen
  · show toInt32 a.remainingHeaderBytes ≤ len
    have := toInt32_le_self a.remainingHeaderBytes hr
    omega

theorem read_ID3_Header_99_ret (a : Audio) (data : List Nat) :
    (read_ID3_Header_99 a data).2 = 0 := by
  unfold read_ID3_Header_99
  simp only [apply_ite Prod.snd]
  split_ifs <;> rfl

end

section

open AudioWAV

/-! ## Auxiliary lemmas on the WAV parser -/


theorem le16_value (x : Nat) (h : x < 65536) :
    toUInt16 (((x % 256 : Nat) : Int) + shl ((x / 256 % 256 : Nat) : Int) 8) = (x : Int) := by
  unfold toUInt16 shl
  omega

theorem le32_value (x : Nat) (h : x < 4294967296) :
    toSizeT (((x % 256 : Nat) : Int) + shl ((x / 256 % 256 : Nat) : Int) 8
      + shl ((x / 65536 % 256 : Nat) : Int) 16 + shl ((x / 16777216 % 256 : Nat) : Int) 24)
      = (x : Int) := by
  unfold toSizeT shl
  omega

theorem fmtPayload_bytes (fc nic sr dr dbs bps : Nat) (tl : List Nat) :
    byteAt (fmtPayload fc nic sr dr dbs bps ++ tl) 0 = fc % 256 ∧
    byteAt (fmtPayload fc nic sr dr dbs bps ++ tl) 1 = fc / 256 % 256 ∧
    byteAt (fmtPayload fc nic sr dr dbs bps ++ tl) 2 = nic % 256 ∧
    byteAt (fmtPayload fc nic sr dr dbs bps ++ tl) 3 = nic / 256 % 256 ∧
    byteAt (fmtPayload fc nic sr dr dbs bps ++ tl) 4 = sr % 256 ∧
    byteAt (fmtPayload fc nic sr dr dbs bps ++ tl) 5 = sr / 256 % 256 ∧
    byteAt (fmtPayload fc nic sr dr dbs bps ++ tl) 6 = sr / 65536 % 256 ∧
    byteAt (fmtPayload fc nic sr dr dbs bps ++ tl) 7 = sr / 16777216 % 256 ∧
    byteAt (fmtPayload fc nic sr dr dbs bps ++ tl) 14 = bps % 256 ∧
    byteAt (fmtPayload fc nic sr dr dbs bps ++ tl) 15 = bps / 256 % 256 :=
  ⟨rfl, rfl, rfl, rfl, rfl, rfl, rfl, rfl, rfl, rfl⟩

theorem read_WAV_Header_5_fmtPayload (a : AudioWAV) (fc nic sr dr dbs bps : Nat) (tl : List Nat)
    (hfc : fc < 65536) (hnic : nic < 65536) (hsr : sr < 4294967296) (hbps : bps < 65536) :
    read_WAV_Header_5 a (fmtPayload fc nic sr dr dbs bps ++ tl) =
      if (bps : Int) ≠ 8 ∧ (bps : Int) ≠ 16 then
        (stopSong { a with m_controlCounter := a.m_controlCounter + 1 }, -1)
      else if (nic : Int) ≠ 1 ∧ (nic : Int) ≠ 2 then
        (stopSong { a with m_controlCounter := a.m_controlCounter + 1 }, -1)
      else if (fc : Int) ≠ 1 then
        (stopSong { a with m_controlCounter := a.m_controlCounter + 1 }, -1)
      else
        ({ a with
           m_controlCounter := a.m_controlCounter + 1
           m_bitsPerSample := toUInt8 bps
           m_channels := toUInt8 nic
           m_sampleRate := if (sr : Int) = 0 then 44100 else sr
           m_bitRate := toSizeT (toSizeT ((nic : Int) * sr * bps))
           headerSize := toSizeT (a.headerSize + 16) }, 16) := by
  obtain ⟨b0, b1, b2, b3, b4, b5, b6, b7, b14, b15⟩ := fmtPayload_bytes fc nic sr dr dbs bps tl
  unfold read_WAV_Header_5
  simp only [b0, b1, b2, b3, b4, b5, b6, b7, b14, b15, le16_value fc hfc, le16_value nic hnic,
    le16_value bps hbps, le32_value sr hsr]
  by_cases h1 : (bps : Int) ≠ 8 ∧ (bps : Int) ≠ 16
  · rw [if_pos h1, if_pos h1]
  · rw [if_neg h1, if_neg h1]
    by_cases h2 : (nic : Int) ≠ 1 ∧ (nic : Int) ≠ 2
    · rw [if_pos h2, if_pos h2]
    · rw [if_neg h2, if_neg h2]
      by_cases h3 : (fc : Int) ≠ 1
      · rw [if_pos h3, if_pos h3]
      · rw [if_neg h3, if_neg h3]
        have h1' : ¬ ((bps : Int) ≠ 16 ∧ (bps : Int) ≠ 8) := by tauto
        simp only [setBitsPerSample, setChannels, setSampleRate, setBitrate, if_neg h1']


theorem toSizeT_add_toSizeT (x y : Int) : toSizeT (toSizeT x + y) = toSizeT (x + y) := by
  unfold toSizeT; omega

theorem read_WAV_Header_step (a : AudioWAV) (data : List Nat) (len acc : Int)
    (h : (a.m_controlCounter = 0 ∧ acc = 0) ∨
      (1 ≤ a.m_controlCounter ∧ a.m_controlCounter ≤ 9 ∧ a.headerSize = toSizeT acc)) :
    (read_WAV_Header a data len).2 < 0 ∨
    ((read_WAV_Header a data len).1.m_controlCounter = 100 ∧
      (read_WAV_Header a data len).2 = 0 ∧
      (read_WAV_Header a data len).1.m_audioDataStart = toSizeT acc) ∨
    (0 ≤ (read_WAV_Header a data len).2 ∧
      1 ≤ (read_WAV_Header a data len).1.m_controlCounter ∧
      (read_WAV_Header a data len).1.m_controlCounter ≤ 9 ∧
      (read_WAV_Header a data len).1.headerSize =
        toSizeT (acc + (read_WAV_Header a data len).2)) := by
  have hcases : (a.m_controlCounter = 0 ∧ acc = 0) ∨ ((a.m_controlCounter = 1 ∨
      a.m_controlCounter = 2 ∨ a.m_controlCounter = 3 ∨
      a.m_controlCounter = 4 ∨ a.m_controlCounter = 5 ∨ a.m_controlCounter = 6 ∨
      a.m_controlCounter = 7 ∨ a.m_controlCounter = 8 ∨ a.m_controlCounter = 9) ∧
      a.headerSize = toSizeT acc) := by omega
  rcases hcases with ⟨hc, hacc⟩ | ⟨hc | hc | hc | hc | hc | hc | hc | hc | hc, hh⟩
  · subst hacc
    by_cases hm : byteAt data 0 ≠ 82 ∨ byteAt data 1 ≠ 73 ∨ byteAt data 2 ≠ 70 ∨ byteAt data 3 ≠ 70
    · left; simp [read_WAV_Header, hc, read_WAV_Header_0, if_pos hm]
    · right; right; simp [read_WAV_Header, hc, read_WAV_Header_0, if_neg hm]
  · right; right
    simp [read_WAV_Header, hc, read_WAV_Header_1, hh, toSizeT_add_toSizeT]
  · by_cases hm : byteAt data 0 ≠ 87 ∨ byteAt data 1 ≠ 65 ∨ byteAt data 2 ≠ 86 ∨ byteAt data 3 ≠ 69
    · left; simp [read_WAV_Header, hc, read_WAV_Header_2, if_pos hm]
    · right; right
      simp [read_WAV_Header, hc, read_WAV_Header_2, if_neg hm, hh, toSizeT_add_toSizeT]
  · right; right
    by_cases hm : byteAt data 0 = 102 ∧ byteAt data 1 = 109 ∧ byteAt data 2 = 116
    · simp [read_WAV_Header, hc, read_WAV_Header_3, if_pos hm, hh, toSizeT_add_toSizeT]
    · simp [read_WAV_Header, hc, read_WAV_Header_3, if_neg hm, hh, toSizeT_add_toSizeT]
  · by_cases hm : toSizeT ((byteAt data 0 : Int) + shl (byteAt data 1) 8) > 40
    · left; simp [read_WAV_Header, hc, read_WAV_Header_4, if_pos hm]
    · right; right
      simp [read_WAV_Header, hc, read_WAV_Header_4, if_neg hm, hh, toSizeT_add_toSizeT]
  · have e : read_WAV_Header a data len = read_WAV_Header_5 a data := by
      simp [read_WAV_Header, hc]
    rw [e]
    unfold read_WAV_Header_5
    simp only []
    split_ifs
    · left; simp
    · left; simp
    · left; simp
    · right; right
      simp only [setBitsPerSample, setChannels, setSampleRate, setBitrate]
      split_ifs <;> simp [hh, toSizeT_add_toSizeT, hc]
  · by_cases hb : a.bts < 0
    · left; simpa [read_WAV_Header, hc, read_WAV_Header_6] using hb
    · right; right
      simp [read_WAV_Header, hc, read_WAV_Header_6, hh, toSizeT_add_toSizeT]; omega
  · right; right
    by_cases hm : byteAt data 0 = 100 ∧ byteAt data 1 = 97 ∧ byteAt data 2 = 116 ∧ byteAt data 3 = 97
    · simp [read_WAV_Header, hc, read_WAV_Header_7, if_pos hm, hh, toSizeT_add_toSizeT]
    · simp [read_WAV_Header, hc, read_WAV_Header_7, if_neg hm, hh, toSizeT_add_toSizeT]
  · right; right
    have e : read_WAV_Header a data len = read_WAV_Header_8 a data := by
      simp [read_WAV_Header, hc]
    rw [e]
    unfold read_WAV_Header_8
    simp only []
    split_ifs <;> simp [hh, toSizeT_add_toSizeT, hc]
  · right; left
    simp [read_WAV_Header, hc, hh]

theorem readWAVLoop_invariant (stream : List Nat) :
    ∀ (wins : List Int) (a : AudioWAV) (pos : Nat) (acc : Int),
      ((a.m_controlCounter = 0 ∧ acc = 0) ∨
        (1 ≤ a.m_controlCounter ∧ a.m_controlCounter ≤ 9 ∧ a.headerSize = toSizeT acc)) →
      (readWAVLoop stream wins a pos).1.m_controlCounter = 100 →
      (∀ x ∈ (readWAVLoop stream wins a pos).2.2, 0 ≤ x) →
      (readWAVLoop stream wins a pos).1.m_audioDataStart =
          toSizeT (acc + (readWAVLoop stream wins a pos).2.2.sum) ∧
        (readWAVLoop stream wins a pos).2.2.getLast? = some 0 ∧
        ((readWAVLoop stream wins a pos).2.1 : Int) =
          pos + (readWAVLoop stream wins a pos).2.2.sum := by
  intro wins
  induction wins with
  | nil =>
    intro a pos acc hinv hcc _
    simp only [readWAVLoop] at hcc
    omega
  | cons w ws ih =>
    intro a pos acc hinv hcc hnn
    have hne : a.m_controlCounter ≠ 100 := by omega
    have hstep := read_WAV_Header_step a (stream.drop pos) w acc hinv
    generalize hr : read_WAV_Header a (stream.drop pos) w = r at hstep
    have hunf : readWAVLoop stream (w :: ws) a pos =
        if r.2 < 0 then (r.1, pos, [r.2])
        else ((readWAVLoop stream ws r.1 (pos + r.2.toNat)).1,
          (readWAVLoop stream ws r.1 (pos + r.2.toNat)).2.1,
          r.2 :: (readWAVLoop stream ws r.1 (pos + r.2.toNat)).2.2) := by
      simp only [readWAVLoop, if_neg hne, hr]
    rw [hunf] at hcc hnn ⊢
    by_cases hneg : r.2 < 0
    · rw [if_pos hneg] at hnn
      have := hnn r.2 (by simp)
      omega
    · rw [if_neg hneg] at hcc hnn ⊢
      rcases hstep with h1 | ⟨h100, h0, hstart⟩ | ⟨hpos, hlo, hhi, hhs⟩
      · exact absurd h1 hneg
      · have hdone : readWAVLoop stream ws r.1 (pos + r.2.toNat) = (r.1, pos + r.2.toNat, []) := by
          cases ws <;> simp [readWAVLoop, h100]
        rw [hdone]
        simp [h0, hstart]
      · have hcc' : (readWAVLoop stream ws r.1 (pos + r.2.toNat)).1.m_controlCounter = 100 := hcc
        have hnn' : ∀ x ∈ (readWAVLoop stream ws r.1 (pos + r.2.toNat)).2.2, 0 ≤ x := by
          intro x hx
          exact hnn x (List.mem_cons_of_mem _ hx)
        obtain ⟨i1, i2, i3⟩ := ih r.1 (pos + r.2.toNat) (acc + r.2)
          (Or.inr ⟨hlo, hhi, hhs⟩) hcc' hnn'
        refine ⟨?_, ?_, ?_⟩
        · show (readWAVLoop stream ws r.1 (pos + r.2.toNat)).1.m_audioDataStart = _
          rw [i1, List.sum_cons, add_assoc]
        · show (r.2 :: (readWAVLoop stream ws r.1 (pos + r.2.toNat)).2.2).getLast? = some 0
          generalize (readWAVLoop stream ws r.1 (pos + r.2.toNat)).2.2 = l at i2
          cases l with
          | nil => simp at i2
          | cons y ys => simpa [List.getLast?_cons_cons] using i2
        · show ((readWAVLoop stream ws r.1 (pos + r.2.toNat)).2.1 : Int) = _
          rw [i3, List.sum_cons]
          push_cast
          rw [Int.toNat_of_nonneg hpos]
          ring

end

section

open AudioFLAC

/-! ## Auxiliary lemmas on the FLAC parser -/


theorem bigEndian_3_8 (b0 b1 b2 : Nat) (l : List Nat) :
    bigEndian (b0 :: b1 :: b2 :: l) 3 8 = toSizeT ((b0 : Int) * 65536 + b1 * 256 + b2) := by
  simp [bigEndian, List.range_succ, byteAt]
  ring_nf

theorem read_FLAC_Header_at_SINFO (a : AudioFLAC) (data : List Nat) (len : Int)
    (hcc : a.m_controlCounter = FLAC_SINFO) (hret : a.retvalue = 0) :
    read_FLAC_Header a data len = read_FLAC_Header_SINFO a data := by
  simp [read_FLAC_Header, hcc, hret, FLAC_SINFO, FLAC_BEGIN, FLAC_MAGIC, FLAC_MBH]

end

/-! ## Auxiliary lemmas on the calls of a header parser -/

theorem headerLoop_done {S : Type} (call : S → List Nat → Int → S × Int) (phase : S → Int)
    (stream : List Nat) (wins : List Int) (a : S) (pos : Nat) (h : phase a = 100) :
    headerLoop call phase stream wins a pos = (a, pos, []) := by
  cases wins with
  | nil => rfl
  | cons w ws => simp [headerLoop, h]

theorem headerLoop_call {S : Type} (call : S → List Nat → Int → S × Int) (phase : S → Int)
    (stream : List Nat) (len : Int) (wins : List Int) (a b : S) (pos : Nat) (r : Int)
    (h : phase a ≠ 100) (hc : call a (stream.drop pos) len = (b, r)) (hr : 0 ≤ r) :
    headerLoop call phase stream (len :: wins) a pos
      = prependRets [r] (headerLoop call phase stream wins b (pos + r.toNat)) := by
  have hr' : ¬ r < 0 := not_lt.mpr hr
  simp [headerLoop, h, hc, hr', prependRets]

theorem prependRets_append {S : Type} (rs ts : List Int) (q : S × Nat × List Int) :
    prependRets rs (prependRets ts q) = prependRets (rs ++ ts) q := by
  simp [prependRets]

theorem HeaderRun.trans {S : Type} {call : S → List Nat → Int → S × Int} {phase : S → Int}
    {stream : List Nat} {N M : Nat} {a b c : S} {p q r : Nat} {t u : Int}
    (h1 : HeaderRun call phase stream N a p b q t)
    (h2 : HeaderRun call phase stream M b q c r u) :
    HeaderRun call phase stream (N + M) a p c r (t + u) := by
  intro wins hw hlen
  obtain ⟨k1, rs1, hk1, hs1, hn1, e1⟩ := h1 wins hw (by omega)
  have hw2 : ∀ w ∈ wins.drop k1, 1 ≤ w ∧ w < 2147483648 :=
    fun w hm => hw w (List.mem_of_mem_drop hm)
  have hl2 : M ≤ (wins.drop k1).length := by rw [List.length_drop]; omega
  obtain ⟨k2, rs2, hk2, hs2, hn2, e2⟩ := h2 (wins.drop k1) hw2 hl2
  refine ⟨k1 + k2, rs1 ++ rs2, by omega, by rw [List.sum_append, hs1, hs2], ?_, ?_⟩
  · intro x hx
    rcases List.mem_append.mp hx with hx | hx
    · exact hn1 x hx
    · exact hn2 x hx
  · rw [e1, e2, prependRets_append, List.drop_drop]

theorem HeaderRun.one {S : Type} {call : S → List Nat → Int → S × Int} {phase : S → Int}
    {stream : List Nat} {a b : S} {pos : Nat} {r : Int}
    (h : phase a ≠ 100)
    (hc : ∀ len : Int, 1 ≤ len → len < 2147483648 → call a (stream.drop pos) len = (b, r))
    (hr : 0 ≤ r) :
    HeaderRun call phase stream 1 a pos b (pos + r.toNat) r := by
  intro wins hw hlen
  cases wins with
  | nil => simp at hlen
  | cons w ws =>
    obtain ⟨hw1, hw2⟩ := hw w (List.mem_cons_self _ _)
    refine ⟨1, [r], le_refl _, by simp, ?_, ?_⟩
    · intro x hx
      rw [List.mem_singleton] at hx
      rw [hx]; exact hr
    · rw [headerLoop_call call phase stream w ws a b pos r h (hc w hw1 hw2) hr]
      rfl

theorem HeaderRun.mono {S : Type} {call : S → List Nat → Int → S × Int} {phase : S → Int}
    {stream : List Nat} {N M : Nat} {a b : S} {p q : Nat} {t : Int}
    (h1 : HeaderRun call phase stream N a p b q t) (hle : N ≤ M) :
    HeaderRun call phase stream M a p b q t := by
  intro wins hw hlen
  obtain ⟨k1, rs1, hk1, hs1, hn1, e1⟩ := h1 wins hw (by omega)
  exact ⟨k1, rs1, by omega, hs1, hn1, e1⟩

theorem HeaderRun.finish {S : Type} {call : S → List Nat → Int → S × Int} {phase : S → Int}
    {stream : List Nat} {N : Nat} {a b : S} {p q : Nat} {t : Int}
    (h1 : HeaderRun call phase stream N a p b q t) (hb : phase b = 100)
    (wins : List Int) (hw : ∀ w ∈ wins, 1 ≤ w ∧ w < 2147483648) (hlen : N ≤ wins.length) :
    (headerLoop call phase stream wins a p).1 = b ∧
    (headerLoop call phase stream wins a p).2.1 = q ∧
    (headerLoop call phase stream wins a p).2.2.sum = t ∧
    ∀ x ∈ (headerLoop call phase stream wins a p).2.2, 0 ≤ x := by
  obtain ⟨k1, rs1, _, hs1, hn1, e1⟩ := h1 wins hw hlen
  rw [e1, headerLoop_done call phase stream _ b q hb]
  simp only [prependRets, List.append_nil]
  exact ⟨trivial, trivial, hs1, hn1⟩

theorem HeaderRun.refl {S : Type} (call : S → List Nat → Int → S × Int) (phase : S → Int)
    (stream : List Nat) (a : S) (p : Nat) : HeaderRun call phase stream 0 a p a p 0 := by
  intro wins _ _
  exact ⟨0, [], le_refl _, rfl, fun x hx => by simp at hx, by simp [prependRets]⟩

theorem HeaderRun.call0 {S : Type} {call : S → List Nat → Int → S × Int} {phase : S → Int}
    {stream : List Nat} {a b : S} {pos : Nat}
    (h : phase a ≠ 100)
    (hc : ∀ len : Int, 1 ≤ len → len < 2147483648 → call a (stream.drop pos) len = (b, 0)) :
    HeaderRun call phase stream 1 a pos b pos 0 := by
  have := HeaderRun.one h hc (le_refl 0)
  simpa using this

/-! ## Auxiliary lemmas on the calls of a parser that is checked against its window -/

theorem windowLoop_done {S : Type} (call : S → List Nat → Int → Option (S × Int))
    (phase : S → Int) (stream : List Nat) (wins : List Int) (a : S) (pos : Nat)
    (h : phase a = 100) : windowLoop call phase stream wins a pos = some (a, pos, []) := by
  cases wins with
  | nil => rfl
  | cons w ws => simp [windowLoop, h]

theorem windowLoop_call {S : Type} (call : S → List Nat → Int → Option (S × Int))
    (phase : S → Int) (stream : List Nat) (len : Int) (wins : List Int) (a b : S) (pos : Nat)
    (r : Int) (h : phase a ≠ 100)
    (hc : call a ((stream.drop pos).take len.toNat) len = some (b, r)) (hr : 0 ≤ r) :
    windowLoop call phase stream (len :: wins) a pos
      = (windowLoop call phase stream wins b (pos + r.toNat)).map (prependRets [r]) := by
  have hr' : ¬ r < 0 := not_lt.mpr hr
  simp only [windowLoop, if_neg h, hc, if_neg hr']
  rfl

theorem prependRets_comp {S : Type} (rs ts : List Int) :
    (prependRets rs ∘ prependRets ts : S × Nat × List Int → S × Nat × List Int)
      = prependRets (rs ++ ts) := by
  funext q
  simp [prependRets]

theorem WindowRun.andThen {S : Type} {call : S → List Nat → Int → Option (S × Int)}
    {phase : S → Int} {stream : List Nat} {W : Int} {N M : Nat} {a b c : S} {p q r : Nat}
    {t u : Int}
    (h1 : WindowRun call phase stream W N a p b q t)
    (h2 : WindowRun call phase stream W M b q c r u) :
    WindowRun call phase stream W (N + M) a p c r (t + u) := by
  intro wins hw hlen
  obtain ⟨k1, rs1, hk1, hs1, hn1, e1⟩ := h1 wins hw (by omega)
  have hw2 : ∀ w ∈ wins.drop k1, W ≤ w ∧ w < 2147483648 :=
    fun w hm => hw w (List.mem_of_mem_drop hm)
  have hl2 : M ≤ (wins.drop k1).length := by rw [List.length_drop]; omega
  obtain ⟨k2, rs2, hk2, hs2, hn2, e2⟩ := h2 (wins.drop k1) hw2 hl2
  refine ⟨k1 + k2, rs1 ++ rs2, by omega, by rw [List.sum_append, hs1, hs2], ?_, ?_⟩
  · intro x hx
    rcases List.mem_append.mp hx with hx | hx
    · exact hn1 x hx
    · exact hn2 x hx
  · rw [e1, e2, Option.map_map, prependRets_comp, List.drop_drop]

theorem WindowRun.single {S : Type} {call : S → List Nat → Int → Option (S × Int)}
    {phase : S → Int} {stream : List Nat} {W : Int} {a b : S} {pos : Nat} {r : Int}
    (h : phase a ≠ 100)
    (hc : ∀ len : Int, W ≤ len → len < 2147483648 →
      call a ((stream.drop pos).take len.toNat) len = some (b, r))
    (hr : 0 ≤ r) :
    WindowRun call phase stream W 1 a pos b (pos + r.toNat) r := by
  intro wins hw hlen
  cases wins with
  | nil => simp at hlen
  | cons w ws =>
    obtain ⟨hw1, hw2⟩ := hw w (List.mem_cons_self _ _)
    refine ⟨1, [r], le_refl _, by simp, ?_, ?_⟩
    · intro x hx
      rw [List.mem_singleton] at hx
      rw [hx]; exact hr
    · rw [windowLoop_call call phase stream w ws a b pos r h (hc w hw1 hw2) hr]
      rfl

theorem WindowRun.weaken {S : Type} {call : S → List Nat → Int → Option (S × Int)}
    {phase : S → Int} {stream : List Nat} {W : Int} {N M : Nat} {a b : S} {p q : Nat} {t : Int}
    (h1 : WindowRun call phase stream W N a p b q t) (hle : N ≤ M) :
    WindowRun call phase stream W M a p b q t := by
  intro wins hw hlen
  obtain ⟨k1, rs1, hk1, hs1, hn1, e1⟩ := h1 wins hw (by omega)
  exact ⟨k1, rs1, by omega, hs1, hn1, e1⟩

theorem WindowRun.done {S : Type} {call : S → List Nat → Int → Option (S × Int)}
    {phase : S → Int} {stream : List Nat} {W : Int} {N : Nat} {a b : S} {p q : Nat} {t : Int}
    (h1 : WindowRun call phase stream W N a p b q t) (hb : phase b = 100)
    (wins : List Int) (hw : ∀ w ∈ wins, W ≤ w ∧ w < 2147483648) (hlen : N ≤ wins.length) :
    ∃ rs : List Int, windowLoop call phase stream wins a p = some (b, q, rs) ∧
      rs.sum = t ∧ ∀ x ∈ rs, 0 ≤ x := by
  obtain ⟨k1, rs1, _, hs1, hn1, e1⟩ := h1 wins hw hlen
  rw [e1, windowLoop_done call phase stream _ b q hb]
  exact ⟨rs1, by simp [prependRets], hs1, hn1⟩

theorem WindowRun.idle {S : Type} (call : S → List Nat → Int → Option (S × Int))
    (phase : S → Int) (stream : List Nat) (W : Int) (a : S) (p : Nat) :
    WindowRun call phase stream W 0 a p a p 0 := by
  intro wins _ _
  refine ⟨0, [], le_refl _, rfl, fun x hx => by simp at hx, ?_⟩
  have : (prependRets [] : S × Nat × List Int → S × Nat × List Int) = id := by
    funext q; simp [prependRets]
  rw [this, Option.map_id, List.drop_zero]
  rfl

theorem window_of_append (stream pre rest : List Nat) (pos n : Nat)
    (h : stream.drop pos = pre ++ rest) (hn : pre.length ≤ n) :
    (stream.drop pos).take n = pre ++ rest.take (n - pre.length) := by
  rw [h, List.take_append_eq_append_take, List.take_of_length_le hn]

/-! ## Auxiliary lemmas on the pending skip -/

theorem getMaxBlockSize_lt (s : AudioBuffer) : s.getMaxBlockSize < 65536 := by
  unfold AudioBuffer.getMaxBlockSize toUInt16; omega

theorem flac_skip_call (a : AudioFLAC) (data : List Nat) (len R : Int)
    (hR : a.retvalue = R) (h0 : 0 < R) (h1 : R < 4294967296) (hl0 : 1 ≤ len)
    (hl1 : len < 2147483648) (hm : 1 ≤ a.InBuff.getMaxBlockSize) :
    ∃ r : Int, 1 ≤ r ∧ r ≤ len ∧ r ≤ R ∧
      AudioFLAC.read_FLAC_Header a data len = some ({ a with retvalue := R - r }, r) := by
  have hm2 := getMaxBlockSize_lt a.InBuff
  have hne : a.retvalue ≠ 0 := by rw [hR]; omega
  unfold AudioFLAC.read_FLAC_Header
  rw [if_pos hne]
  unfold AudioFLAC.read_FLAC_Header_skip
  rw [hR]
  by_cases hgt : R > len
  · rw [if_pos hgt]
    by_cases hc : len > a.InBuff.getMaxBlockSize
    · rw [if_pos hc]
      refine ⟨a.InBuff.getMaxBlockSize, hm, by omega, by omega, ?_⟩
      dsimp only
      rw [toSizeT_of_range _ (by omega) (by omega), toInt32_of_range _ (by omega) (by omega)]
    · rw [if_neg hc]
      refine ⟨len, hl0, le_refl _, by omega, ?_⟩
      dsimp only
      rw [toSizeT_of_range _ (by omega) (by omega), toInt32_of_range _ (by omega) (by omega)]
  · rw [if_neg hgt]
    refine ⟨R, by omega, by omega, le_refl _, ?_⟩
    rw [toInt32_of_range _ (by omega) (by omega), sub_self]

theorem m4a_skip_call (a : AudioM4A) (data : List Nat) (len R : Int)
    (hcc : a.m_controlCounter ≠ M4A_BEGIN)
    (hR : a.retvalue = R) (h0 : 0 < R) (h1 : R < 4294967296) (hl0 : 1 ≤ len)
    (hl1 : len < 2147483648) (hm : 1 ≤ a.InBuff.getMaxBlockSize) :
    ∃ (r c : Int), 1 ≤ r ∧ r ≤ len ∧ r ≤ R ∧ (r = R → c = 0) ∧
      AudioM4A.read_M4A_Header a data len = ({ a with retvalue := R - r, cnt := c }, r) := by
  have hm2 := getMaxBlockSize_lt a.InBuff
  have hne : a.retvalue ≠ 0 := by rw [hR]; omega
  unfold AudioM4A.read_M4A_Header
  simp only [if_neg hcc]
  rw [if_pos hne]
  unfold AudioM4A.read_M4A_Header_skip
  rw [hR]
  by_cases hc : len > a.InBuff.getMaxBlockSize
  · simp only [if_pos hc]
    by_cases hgt : R > a.InBuff.getMaxBlockSize
    · rw [if_pos hgt]
      refine ⟨a.InBuff.getMaxBlockSize, toSizeT (a.cnt + a.InBuff.getMaxBlockSize), hm, by omega,
        by omega, fun h => by omega, ?_⟩
      rw [toSizeT_of_range (R - _) (by omega) (by omega), toInt32_of_range _ (by omega) (by omega)]
    · rw [if_neg hgt]
      refine ⟨R, 0, by omega, by omega, le_refl _, fun _ => rfl, ?_⟩
      rw [toInt32_of_range _ (by omega) (by omega), sub_self]
  · simp only [if_neg hc]
    by_cases hgt : R > len
    · rw [if_pos hgt]
      refine ⟨len, toSizeT (a.cnt + len), hl0, le_refl _, by omega, fun h => by omega, ?_⟩
      rw [toSizeT_of_range (R - _) (by omega) (by omega), toInt32_of_range _ (by omega) (by omega)]
    · rw [if_neg hgt]
      refine ⟨R, 0, by omega, by omega, le_refl _, fun _ => rfl, ?_⟩
      rw [toInt32_of_range _ (by omega) (by omega), sub_self]

theorem flac_skip_run (stream : List Nat) (W : Int) (hW : 1 ≤ W) :
    ∀ (R : Nat) (a : AudioFLAC) (pos : Nat),
    a.retvalue = (R : Int) → 0 < R → (R : Int) < 4294967296 → a.m_controlCounter ≠ 100 →
    1 ≤ a.InBuff.getMaxBlockSize →
    WindowRun AudioFLAC.read_FLAC_Header (fun a => a.m_controlCounter) stream W R a pos
      { a with retvalue := 0 } (pos + R) (R : Int) := by
  intro R
  induction R using Nat.strong_induction_on with
  | _ R ih =>
    intro a pos hR h0 h1 hcc hm wins hw hlen
    cases wins with
    | nil => simp at hlen; omega
    | cons w ws =>
      obtain ⟨hw1, hw2⟩ := hw w (List.mem_cons_self _ _)
      obtain ⟨r, hr1, hr2, hr3, hcall⟩ :=
        flac_skip_call a ((stream.drop pos).take w.toNat) w R hR (by omega) h1 (by omega) hw2 hm
      have hstep := windowLoop_call AudioFLAC.read_FLAC_Header (fun a => a.m_controlCounter)
        stream w ws a _ pos r hcc hcall (by omega)
      by_cases hlast : r = (R : Int)
      · refine ⟨1, [r], by omega, by simp [hlast], ?_, ?_⟩
        · intro x hx
          rw [List.mem_singleton] at hx
          omega
        · rw [hstep, hlast, sub_self]
          simp
      · have hws : ∀ x ∈ ws, W ≤ x ∧ x < 2147483648 :=
          fun x hx => hw x (List.mem_cons_of_mem _ hx)
        have hlen2 : (R - r.toNat) ≤ ws.length := by
          simp only [List.length_cons] at hlen
          omega
        have hR2 : ({ a with retvalue := (R : Int) - r } : AudioFLAC).retvalue
            = ((R - r.toNat : Nat) : Int) := by
          show (R : Int) - r = _
          omega
        obtain ⟨k, rs, hk, hs, hn, e⟩ := ih (R - r.toNat) (by omega)
          { a with retvalue := (R : Int) - r } (pos + r.toNat) hR2 (by omega) (by omega) hcc hm
          ws hws hlen2
        refine ⟨k + 1, r :: rs, by omega, ?_, ?_, ?_⟩
        · rw [List.sum_cons, hs]; omega
        · intro x hx
          rcases List.mem_cons.mp hx with hx | hx
          · omega
          · exact hn x hx
        · rw [hstep, e]
          have hp : pos + r.toNat + (R - r.toNat) = pos + R := by omega
          rw [hp, Option.map_map, prependRets_comp]
          rfl

theorem m4a_skip_run (stream : List Nat) : ∀ (R : Nat) (a : AudioM4A) (pos : Nat),
    a.retvalue = (R : Int) → 0 < R → (R : Int) < 4294967296 → a.m_controlCounter ≠ 100 →
    a.m_controlCounter ≠ M4A_BEGIN → 1 ≤ a.InBuff.getMaxBlockSize →
    HeaderRun AudioM4A.read_M4A_Header (fun a => a.m_controlCounter) stream R a pos
      { a with retvalue := 0, cnt := 0 } (pos + R) (R : Int) := by
  intro R
  induction R using Nat.strong_induction_on with
  | _ R ih =>
    intro a pos hR h0 h1 hcc hb hm wins hw hlen
    cases wins with
    | nil => simp at hlen; omega
    | cons w ws =>
      obtain ⟨hw1, hw2⟩ := hw w (List.mem_cons_self _ _)
      obtain ⟨r, c, hr1, hr2, hr3, hc0, hcall⟩ :=
        m4a_skip_call a (stream.drop pos) w R hb hR (by omega) h1 hw1 hw2 hm
      have hstep := headerLoop_call AudioM4A.read_M4A_Header (fun a => a.m_controlCounter)
        stream w ws a _ pos r hcc hcall (by omega)
      by_cases hlast : r = (R : Int)
      · refine ⟨1, [r], by omega, by simp [hlast], ?_, ?_⟩
        · intro x hx
          rw [List.mem_singleton] at hx
          omega
        · rw [hstep, hc0 hlast, hlast, sub_self]
          simp
      · have hws : ∀ x ∈ ws, 1 ≤ x ∧ x < 2147483648 :=
          fun x hx => hw x (List.mem_cons_of_mem _ hx)
        have hlen2 : (R - r.toNat) ≤ ws.length := by
          simp only [List.length_cons] at hlen
          omega
        have hR2 : ({ a with retvalue := (R : Int) - r, cnt := c } : AudioM4A).retvalue
            = ((R - r.toNat : Nat) : Int) := by
          show (R : Int) - r = _
          omega
        obtain ⟨k, rs, hk, hs, hn, e⟩ := ih (R - r.toNat) (by omega)
          { a with retvalue := (R : Int) - r, cnt := c } (pos + r.toNat) hR2 (by omega) (by omega)
          hcc hb hm ws hws hlen2
        refine ⟨k + 1, r :: rs, by omega, ?_, ?_, ?_⟩
        · rw [List.sum_cons, hs]; omega
        · intro x hx
          rcases List.mem_cons.mp hx with hx | hx
          · omega
          · exact hn x hx
        · rw [hstep, e]
          have hp : pos + r.toNat + (R - r.toNat) = pos + R := by omega
          rw [hp]
          rfl

section

open AudioFLAC

/-! ## Auxiliary lemmas on the walk of `read_FLAC_Header` through the metadata blocks -/



theorem byteAt_append_left (b rest : List Nat) (i : Nat) (h : i < b.length) :
    byteAt (b ++ rest) i = byteAt b i := by
  unfold byteAt
  rw [List.getD_eq_getElem?_getD, List.getD_eq_getElem?_getD, List.getElem?_append_left h]

theorem byteAt_drop (b : List Nat) (k i : Nat) : byteAt (b.drop k) i = byteAt b (k + i) := by
  unfold byteAt
  rw [List.getD_eq_getElem?_getD, List.getD_eq_getElem?_getD, List.getElem?_drop]

theorem bigEndian_append (b rest : List Nat) (k n s : Nat) (h : k + n ≤ b.length) :
    bigEndian ((b ++ rest).drop k) n s = bigEndian (b.drop k) n s := by
  unfold bigEndian
  congr 2
  apply List.map_congr_left
  intro i hi
  rw [List.mem_range] at hi
  rw [byteAt_drop, byteAt_drop, byteAt_append_left _ _ _ (by omega)]

theorem bigEndian_append0 (b rest : List Nat) (n s : Nat) (h : n ≤ b.length) :
    bigEndian (b ++ rest) n s = bigEndian b n s := by
  have := bigEndian_append b rest 0 n s (by omega)
  simpa using this

theorem le32_append (b rest : List Nat) (off : Nat) (h : off + 4 ≤ b.length) :
    le32 (b ++ rest) off = le32 b off := by
  unfold le32
  rw [byteAt_append_left _ _ _ (by omega), byteAt_append_left _ _ _ (by omega),
    byteAt_append_left _ _ _ (by omega), byteAt_append_left _ _ _ (by omega)]

theorem cstr_append_of_mem (s t : List Nat) (h : 0 ∈ s) : cstr (s ++ t) = cstr s := by
  unfold cstr
  induction s with
  | nil => simp at h
  | cons c cs ih =>
    by_cases hc : c = 0
    · subst hc; simp [List.takeWhile]
    · have hm : 0 ∈ cs := by
        rcases List.mem_cons.mp h with h | h
        · exact absurd h.symm hc
        · exact h
      simp [List.takeWhile, hc, ih hm]

theorem strncpyAt_append (b rest : List Nat) (off n : Nat) (out : List Nat)
    (h : strncpyAt b off n = some out) : strncpyAt (b ++ rest) off n = some out := by
  unfold strncpyAt at h ⊢
  simp only [] at h ⊢
  split_ifs at h with hc
  have h := Option.some.inj h
  by_cases hoff : off ≤ b.length
  · have hd : (b ++ rest).drop off = b.drop off ++ rest := by
      rw [List.drop_append_of_le_length hoff]
    rw [hd, List.take_append_eq_append_take]
    rcases hc with hc | hc
    · have ht : ((b.drop off).take n) = (b.drop off).take n := rfl
      have hlen : n ≤ (b.drop off).length := by
        rw [List.length_take] at hc
        omega
      have hz : n - (b.drop off).length = 0 := by omega
      rw [hz, List.take_zero, List.append_nil, if_pos (Or.inl hc), h]
    · rw [if_pos (Or.inr (List.mem_append_left _ hc)), cstr_append_of_mem _ _ hc, h]
  · have hd0 : b.drop off = [] := List.drop_eq_nil_of_le (by omega)
    rw [hd0] at hc h
    simp only [List.take_nil, List.length_nil, List.not_mem_nil, or_false] at hc
    subst hc
    simp only [List.take_zero, List.length_nil, true_or, if_true]
    rw [← h]
    rfl

theorem comments_append (b rest : List Nat) : ∀ (n off : Nat) (ev out : List Event),
    read_FLAC_Header_comments b n off ev = some out →
    read_FLAC_Header_comments (b ++ rest) n off ev = some out := by
  intro n
  induction n with
  | zero => intro off ev out h; simpa [read_FLAC_Header_comments] using h
  | succ n ih =>
    intro off ev out h
    unfold read_FLAC_Header_comments at h ⊢
    by_cases hl : b.length < off + 4
    · rw [if_pos hl] at h; exact absurd h (by simp)
    · rw [if_neg hl] at h
      have hl2 : ¬ ((b ++ rest).length < off + 4) := by
        rw [List.length_append]; omega
      rw [if_neg hl2]
      simp only [] at h ⊢
      rw [le32_append b rest off (by omega)]
      by_cases h512 : (le32 b off).toNat < 512
      · simp only [if_pos h512] at h ⊢
        cases hs : strncpyAt b ((off + 4) % 4294967296) (le32 b off).toNat with
        | none => rw [hs] at h; simp at h
        | some s =>
          rw [hs] at h
          rw [strncpyAt_append b rest _ _ s hs]
          simp only [Option.map_some'] at h ⊢
          exact ih _ _ _ h
      · simp only [if_neg h512] at h ⊢
        exact ih _ _ _ h
theorem flac_SINFO_append (a : AudioFLAC) (b rest : List Nat)
    (h : (read_FLAC_Header_SINFO a b).isSome = true) :
    read_FLAC_Header_SINFO a (b ++ rest) = read_FLAC_Header_SINFO a b := by
  unfold read_FLAC_Header_SINFO at h ⊢
  by_cases h13 : b.length < 13
  · rw [if_pos h13] at h; simp at h
  have g13 : ¬ ((b ++ rest).length < 13) := by rw [List.length_append]; omega
  rw [if_neg h13] at h ⊢
  rw [if_neg g13]
  simp only [] at h ⊢
  rw [bigEndian_append0 b rest 3 8 (by omega), bigEndian_append b rest 5 2 8 (by omega),
    bigEndian_append b rest 10 3 8 (by omega)]
  by_cases hfr : bigEndian (b.drop 10) 3 8 > a.InBuff.getMaxBlockSize
  · rw [if_pos hfr, if_pos hfr]
  rw [if_neg hfr] at h ⊢
  rw [if_neg hfr]
  by_cases h17 : b.length < 17
  · rw [if_pos h17] at h; simp at h
  have g17 : ¬ ((b ++ rest).length < 17) := by rw [List.length_append]; omega
  rw [if_neg h17] at h ⊢
  rw [if_neg g17]
  rw [bigEndian_append b rest 13 3 8 (by omega), byteAt_append_left b rest 16 (by omega)]
  by_cases hb : (((bigEndian (b.drop 13) 3 8).toNat &&& 1) <<< 4 % 256
      + (byteAt b 16 >>> 4 + 1)) % 256 ≠ 8 ∧
      (((bigEndian (b.drop 13) 3 8).toNat &&& 1) <<< 4 % 256
      + (byteAt b 16 >>> 4 + 1)) % 256 ≠ 16
  · rw [if_pos hb, if_pos hb]
  rw [if_neg hb] at h ⊢
  rw [if_neg hb]
  by_cases h21 : b.length < 21
  · rw [if_pos h21] at h; simp at h
  have g21 : ¬ ((b ++ rest).length < 21) := by rw [List.length_append]; omega
  rw [if_neg h21, if_neg g21, bigEndian_append b rest 17 4 8 (by omega)]

theorem flac_SINFO_ok (a a0 : AudioFLAC) (data : List Nat) (hs cl : Int) (last : Bool)
    (ib : AudioBuffer) (hF : FlacFacts a FLAC_SINFO 0 hs last cl ib) (h0 : a0.InBuff = ib)
    (hacc : a0.acceptsStreamInfo data) :
    ∃ b, read_FLAC_Header_SINFO a data = some (b, 0) ∧
      FlacFacts b FLAC_MBH (toSizeT (bigEndian data 3 8 + 3))
        (toSizeT (hs + toSizeT (bigEndian data 3 8 + 3))) last cl ib := by
  have hib : a.InBuff = a0.InBuff := by rw [hF.ib, h0]
  unfold acceptsStreamInfo read_FLAC_Header_SINFO at hacc
  unfold read_FLAC_Header_SINFO
  by_cases h13 : data.length < 13
  · rw [if_pos h13] at hacc; simp at hacc
  rw [if_neg h13] at hacc ⊢
  simp only [] at hacc ⊢
  rw [hib]
  by_cases hfr : bigEndian (data.drop 10) 3 8 > a0.InBuff.getMaxBlockSize
  · rw [if_pos hfr] at hacc
    simp at hacc
  rw [if_neg hfr] at hacc ⊢
  by_cases h17 : data.length < 17
  · rw [if_pos h17] at hacc; simp at hacc
  rw [if_neg h17] at hacc ⊢
  by_cases hb : (((bigEndian (data.drop 13) 3 8).toNat &&& 1) <<< 4 % 256
      + (byteAt data 16 >>> 4 + 1)) % 256 ≠ 8 ∧
      (((bigEndian (data.drop 13) 3 8).toNat &&& 1) <<< 4 % 256
      + (byteAt data 16 >>> 4 + 1)) % 256 ≠ 16
  · rw [if_pos hb] at hacc
    simp at hacc
  rw [if_neg hb] at hacc ⊢
  by_cases h21 : data.length < 21
  · rw [if_pos h21] at hacc; simp at hacc
  rw [if_neg h21] at hacc ⊢
  by_cases htrap : (((bigEndian (data.drop 13) 3 8).toNat &&& 1) <<< 4 % 256
      + (byteAt data 16 >>> 4 + 1)) % 256 ≠ 0 ∧ bigEndian (data.drop 17) 4 8 ≠ 0 ∧
      (((bigEndian (data.drop 13) 3 8).toNat >>> 4 : Nat) : Int) = 0
  · rw [if_pos htrap] at hacc; simp at hacc
  rw [if_neg htrap]
  exact ⟨_, rfl, rfl, rfl, by rw [← hF.hs], hF.last, hF.cl, h0⟩

theorem comments_isSome_ev (d : List Nat) : ∀ (n off : Nat) (ev ev2 : List Event),
    (read_FLAC_Header_comments d n off ev).isSome
      = (read_FLAC_Header_comments d n off ev2).isSome := by
  intro n
  induction n with
  | zero => intro off ev ev2; simp [read_FLAC_Header_comments]
  | succ n ih =>
    intro off ev ev2
    unfold read_FLAC_Header_comments
    by_cases hl : d.length < off + 4
    · rw [if_pos hl, if_pos hl]
    · rw [if_neg hl, if_neg hl]
      simp only []
      by_cases h512 : (le32 d off).toNat < 512
      · simp only [if_pos h512]
        cases hs : strncpyAt d ((off + 4) % 4294967296) (le32 d off).toNat with
        | none => rfl
        | some s =>
          simp only [Option.map_some']
          exact ih _ _ _
      · simp only [if_neg h512]
        exact ih _ _ _

theorem flac_VORBIS_append (a : AudioFLAC) (b rest : List Nat)
    (h : (read_FLAC_Header_VORBIS a b).isSome = true) :
    read_FLAC_Header_VORBIS a (b ++ rest) = read_FLAC_Header_VORBIS a b := by
  unfold read_FLAC_Header_VORBIS at h ⊢
  by_cases h7 : b.length < 7
  · rw [if_pos h7] at h; simp at h
  have g7 : ¬ ((b ++ rest).length < 7) := by rw [List.length_append]; omega
  rw [if_neg h7] at h ⊢
  rw [if_neg g7]
  simp only [] at h ⊢
  rw [bigEndian_append0 b rest 3 8 (by omega), le32_append b rest 3 (by omega)]
  generalize hoff : (if le32 b 3 ≠ 0 then 7 else 3) = off at h ⊢
  generalize hvl : (if le32 b 3 > 495 then 495 else le32 b 3).toNat = vl at h ⊢
  cases hs : strncpyAt b off vl with
  | none => rw [hs] at h; simp at h
  | some s =>
    rw [hs] at h
    rw [strncpyAt_append b rest off vl s hs]
    simp only [] at h ⊢
    by_cases hl : b.length < off + vl + 4
    · rw [if_pos hl] at h; simp at h
    have gl : ¬ ((b ++ rest).length < off + vl + 4) := by rw [List.length_append]; omega
    rw [if_neg hl] at h ⊢
    rw [if_neg gl, le32_append b rest (off + vl) (by omega)]
    cases hc : read_FLAC_Header_comments b (le32 b (off + vl)).toNat (off + vl + 4)
        (a.events ++ [Event.audio_id3data (lit "VENDOR_STRING: " ++ s)]) with
    | none => rw [hc] at h; simp at h
    | some out => rw [comments_append b rest _ _ _ _ hc]

theorem flac_VORBIS_isSome (a a0 : AudioFLAC) (d : List Nat) :
    (read_FLAC_Header_VORBIS a d).isSome = (read_FLAC_Header_VORBIS a0 d).isSome := by
  unfold read_FLAC_Header_VORBIS
  by_cases h7 : d.length < 7
  · rw [if_pos h7, if_pos h7]
  rw [if_neg h7, if_neg h7]
  simp only []
  generalize hoff : (if le32 d 3 ≠ 0 then 7 else 3) = off
  generalize hvl : (if le32 d 3 > 495 then 495 else le32 d 3).toNat = vl
  cases hs : strncpyAt d off vl with
  | none => rfl
  | some s =>
    simp only []
    by_cases hl : d.length < off + vl + 4
    · rw [if_pos hl, if_pos hl]
    rw [if_neg hl, if_neg hl]
    have := comments_isSome_ev d (le32 d (off + vl)).toNat (off + vl + 4)
      (a.events ++ [Event.audio_id3data (lit "VENDOR_STRING: " ++ s)])
      (a0.events ++ [Event.audio_id3data (lit "VENDOR_STRING: " ++ s)])
    cases hc : read_FLAC_Header_comments d (le32 d (off + vl)).toNat (off + vl + 4)
        (a.events ++ [Event.audio_id3data (lit "VENDOR_STRING: " ++ s)]) with
    | none =>
      rw [hc] at this
      cases hc0 : read_FLAC_Header_comments d (le32 d (off + vl)).toNat (off + vl + 4)
          (a0.events ++ [Event.audio_id3data (lit "VENDOR_STRING: " ++ s)]) with
      | none => rfl
      | some o => rw [hc0] at this; simp at this
    | some out =>
      rw [hc] at this
      cases hc0 : read_FLAC_Header_comments d (le32 d (off + vl)).toNat (off + vl + 4)
          (a0.events ++ [Event.audio_id3data (lit "VENDOR_STRING: " ++ s)]) with
      | none => rw [hc0] at this; simp at this
      | some o => rfl

theorem flac_VORBIS_ok (a a0 : AudioFLAC) (data : List Nat) (hs cl : Int) (last : Bool)
    (ib : AudioBuffer) (hF : FlacFacts a FLAC_VORBIS 0 hs last cl ib)
    (hv : a0.readsVorbisInside data) :
    ∃ b, read_FLAC_Header_VORBIS a data = some (b, 0) ∧
      FlacFacts b FLAC_MBH (toSizeT (bigEndian data 3 8 + 3))
        (toSizeT (hs + toSizeT (bigEndian data 3 8 + 3))) last cl ib := by
  have hsome : (read_FLAC_Header_VORBIS a data).isSome = true := by
    rw [flac_VORBIS_isSome a a0 data]; exact hv
  unfold read_FLAC_Header_VORBIS at hsome ⊢
  by_cases h7 : data.length < 7
  · rw [if_pos h7] at hsome; simp at hsome
  rw [if_neg h7] at hsome ⊢
  simp only [] at hsome ⊢
  generalize hoff : (if le32 data 3 ≠ 0 then 7 else 3) = off at hsome ⊢
  generalize hvl : (if le32 data 3 > 495 then 495 else le32 data 3).toNat = vl at hsome ⊢
  cases hs' : strncpyAt data off vl with
  | none => rw [hs'] at hsome; simp at hsome
  | some s =>
    rw [hs'] at hsome
    simp only [] at hsome ⊢
    by_cases hl : data.length < off + vl + 4
    · rw [if_pos hl] at hsome; simp at hsome
    rw [if_neg hl] at hsome ⊢
    cases hc : read_FLAC_Header_comments data (le32 data (off + vl)).toNat (off + vl + 4)
        (a.events ++ [Event.audio_id3data (lit "VENDOR_STRING: " ++ s)]) with
    | none => rw [hc] at hsome; simp at hsome
    | some out =>
      exact ⟨_, rfl, rfl, rfl, by rw [← hF.hs], hF.last, hF.cl, hF.ib⟩

theorem specialIndexOf_matchAt (base str : List Nat) (n k : Nat)
    (h : specialIndexOf base str n = (k : Int)) : matchAt base str k = true := by
  unfold specialIndexOf at h
  split_ifs at h with h1
  cases hf : (List.range (n - str.length)).find? (fun i => matchAt base str i) with
  | none => rw [hf] at h; simp at h
  | some i =>
    rw [hf] at h
    simp only [Nat.cast_inj] at h
    have := List.find?_some hf
    rw [h] at this
    exact this

theorem specialIndexOf_zero (base str : List Nat) (n : Nat) (hn : str.length < n)
    (h : matchAt base str 0 = true) : specialIndexOf base str n = 0 := by
  unfold specialIndexOf
  rw [if_neg (by omega)]
  obtain ⟨m, hm⟩ : ∃ m, n - str.length = m + 1 := ⟨n - str.length - 1, by omega⟩
  rw [hm, List.range_succ_eq_map, List.find?_cons, h]
  rfl

theorem lit_fLaC : lit "fLaC" = [102, 76, 97, 67] := by decide
theorem lit_OggS : lit "OggS" = [79, 103, 103, 83] := by decide

theorem flac_call_BEGIN (a : AudioFLAC) (data : List Nat) (len : Int)
    (hcc : a.m_controlCounter = FLAC_BEGIN) (hret : a.retvalue = 0) :
    read_FLAC_Header a data len = some ((read_FLAC_Header_BEGIN a).1, 0) ∧
    FlacFacts (read_FLAC_Header_BEGIN a).1 FLAC_MAGIC 0 0 false
      (read_FLAC_Header_BEGIN a).1.m_contentlength a.InBuff := by
  constructor
  · simp only [read_FLAC_Header, hret, hcc, ne_eq, not_true_eq_false, if_false, if_true]
    unfold read_FLAC_Header_BEGIN
    dsimp only
    split_ifs <;> rfl
  · unfold read_FLAC_Header_BEGIN
    dsimp only
    split_ifs <;> exact ⟨rfl, rfl, rfl, rfl, rfl, rfl⟩

theorem flac_call_MAGIC (a : AudioFLAC) (rest : List Nat) (hs : Int) (last : Bool)
    (cl : Int) (ib : AudioBuffer) (hF : FlacFacts a FLAC_MAGIC 0 hs last cl ib)
    (h6 : 6 ≤ rest.length) :
    ∀ len : Int, read_FLAC_Header a (lit "fLaC" ++ rest) len
      = some ({ a with m_controlCounter := FLAC_MBH, headerSize := 4, retvalue := 4 }, 0) := by
  have h1 : specialIndexOf (lit "fLaC" ++ rest) (lit "OggS") 10 ≠ 0 := by
    intro h
    have := specialIndexOf_matchAt _ _ 10 0 (by simpa using h)
    rw [lit_fLaC, lit_OggS] at this
    simp [matchAt, byteAt, List.range_succ] at this
  have h2 : specialIndexOf (lit "fLaC" ++ rest) (lit "fLaC") 10 = 0 := by
    apply specialIndexOf_zero
    · rw [lit_fLaC]; decide
    · rw [lit_fLaC]
      simp [matchAt, byteAt, List.range_succ]
  have h10 : ¬ ((lit "fLaC" ++ rest).length < 10) := by
    rw [List.length_append, lit_fLaC]; simp; omega
  intro len
  simp only [read_FLAC_Header, hF.ret, hF.cc, FLAC_MAGIC, FLAC_BEGIN, ne_eq, not_true_eq_false,
    if_false, if_true, one_ne_zero]
  unfold read_FLAC_Header_MAGIC
  rw [if_neg h10, if_neg h1, if_neg (by rw [h2]; simp)]

theorem flac_dispatch_MBH (a : AudioFLAC) (data : List Nat) (len : Int)
    (hcc : a.m_controlCounter = FLAC_MBH) (hret : a.retvalue = 0) :
    read_FLAC_Header a data len = read_FLAC_Header_MBH a data := by
  simp [read_FLAC_Header, hcc, hret, FLAC_BEGIN, FLAC_MAGIC, FLAC_MBH]

theorem flac_type_byte (last : Bool) (t : Nat) (ht : t ≤ 6) :
    ((if last then 128 else 0) + t) &&& 127 = t ∧
    ((((if last then 128 else 0) + t) &&& 128 ≠ 0) ↔ last = true) := by
  interval_cases t <;> cases last <;> decide

theorem flac_call_MBH (a : AudioFLAC) (rest : List Nat) (hs cl : Int)
    (ib : AudioBuffer) (last : Bool) (t : Nat) (ht : t ≤ 6)
    (hF : FlacFacts a FLAC_MBH 0 hs false cl ib) :
    ∃ b, (∀ len : Int,
        read_FLAC_Header a (((if last then 128 else 0) + t) :: rest) len = some (b, 0)) ∧
      FlacFacts b (3 + (t : Int)) 1 (toSizeT (hs + 1)) last cl ib := by
  obtain ⟨e1, e2⟩ := flac_type_byte last t ht
  have hne : ¬ ((((if last then 128 else 0) + t) :: rest).length < 1) := by simp
  refine ⟨{ a with
      f_lastMetaBlock := last
      m_controlCounter := 3 + (t : Int)
      headerSize := toSizeT (a.headerSize + 1)
      retvalue := 1 }, fun len => ?_, ?_⟩
  · rw [flac_dispatch_MBH a _ len hF.cc hF.ret]
    unfold read_FLAC_Header_MBH
    rw [if_neg hne]
    simp only [hF.last, byteAt_cons_zero, e1]
    have hcc : (if t = 0 then FLAC_SINFO else if t = 1 then FLAC_PADDING
        else if t = 2 then FLAC_APP else if t = 3 then FLAC_SEEK
        else if t = 4 then FLAC_VORBIS else if t = 5 then FLAC_CUESHEET
        else if t = 6 then FLAC_PICTURE else a.m_controlCounter) = 3 + (t : Int) := by
      interval_cases t <;>
        simp [FLAC_SINFO, FLAC_PADDING, FLAC_APP, FLAC_SEEK, FLAC_VORBIS, FLAC_CUESHEET,
          FLAC_PICTURE]
    have hl : (if ((if last then 128 else 0) + t) &&& 128 ≠ 0 then true else false) = last := by
      cases last
      · have h0 : t &&& 128 = 0 := by interval_cases t <;> decide
        simp [h0]
      · have h1 : (128 + t) &&& 128 = 128 := by interval_cases t <;> decide
        simp [h1]
    simp only [Bool.false_eq_true, not_false_eq_true, if_true, hcc, hl]
  · exact ⟨rfl, rfl, by simp [hF.hs], rfl, hF.cl, hF.ib⟩

theorem flac_call_phase (a a0 : AudioFLAC) (pre : List Nat) (hs cl : Int)
    (last : Bool) (ib : AudioBuffer) (t : Nat) (ht : t ≤ 6) (h3 : 3 ≤ pre.length)
    (hF : FlacFacts a (3 + (t : Int)) 0 hs last cl ib) (h0 : a0.InBuff = ib)
    (hacc : t = 0 → a0.acceptsStreamInfo pre)
    (hv : t = 4 → a0.readsVorbisInside pre) :
    ∃ b, (∀ (rest : List Nat) (len : Int),
        read_FLAC_Header a (pre ++ rest) len = some (b, 0)) ∧
      FlacFacts b FLAC_MBH (toSizeT (bigEndian pre 3 8 + 3))
        (toSizeT (hs + toSizeT (bigEndian pre 3 8 + 3))) last cl ib := by
  have hcc := hF.cc
  have hret := hF.ret
  have hl3 : ∀ rest : List Nat, ¬ ((pre ++ rest).length < 3) := by
    intro rest; rw [List.length_append]; omega
  have hbe := fun rest : List Nat => bigEndian_append0 pre rest 3 8 h3
  interval_cases t
  · have hF' : FlacFacts a FLAC_SINFO 0 hs last cl ib := hF
    obtain ⟨b, e0, f0⟩ := flac_SINFO_ok a a0 pre hs cl last ib hF' h0 (hacc rfl)
    refine ⟨b, fun rest len => ?_, f0⟩
    rw [read_FLAC_Header_at_SINFO a _ len hF'.cc hret,
      flac_SINFO_append a pre rest (by rw [e0]; rfl), e0]
  · refine ⟨{ a with
        m_controlCounter := FLAC_MBH
        retvalue := toSizeT (bigEndian pre 3 8 + 3)
        headerSize := toSizeT (a.headerSize + toSizeT (bigEndian pre 3 8 + 3)) },
      fun rest len => ?_, ⟨rfl, rfl, by rw [← hF.hs], hF.last, hF.cl, hF.ib⟩⟩
    simp [read_FLAC_Header, hcc, hret, FLAC_BEGIN, FLAC_MAGIC, FLAC_MBH, FLAC_SINFO,
      FLAC_PADDING, read_FLAC_Header_block, hl3 rest, hbe rest]
    omega
  · refine ⟨{ a with
        m_controlCounter := FLAC_MBH
        retvalue := toSizeT (bigEndian pre 3 8 + 3)
        headerSize := toSizeT (a.headerSize + toSizeT (bigEndian pre 3 8 + 3)) },
      fun rest len => ?_, ⟨rfl, rfl, by rw [← hF.hs], hF.last, hF.cl, hF.ib⟩⟩
    simp [read_FLAC_Header, hcc, hret, FLAC_BEGIN, FLAC_MAGIC, FLAC_MBH, FLAC_SINFO,
      FLAC_PADDING, FLAC_APP, read_FLAC_Header_block, hl3 rest, hbe rest]
    omega
  · refine ⟨{ a with
        m_controlCounter := FLAC_MBH
        retvalue := toSizeT (bigEndian pre 3 8 + 3)
        headerSize := toSizeT (a.headerSize + toSizeT (bigEndian pre 3 8 + 3)) },
      fun rest len => ?_, ⟨rfl, rfl, by rw [← hF.hs], hF.last, hF.cl, hF.ib⟩⟩
    simp [read_FLAC_Header, hcc, hret, FLAC_BEGIN, FLAC_MAGIC, FLAC_MBH, FLAC_SINFO,
      FLAC_PADDING, FLAC_APP, FLAC_SEEK, read_FLAC_Header_block, hl3 rest, hbe rest]
    omega
  · have hF' : FlacFacts a FLAC_VORBIS 0 hs last cl ib := hF
    obtain ⟨b, e0, f0⟩ := flac_VORBIS_ok a a0 pre hs cl last ib hF' (hv rfl)
    refine ⟨b, fun rest len => ?_, f0⟩
    have hd : read_FLAC_Header a (pre ++ rest) len = read_FLAC_Header_VORBIS a (pre ++ rest) := by
      simp [read_FLAC_Header, hcc, hret, FLAC_BEGIN, FLAC_MAGIC, FLAC_MBH, FLAC_SINFO,
        FLAC_PADDING, FLAC_APP, FLAC_SEEK, FLAC_VORBIS]
    rw [hd, flac_VORBIS_append a pre rest (by rw [e0]; rfl), e0]
  · refine ⟨{ a with
        m_controlCounter := FLAC_MBH
        retvalue := toSizeT (bigEndian pre 3 8 + 3)
        headerSize := toSizeT (a.headerSize + toSizeT (bigEndian pre 3 8 + 3)) },
      fun rest len => ?_, ⟨rfl, rfl, by rw [← hF.hs], hF.last, hF.cl, hF.ib⟩⟩
    simp [read_FLAC_Header, hcc, hret, FLAC_BEGIN, FLAC_MAGIC, FLAC_MBH, FLAC_SINFO,
      FLAC_PADDING, FLAC_APP, FLAC_SEEK, FLAC_VORBIS, FLAC_CUESHEET, read_FLAC_Header_block,
      hl3 rest, hbe rest]
    omega
  · refine ⟨{ a with
        picLen := bigEndian pre 3 8
        picPos := a.headerSize
        m_controlCounter := FLAC_MBH
        retvalue := toSizeT (bigEndian pre 3 8 + 3)
        headerSize := toSizeT (a.headerSize + toSizeT (bigEndian pre 3 8 + 3)) },
      fun rest len => ?_, ⟨rfl, rfl, by rw [← hF.hs], hF.last, hF.cl, hF.ib⟩⟩
    simp [read_FLAC_Header, hcc, hret, FLAC_BEGIN, FLAC_MAGIC, FLAC_MBH, FLAC_SINFO,
      FLAC_PADDING, FLAC_APP, FLAC_SEEK, FLAC_VORBIS, FLAC_CUESHEET, FLAC_PICTURE,
      read_FLAC_Header_PICTURE, hl3 rest, hbe rest]
    omega

theorem flac_call_final (a : AudioFLAC) (x : Nat) (rest : List Nat) (hs cl : Int)
    (ib : AudioBuffer) (hF : FlacFacts a FLAC_MBH 0 hs true cl ib) :
    ∃ b, (∀ len : Int, read_FLAC_Header a (x :: rest) len = some (b, 0)) ∧
      b.m_controlCounter = FLAC_OKAY ∧
      b.m_audioDataStart = hs ∧ b.m_audioDataSize = toSizeT (cl - hs) ∧
      b.m_contentlength = cl := by
  have hne : ¬ ((x :: rest).length < 1) := by simp
  have hd : ∀ len : Int, read_FLAC_Header a (x :: rest) len = read_FLAC_Header_MBH a (x :: rest) :=
    fun len => flac_dispatch_MBH a _ len hF.cc hF.ret
  unfold read_FLAC_Header_MBH at hd
  rw [if_neg hne] at hd
  simp only [hF.last, not_true_eq_false, if_false] at hd
  by_cases hp : a.picLen ≠ 0
  · simp only [if_pos hp] at hd
    exact ⟨_, hd, rfl, hF.hs, by rw [← hF.hs, ← hF.cl], hF.cl⟩
  · simp only [if_neg hp] at hd
    exact ⟨_, hd, rfl, hF.hs, by rw [← hF.hs, ← hF.cl], hF.cl⟩

theorem drop_add_of_append (stream xs rest : List Nat) (pos n : Nat)
    (h : stream.drop pos = xs ++ rest) (hn : xs.length = n) :
    stream.drop (pos + n) = rest := by
  rw [← List.drop_drop, h, ← hn, List.drop_left]

theorem bigEndian_be24 (l : Nat) (rest : List Nat) (h : l < 16777216) :
    bigEndian (be24Bytes l ++ rest) 3 8 = (l : Int) := by
  show bigEndian (_ :: _ :: _ :: _) 3 8 = _
  rw [bigEndian_3_8]
  unfold toSizeT
  omega

theorem flacFacts_skip (a : AudioFLAC) (cc ret hs : Int) (last : Bool) (cl : Int)
    (ib : AudioBuffer) (hF : FlacFacts a cc ret hs last cl ib) :
    FlacFacts { a with retvalue := 0 } cc 0 hs last cl ib :=
  ⟨hF.cc, rfl, hF.hs, hF.last, hF.cl, hF.ib⟩

theorem be24Bytes_length (l : Nat) : (be24Bytes l).length = 3 := rfl

theorem flac_phase_window (stream : List Nat) (W : Int) (a a0 : AudioFLAC) (pos : Nat)
    (b : FlacBlock) (rest : List Nat) (hs cl : Int) (last : Bool) (ib : AudioBuffer)
    (hW : 10 ≤ W)
    (hdata : stream.drop pos = be24Bytes b.payload.length ++ (b.payload ++ rest))
    (hF : FlacFacts a (3 + (b.type : Int)) 0 hs last cl ib)
    (ht : b.type ≤ 6) (hl : b.payload.length < 16777216) (h0 : a0.InBuff = ib)
    (hacc : b.type = 0 → a0.acceptsStreamInfo (be24Bytes b.payload.length ++ b.payload))
    (hv : b.type = 4 → a0.readsVorbisInside (be24Bytes b.payload.length ++ b.payload))
    (hwin : b.type = 0 ∨ b.type = 4 → ((3 + b.payload.length : Nat) : Int) ≤ W) :
    ∃ c, (∀ len : Int, W ≤ len → len < 2147483648 →
        read_FLAC_Header a ((stream.drop pos).take len.toNat) len = some (c, 0)) ∧
      FlacFacts c FLAC_MBH (toSizeT ((b.payload.length : Int) + 3))
        (toSizeT (hs + toSizeT ((b.payload.length : Int) + 3))) last cl ib := by
  by_cases h04 : b.type = 0 ∨ b.type = 4
  · have hw := hwin h04
    obtain ⟨c, hc, f⟩ := flac_call_phase a a0 (be24Bytes b.payload.length ++ b.payload)
      hs cl last ib b.type ht (by rw [List.length_append, be24Bytes_length]; omega) hF h0
      hacc hv
    rw [bigEndian_be24 _ _ hl] at f
    refine ⟨c, fun len h1 h2 => ?_, f⟩
    have hd2 : stream.drop pos = (be24Bytes b.payload.length ++ b.payload) ++ rest := by
      rw [hdata, List.append_assoc]
    rw [window_of_append stream _ rest pos len.toNat hd2
      (by rw [List.length_append, be24Bytes_length]; omega)]
    exact hc _ len
  · have hacc2 : b.type = 0 → a0.acceptsStreamInfo (be24Bytes b.payload.length) :=
      fun h => absurd (Or.inl h) h04
    have hv2 : b.type = 4 → a0.readsVorbisInside (be24Bytes b.payload.length) :=
      fun h => absurd (Or.inr h) h04
    obtain ⟨c, hc, f⟩ := flac_call_phase a a0 (be24Bytes b.payload.length)
      hs cl last ib b.type ht (by rw [be24Bytes_length]) hF h0 hacc2 hv2
    have hbe := bigEndian_be24 b.payload.length [] hl
    rw [List.append_nil] at hbe
    rw [hbe] at f
    refine ⟨c, fun len h1 h2 => ?_, f⟩
    rw [window_of_append stream _ _ pos len.toNat hdata (by rw [be24Bytes_length]; omega)]
    exact hc _ len

theorem flac_block_run (stream : List Nat) (W : Int) (a a0 : AudioFLAC) (pos : Nat)
    (b : FlacBlock) (last : Bool) (rest : List Nat) (hs : Nat) (cl : Int) (ib : AudioBuffer)
    (hW : 10 ≤ W)
    (hdata : stream.drop pos = flacBlockBytes last b ++ rest)
    (hF : FlacFacts a FLAC_MBH 0 hs false cl ib)
    (ht : b.type ≤ 6) (hl : b.payload.length < 16777216)
    (h0 : a0.InBuff = ib)
    (hacc : b.type = 0 → a0.acceptsStreamInfo (be24Bytes b.payload.length ++ b.payload))
    (hv : b.type = 4 → a0.readsVorbisInside (be24Bytes b.payload.length ++ b.payload))
    (hwin : b.type = 0 ∨ b.type = 4 → ((3 + b.payload.length : Nat) : Int) ≤ W)
    (hsz : hs + 4 + b.payload.length < 4294967296) (hm : 1 ≤ ib.getMaxBlockSize) :
    ∃ a1, FlacFacts a1 FLAC_MBH 0 ((hs + (4 + b.payload.length) : Nat) : Int) last cl ib ∧
      WindowRun read_FLAC_Header (fun a => a.m_controlCounter) stream W
        (2 * (4 + b.payload.length))
        a pos a1 (pos + (4 + b.payload.length)) ((4 + b.payload.length : Nat) : Int) := by
  -- the header byte
  have hd0 : stream.drop pos = [(if last then 128 else 0) + b.type]
      ++ (be24Bytes b.payload.length ++ (b.payload ++ rest)) := by
    rw [hdata]; simp [flacBlockBytes]
  obtain ⟨b1, c1, f1⟩ := flac_call_MBH a (be24Bytes b.payload.length ++ (b.payload ++ rest))
    hs cl ib last b.type ht hF
  have c1w : ∀ rest2 : List Nat, ∀ len : Int,
      read_FLAC_Header a (((if last then 128 else 0) + b.type) :: rest2) len = some (b1, 0) := by
    intro rest2 len
    obtain ⟨b2, c2, _⟩ := flac_call_MBH a rest2 hs cl ib last b.type ht hF
    have e1 := c1 len
    have e2 := c2 len
    rw [flac_dispatch_MBH a _ len hF.cc hF.ret] at e1 e2 ⊢
    unfold read_FLAC_Header_MBH at e1 e2 ⊢
    simp only [List.length_cons, byteAt_cons_zero] at e1 e2 ⊢
    rw [if_neg (by omega)] at e1 e2 ⊢
    exact e1
  have e1 : toSizeT ((hs : Int) + 1) = ((hs + 1 : Nat) : Int) := by
    rw [toSizeT_of_range _ (by omega) (by omega)]; omega
  rw [e1] at f1
  have r1 : WindowRun read_FLAC_Header (fun a => a.m_controlCounter) stream W 1 a pos b1
      (pos + (0 : Int).toNat) 0 :=
    WindowRun.single (by show a.m_controlCounter ≠ 100; rw [hF.cc]; decide)
      (fun len h1 h2 => by
        rw [window_of_append stream _ _ pos len.toNat hd0 (by simp; omega)]
        exact c1w _ len) (le_refl _)
  -- the skip of the header byte
  have hcc1 : b1.m_controlCounter ≠ 100 := by rw [f1.cc]; omega
  have r2 := flac_skip_run stream W (by omega) 1 b1 (pos + (0 : Int).toNat)
    (by rw [f1.ret]; rfl) (by omega) (by omega) hcc1 (by rw [f1.ib]; exact hm)
  have f2 := flacFacts_skip b1 _ _ _ _ _ _ f1
  -- the phase of the block
  have hd1 : stream.drop (pos + (0 : Int).toNat + 1)
      = be24Bytes b.payload.length ++ (b.payload ++ rest) := by
    have := drop_add_of_append stream [(if last then 128 else 0) + b.type] _ pos 1 hd0 rfl
    simpa using this
  obtain ⟨b3, c3, f3⟩ := flac_phase_window stream W { b1 with retvalue := 0 } a0
    (pos + (0 : Int).toNat + 1) b rest _ cl last ib hW hd1 f2 ht hl h0 hacc hv hwin
  have e3 : toSizeT ((b.payload.length : Int) + 3) = ((b.payload.length + 3 : Nat) : Int) := by
    rw [toSizeT_of_range _ (by omega) (by omega)]; omega
  have e4 : toSizeT (((hs + 1 : Nat) : Int) + ((b.payload.length + 3 : Nat) : Int))
      = ((hs + (4 + b.payload.length) : Nat) : Int) := by
    rw [toSizeT_of_range _ (by omega) (by omega)]; omega
  rw [e3, e4] at f3
  have r3 : WindowRun read_FLAC_Header (fun a => a.m_controlCounter) stream W 1
      { b1 with retvalue := 0 } (pos + (0 : Int).toNat + 1) b3
      (pos + (0 : Int).toNat + 1 + (0 : Int).toNat) 0 :=
    WindowRun.single (by show b1.m_controlCounter ≠ 100; exact hcc1) c3 (le_refl _)
  -- the skip of the block
  have r4 := flac_skip_run stream W (by omega) (b.payload.length + 3) b3
    (pos + (0 : Int).toNat + 1 + (0 : Int).toNat) f3.ret (by omega) (by omega)
    (by rw [f3.cc]; decide) (by rw [f3.ib]; exact hm)
  have f4 := flacFacts_skip b3 _ _ _ _ _ _ f3
  refine ⟨_, f4, ?_⟩
  have r := ((r1.andThen r2).andThen r3).andThen r4
  have hp : pos + (0 : Int).toNat + 1 + (0 : Int).toNat + (b.payload.length + 3)
      = pos + (4 + b.payload.length) := by simp; omega
  have ht : (0 : Int) + ((1 : Nat) : Int) + 0 + ((b.payload.length + 3 : Nat) : Int)
      = ((4 + b.payload.length : Nat) : Int) := by push_cast; ring
  rw [hp, ht] at r
  exact r.weaken (by omega)

theorem flacBlocksSize_cons (b : FlacBlock) (bs : List FlacBlock) :
    flacBlocksSize (b :: bs) = (4 + b.payload.length) + flacBlocksSize bs := by
  simp [flacBlocksSize]

theorem flacBlocksSize_append (bs cs : List FlacBlock) :
    flacBlocksSize (bs ++ cs) = flacBlocksSize bs + flacBlocksSize cs := by
  simp [flacBlocksSize]

theorem flac_blocks_run (stream : List Nat) (W : Int) (hW : 10 ≤ W) (a0 : AudioFLAC) (cl : Int)
    (ib : AudioBuffer) (h0 : a0.InBuff = ib) (hm : 1 ≤ ib.getMaxBlockSize) :
    ∀ (blocks : List FlacBlock) (a : AudioFLAC) (pos hs : Nat) (tail : List Nat),
      stream.drop pos = blocks.flatMap (flacBlockBytes false) ++ tail →
      FlacFacts a FLAC_MBH 0 hs false cl ib →
      (∀ b ∈ blocks, b.type ≤ 6 ∧ b.payload.length < 16777216 ∧
        (b.type = 0 → a0.acceptsStreamInfo (be24Bytes b.payload.length ++ b.payload)) ∧
        (b.type = 4 → a0.readsVorbisInside (be24Bytes b.payload.length ++ b.payload)) ∧
        (b.type = 0 ∨ b.type = 4 → ((3 + b.payload.length : Nat) : Int) ≤ W)) →
      hs + flacBlocksSize blocks < 4294967296 →
      ∃ a1, FlacFacts a1 FLAC_MBH 0 ((hs + flacBlocksSize blocks : Nat) : Int) false cl ib ∧
        WindowRun read_FLAC_Header (fun a => a.m_controlCounter) stream W
          (2 * flacBlocksSize blocks) a pos a1 (pos + flacBlocksSize blocks)
          ((flacBlocksSize blocks : Nat) : Int) := by
  intro blocks
  induction blocks with
  | nil =>
    intro a pos hs tail _ hF _ _
    exact ⟨a, hF, WindowRun.idle _ _ _ _ _ _⟩
  | cons b bs ih =>
    intro a pos hs tail hdata hF hb hsz
    rw [flacBlocksSize_cons] at hsz ⊢
    obtain ⟨hb1, hb2, hb3, hb4, hb5⟩ := hb b (List.mem_cons_self _ _)
    have hd : stream.drop pos = flacBlockBytes false b
        ++ (bs.flatMap (flacBlockBytes false) ++ tail) := by
      rw [hdata]; simp
    obtain ⟨a1, f1, r1⟩ := flac_block_run stream W a a0 pos b false _ hs cl ib hW hd hF hb1 hb2
      h0 hb3 hb4 hb5 (by omega) hm
    have hd2 : stream.drop (pos + (4 + b.payload.length))
        = bs.flatMap (flacBlockBytes false) ++ tail :=
      drop_add_of_append stream _ _ pos _ hd (by simp [flacBlockBytes, be24Bytes]; omega)
    obtain ⟨a2, f2, r2⟩ := ih a1 (pos + (4 + b.payload.length)) (hs + (4 + b.payload.length))
      tail hd2 f1 (fun c hc => hb c (List.mem_cons_of_mem _ hc)) (by omega)
    refine ⟨a2, ?_, ?_⟩
    · rw [Nat.add_assoc] at f2; exact f2
    · have r := r1.andThen r2
      rw [Nat.add_assoc, ← Nat.mul_add, ← Nat.cast_add] at r
      exact r

theorem flacBlocks_length (blocks : List FlacBlock) :
    (blocks.flatMap (flacBlockBytes false)).length = flacBlocksSize blocks := by
  induction blocks with
  | nil => rfl
  | cons b bs ih =>
    rw [flacBlocksSize_cons, List.flatMap_cons, List.length_append, ih]
    simp [flacBlockBytes, be24Bytes]; omega

theorem flac_stream_run (a : AudioFLAC) (blocks : List FlacBlock) (lastBlock : FlacBlock)
    (audio : List Nat) (W : Int) (hW : 10 ≤ W)
    (hcc : a.m_controlCounter = FLAC_BEGIN) (hret : a.retvalue = 0)
    (hm : 1 ≤ a.InBuff.getMaxBlockSize)
    (hb : ∀ b ∈ blocks ++ [lastBlock], b.type ≤ 6 ∧ b.payload.length < 16777216 ∧
      (b.type = 0 → a.acceptsStreamInfo (be24Bytes b.payload.length ++ b.payload)) ∧
      (b.type = 4 → a.readsVorbisInside (be24Bytes b.payload.length ++ b.payload)) ∧
      (b.type = 0 ∨ b.type = 4 → ((3 + b.payload.length : Nat) : Int) ≤ W))
    (haudio : 2 ≤ audio.length)
    (hsz : 4 + flacBlocksSize (blocks ++ [lastBlock]) < 4294967296) :
    ∃ b, b.m_controlCounter = FLAC_OKAY ∧
      b.m_audioDataStart = ((4 + flacBlocksSize (blocks ++ [lastBlock]) : Nat) : Int) ∧
      b.m_audioDataSize = toSizeT (b.m_contentlength - b.m_audioDataStart) ∧
      b.m_contentlength = (read_FLAC_Header_BEGIN a).1.m_contentlength ∧
      WindowRun read_FLAC_Header (fun a => a.m_controlCounter)
        (flacStream blocks lastBlock audio) W (2 * (4 + flacBlocksSize (blocks ++ [lastBlock])))
        a 0 b (4 + flacBlocksSize (blocks ++ [lastBlock]))
        ((4 + flacBlocksSize (blocks ++ [lastBlock]) : Nat) : Int) := by
  rw [flacBlocksSize_append] at hsz ⊢
  have hlast : flacBlocksSize [lastBlock] = 4 + lastBlock.payload.length := by
    simp [flacBlocksSize]
  rw [hlast] at hsz ⊢
  -- FLAC_BEGIN
  obtain ⟨c0, f0⟩ := flac_call_BEGIN a ((flacStream blocks lastBlock audio).drop 0) 0 hcc hret
  have r0 : WindowRun read_FLAC_Header (fun a => a.m_controlCounter)
      (flacStream blocks lastBlock audio) W 1 a 0 (read_FLAC_Header_BEGIN a).1
      (0 + (0 : Int).toNat) 0 :=
    WindowRun.single (by show a.m_controlCounter ≠ 100; rw [hcc]; decide)
      (fun len _ _ => (flac_call_BEGIN a _ len hcc hret).1) (le_refl _)
  -- FLAC_MAGIC
  have hstream : (flacStream blocks lastBlock audio).drop (0 + (0 : Int).toNat)
      = lit "fLaC" ++ (blocks.flatMap (flacBlockBytes false)
          ++ (flacBlockBytes true lastBlock ++ audio)) := by
    show List.drop 0 (lit "fLaC" ++ _) = _
    rfl
  have htl : 6 ≤ (blocks.flatMap (flacBlockBytes false)
      ++ (flacBlockBytes true lastBlock ++ audio)).length := by
    simp only [List.length_append, flacBlockBytes, be24Bytes, List.length_cons,
      List.length_nil, List.length_singleton]
    omega
  have r1 : ∃ b1, FlacFacts b1 FLAC_MBH 4 4 false
      (read_FLAC_Header_BEGIN a).1.m_contentlength a.InBuff ∧
      WindowRun read_FLAC_Header (fun a => a.m_controlCounter)
      (flacStream blocks lastBlock audio) W 1 (read_FLAC_Header_BEGIN a).1 (0 + (0 : Int).toNat)
      b1 (0 + (0 : Int).toNat + (0 : Int).toNat) 0 := by
    refine ⟨{ (read_FLAC_Header_BEGIN a).1 with
      m_controlCounter := FLAC_MBH, headerSize := 4, retvalue := 4 },
      ⟨rfl, rfl, rfl, f0.last, f0.cl, f0.ib⟩, ?_⟩
    refine WindowRun.single
      (by show (read_FLAC_Header_BEGIN a).1.m_controlCounter ≠ 100; rw [f0.cc]; decide)
      (fun len h1 h2 => ?_) (le_refl _)
    rw [window_of_append _ _ _ _ len.toNat hstream (by rw [lit_fLaC]; simp; omega)]
    have hl6 : 6 ≤ ((blocks.flatMap (flacBlockBytes false)
        ++ (flacBlockBytes true lastBlock ++ audio)).take
          (len.toNat - (lit "fLaC").length)).length := by
      rw [List.length_take, lit_fLaC]
      simp only [List.length_cons, List.length_nil]
      omega
    exact flac_call_MAGIC (read_FLAC_Header_BEGIN a).1 _ _ _ _ _ f0 hl6 len
  obtain ⟨b1, f1, r1⟩ := r1
  -- the skip of the magic
  have r2 := flac_skip_run (flacStream blocks lastBlock audio) W (by omega) 4 b1
    (0 + (0 : Int).toNat + (0 : Int).toNat) f1.ret (by omega) (by decide)
    (by rw [f1.cc]; decide) (by rw [f1.ib]; exact hm)
  have f2 : FlacFacts { b1 with retvalue := 0 } FLAC_MBH 0 ((4 : Nat) : Int) false
      (read_FLAC_Header_BEGIN a).1.m_contentlength a.InBuff := flacFacts_skip b1 _ _ _ _ _ _ f1
  -- the blocks
  have hd4 : (flacStream blocks lastBlock audio).drop (0 + (0 : Int).toNat + (0 : Int).toNat + 4)
      = blocks.flatMap (flacBlockBytes false) ++ (flacBlockBytes true lastBlock ++ audio) := by
    show List.drop 4 (lit "fLaC" ++ _) = _
    rw [lit_fLaC]; rfl
  obtain ⟨b3, f3, r3⟩ := flac_blocks_run (flacStream blocks lastBlock audio) W hW a _ a.InBuff
    rfl hm blocks { b1 with retvalue := 0 } _ 4 _ hd4 f2
    (fun b hb' => hb b (List.mem_append_left _ hb')) (by omega)
  have hd5 := drop_add_of_append (flacStream blocks lastBlock audio) _ _ _
    (flacBlocksSize blocks) hd4 (flacBlocks_length blocks)
  have hbl := hb lastBlock (by simp)
  obtain ⟨b4, f4, r4⟩ := flac_block_run (flacStream blocks lastBlock audio) W b3 a _ lastBlock
    true audio (4 + flacBlocksSize blocks) _ a.InBuff hW hd5 f3
    hbl.1 hbl.2.1 rfl hbl.2.2.1 hbl.2.2.2.1 hbl.2.2.2.2 (by omega) hm
  -- the end of the metadata
  have hd6 : (flacStream blocks lastBlock audio).drop (0 + (0 : Int).toNat + (0 : Int).toNat + 4
      + flacBlocksSize blocks + (4 + lastBlock.payload.length)) = audio :=
    drop_add_of_append (flacStream blocks lastBlock audio) _ _ _ _ hd5
      (by simp [flacBlockBytes, be24Bytes]; omega)
  obtain ⟨x, tl, hx⟩ : ∃ x tl, audio = x :: tl := by
    cases audio with
    | nil => simp at haudio
    | cons x tl => exact ⟨x, tl, rfl⟩
  obtain ⟨b5, c5, g1, g2, g3, g4⟩ := flac_call_final b4 x [] _ _ _ f4
  have c5w : ∀ (rest2 : List Nat) (len : Int),
      read_FLAC_Header b4 (x :: rest2) len = some (b5, 0) := by
    intro rest2 len
    have e1 := c5 len
    rw [flac_dispatch_MBH b4 _ len f4.cc f4.ret] at e1 ⊢
    unfold read_FLAC_Header_MBH at e1 ⊢
    simp only [List.length_cons, byteAt_cons_zero] at e1 ⊢
    rw [if_neg (by omega)] at e1 ⊢
    exact e1
  have r5 : WindowRun read_FLAC_Header (fun a => a.m_controlCounter)
      (flacStream blocks lastBlock audio) W 1 b4 _ b5 (_ + (0 : Int).toNat) 0 :=
    WindowRun.single (by show b4.m_controlCounter ≠ 100; rw [f4.cc]; decide)
      (fun len h1 h2 => by
        have hd7 : (flacStream blocks lastBlock audio).drop (0 + (0 : Int).toNat
            + (0 : Int).toNat + 4 + flacBlocksSize blocks + (4 + lastBlock.payload.length))
            = [x] ++ tl := by rw [hd6, hx]; rfl
        rw [window_of_append _ _ _ _ len.toNat hd7 (by simp; omega)]
        exact c5w _ len) (le_refl _)
  refine ⟨b5, g1, ?_, ?_, g4, ?_⟩
  · rw [g2]; congr 1; omega
  · rw [g3, g4, g2]
  · have r := ((((r0.andThen r1).andThen r2).andThen r3).andThen r4).andThen r5
    have hp : 0 + (0 : Int).toNat + (0 : Int).toNat + 4 + flacBlocksSize blocks
        + (4 + lastBlock.payload.length) + (0 : Int).toNat
        = 4 + (flacBlocksSize blocks + (4 + lastBlock.payload.length)) := by simp; omega
    have ht : (0 : Int) + 0 + ((4 : Nat) : Int) + ((flacBlocksSize blocks : Nat) : Int)
        + ((4 + lastBlock.payload.length : Nat) : Int) + 0
        = ((4 + (flacBlocksSize blocks + (4 + lastBlock.payload.length)) : Nat) : Int) := by
      push_cast; ring
    rw [hp, ht] at r
    exact r.weaken (by omega)

end

section

open AudioM4A

/-! ## Auxiliary lemmas on the walk of `read_M4A_Header` through the atoms -/


theorem specialIndexOf_first (base str : List Nat) (n k : Nat) (hk : k + str.length < n)
    (hm : matchAt base str k = true) (hn : ∀ i < k, matchAt base str i = false) :
    specialIndexOf base str n = (k : Int) := by
  unfold specialIndexOf
  rw [if_neg (by omega)]
  obtain ⟨d, hd⟩ : ∃ d, n - str.length = k + (d + 1) := ⟨n - str.length - k - 1, by omega⟩
  rw [hd, List.range_add, List.find?_append]
  have h1 : (List.range k).find? (fun i => matchAt base str i) = none := by
    rw [List.find?_eq_none]
    intro x hx
    rw [List.mem_range] at hx
    simp [hn x hx]
  rw [h1]
  simp [List.range_succ_eq_map, hm]

theorem matchAt_four (base : List Nat) (s0 s1 s2 s3 i : Nat) :
    matchAt base [s0, s1, s2, s3] i = true ↔
      byteAt base i = s0 ∧ byteAt base (i + 1) = s1 ∧ byteAt base (i + 2) = s2 ∧
        byteAt base (i + 3) = s3 := by
  simp [matchAt, List.range_succ, and_assoc]

theorem lit_ftyp : lit "ftyp" = [102, 116, 121, 112] := by decide
theorem lit_moov : lit "moov" = [109, 111, 111, 118] := by decide
theorem lit_mdat : lit "mdat" = [109, 100, 97, 116] := by decide
theorem lit_free : lit "free" = [102, 114, 101, 101] := by decide
theorem lit_M4A : lit "M4A " = [77, 52, 65, 32] := by decide
theorem lit_isom : lit "isom" = [105, 115, 111, 109] := by decide
theorem lit_mp42 : lit "mp42" = [109, 112, 52, 50] := by decide

theorem bigEndian_be32 (s : Nat) (rest : List Nat) (h : s < 4294967296) :
    bigEndian (be32Bytes s ++ rest) 4 8 = (s : Int) := by
  show bigEndian (_ :: _ :: _ :: _ :: _) 4 8 = _
  rw [bigEndian_4_8]
  unfold toSizeT
  omega

theorem specialIndexOf_name_at_4 (c0 c1 c2 c3 p0 p1 p2 p3 : Nat) (rest : List Nat)
    (hne : [c0, c1, c2, c3] ≠ [p0, p1, p2, p3]) (h3 : p0 ≠ p3) (h2 : p0 ≠ p2) (h1 : p0 ≠ p1) :
    specialIndexOf ([c0, c1, c2, c3] ++ ([p0, p1, p2, p3] ++ rest)) [p0, p1, p2, p3] 10 = 4 := by
  apply specialIndexOf_first _ _ 10 4 (by simp)
  · rw [matchAt_four]; exact ⟨rfl, rfl, rfl, rfl⟩
  · intro i hi
    rw [Bool.eq_false_iff, Ne, matchAt_four]
    rintro ⟨a0, a1, a2, a3⟩
    interval_cases i
    · exact hne (by
        simp only [List.cons_append, List.nil_append, zero_add, byteAt_cons_zero,
          byteAt_cons_succ] at a0 a1 a2 a3
        rw [a0, a1, a2, a3])
    · exact h3 a3
    · exact h2 a2
    · exact h1 a1

theorem specialIndexOf_brand_at_8 (c0 c1 c2 c3 p0 p1 p2 p3 : Nat) (rest : List Nat)
    (hne : [c0, c1, c2, c3] ≠ [p0, p1, p2, p3]) (h3 : 102 ≠ p3) (h2 : 102 ≠ p2)
    (h1 : 102 ≠ p1) (h0 : 102 ≠ p0) (g1 : 116 ≠ p0) (g2 : 121 ≠ p0) (g3 : 112 ≠ p0) :
    specialIndexOf ([c0, c1, c2, c3] ++ ([102, 116, 121, 112] ++ ([p0, p1, p2, p3] ++ rest)))
      [p0, p1, p2, p3] 20 = 8 := by
  apply specialIndexOf_first _ _ 20 8 (by simp)
  · rw [matchAt_four]; exact ⟨rfl, rfl, rfl, rfl⟩
  · intro i hi
    rw [Bool.eq_false_iff, Ne, matchAt_four]
    rintro ⟨a0, a1, a2, a3⟩
    interval_cases i
    · exact hne (by
        simp only [List.cons_append, List.nil_append, zero_add, byteAt_cons_zero,
          byteAt_cons_succ] at a0 a1 a2 a3
        rw [a0, a1, a2, a3])
    · exact h3 a3
    · exact h2 a2
    · exact h1 a1
    · exact h0 a0
    · exact g1 a0
    · exact g2 a0
    · exact g3 a0

theorem be32Bytes_eq (s : Nat) :
    be32Bytes s = [s / 16777216 % 256, s / 65536 % 256, s / 256 % 256, s % 256] := rfl

theorem m4a_call_BEGIN (a : AudioM4A) (data : List Nat) (len : Int)
    (hcc : a.m_controlCounter = M4A_BEGIN) :
    read_M4A_Header a data len = ((read_M4A_Header_BEGIN { a with retvalue := 0 }).1, 0) ∧
    M4aFacts (read_M4A_Header_BEGIN { a with retvalue := 0 }).1 M4A_FTYP 0 0 a.InBuff := by
  constructor
  · simp [read_M4A_Header, hcc, read_M4A_Header_BEGIN]
  · exact ⟨rfl, rfl, rfl, rfl⟩

theorem m4a_dispatch (a : AudioM4A) (data : List Nat) (len : Int)
    (hb : a.m_controlCounter ≠ M4A_BEGIN) (hret : a.retvalue = 0) :
    read_M4A_Header a data len =
      if a.m_controlCounter = M4A_FTYP then read_M4A_Header_FTYP a data
      else if a.m_controlCounter = M4A_CHK then read_M4A_Header_CHK a data
      else if a.m_controlCounter = M4A_MOOV then read_M4A_Header_MOOV a data len
      else if a.m_controlCounter = M4A_TRAK then read_M4A_Header_TRAK a data len
      else if a.m_controlCounter = M4A_ILST then read_M4A_Header_ILST a data len
      else if a.m_controlCounter = M4A_MDAT then read_M4A_Header_MDAT a data
      else if a.m_controlCounter = M4A_AMRDY then read_M4A_Header_AMRDY a
      else (a, 0) := by
  unfold read_M4A_Header
  simp only [if_neg hb]
  rw [if_neg (by rw [hret]; simp)]

theorem m4a_call_FTYP (a : AudioM4A) (s : Nat) (brand rest : List Nat) (hs : Int)
    (ib : AudioBuffer) (hF : M4aFacts a M4A_FTYP 0 hs ib) (hs32 : s < 4294967296)
    (hbrand : brand = lit "M4A " ∨ brand = lit "isom" ∨ brand = lit "mp42")
    (h1 : be32Bytes s ≠ lit "ftyp") (h2 : be32Bytes s ≠ brand) :
    ∃ b, (∀ len : Int, read_M4A_Header a (be32Bytes s ++ (lit "ftyp" ++ (brand ++ rest))) len
        = (b, 0)) ∧
      M4aFacts b M4A_CHK s s ib := by
  have hsz := bigEndian_be32 s (lit "ftyp" ++ (brand ++ rest)) hs32
  have e1 : specialIndexOf (be32Bytes s ++ (lit "ftyp" ++ (brand ++ rest))) (lit "ftyp") 10
      = 4 := by
    rw [lit_ftyp, be32Bytes_eq] at h1 ⊢
    exact specialIndexOf_name_at_4 _ _ _ _ _ _ _ _ _ h1 (by decide) (by decide) (by decide)
  have e2 : specialIndexOf (be32Bytes s ++ (lit "ftyp" ++ (brand ++ rest))) brand 20 = 8 := by
    rw [lit_ftyp]
    rcases hbrand with hb | hb | hb <;> rw [hb] at h2 ⊢
    · rw [lit_M4A, be32Bytes_eq] at h2 ⊢
      exact specialIndexOf_brand_at_8 _ _ _ _ _ _ _ _ _ h2 (by decide) (by decide) (by decide)
        (by decide) (by decide) (by decide) (by decide)
    · rw [lit_isom, be32Bytes_eq] at h2 ⊢
      exact specialIndexOf_brand_at_8 _ _ _ _ _ _ _ _ _ h2 (by decide) (by decide) (by decide)
        (by decide) (by decide) (by decide) (by decide)
    · rw [lit_mp42, be32Bytes_eq] at h2 ⊢
      exact specialIndexOf_brand_at_8 _ _ _ _ _ _ _ _ _ h2 (by decide) (by decide) (by decide)
        (by decide) (by decide) (by decide) (by decide)
  have hnb : a.m_controlCounter ≠ M4A_BEGIN := by rw [hF.cc]; decide
  have e3 : ¬ (specialIndexOf (be32Bytes s ++ (lit "ftyp" ++ (brand ++ rest))) (lit "M4A ") 20 ≠ 8
      ∧ specialIndexOf (be32Bytes s ++ (lit "ftyp" ++ (brand ++ rest))) (lit "isom") 20 ≠ 8
      ∧ specialIndexOf (be32Bytes s ++ (lit "ftyp" ++ (brand ++ rest))) (lit "mp42") 20 ≠ 8) := by
    rintro ⟨g1, g2, g3⟩
    rcases hbrand with hb | hb | hb
    · exact g1 (by rw [← hb]; exact e2)
    · exact g2 (by rw [← hb]; exact e2)
    · exact g3 (by rw [← hb]; exact e2)
  refine ⟨{ a with atomsize := s, m_controlCounter := M4A_CHK, retvalue := s, headerSize := s },
    fun len => ?_, ⟨rfl, rfl, rfl, hF.ib⟩⟩
  rw [m4a_dispatch a _ len hnb hF.ret, if_pos hF.cc]
  unfold read_M4A_Header_FTYP
  simp only [e1, ne_eq, not_true_eq_false, if_false, hsz]
  rw [if_neg e3]

theorem m4a_call_CHK_other (a : AudioM4A) (s : Nat) (name rest : List Nat) (hs : Int)
    (ib : AudioBuffer) (hF : M4aFacts a M4A_CHK 0 hs ib) (hs32 : s < 4294967296)
    (hlen : name.length = 4) (h1 : name ≠ lit "moov") (h2 : name ≠ lit "mdat") :
    ∃ b, (∀ len : Int, read_M4A_Header a (be32Bytes s ++ (name ++ rest)) len = (b, 0)) ∧
      M4aFacts b M4A_CHK s (toSizeT (hs + s)) ib := by
  have hsz := bigEndian_be32 s (name ++ rest) hs32
  obtain ⟨n0, n1, n2, n3, hn⟩ : ∃ n0 n1 n2 n3, name = [n0, n1, n2, n3] := by
    match name, hlen with
    | [n0, n1, n2, n3], _ => exact ⟨n0, n1, n2, n3, rfl⟩
  have e1 : specialIndexOf (be32Bytes s ++ (name ++ rest)) (lit "moov") 10 ≠ 4 := by
    intro h
    have hm := specialIndexOf_matchAt _ _ 10 4 (by simpa using h)
    rw [lit_moov, matchAt_four, hn, be32Bytes_eq] at hm
    apply h1
    rw [hn, lit_moov]
    simp only [List.cons_append, List.nil_append, byteAt_cons_zero, byteAt_cons_succ] at hm
    obtain ⟨a0, a1, a2, a3⟩ := hm
    rw [a0, a1, a2, a3]
  have e2 : specialIndexOf (be32Bytes s ++ (name ++ rest)) (lit "mdat") 10 ≠ 4 := by
    intro h
    have hm := specialIndexOf_matchAt _ _ 10 4 (by simpa using h)
    rw [lit_mdat, matchAt_four, hn, be32Bytes_eq] at hm
    apply h2
    rw [hn, lit_mdat]
    simp only [List.cons_append, List.nil_append, byteAt_cons_zero, byteAt_cons_succ] at hm
    obtain ⟨a0, a1, a2, a3⟩ := hm
    rw [a0, a1, a2, a3]
  have hnb : a.m_controlCounter ≠ M4A_BEGIN := by rw [hF.cc]; decide
  refine ⟨{ a with atomsize := s, retvalue := s, headerSize := toSizeT (a.headerSize + s) },
    fun len => ?_, ⟨hF.cc, rfl, by rw [← hF.hs], hF.ib⟩⟩
  rw [m4a_dispatch a _ len hnb hF.ret, if_neg (by rw [hF.cc]; decide), if_pos hF.cc]
  unfold read_M4A_Header_CHK
  simp only [hsz]
  rw [if_neg e1, if_neg e2]
  split_ifs <;> rfl

theorem m4a_call_CHK_mdat (a : AudioM4A) (m : Nat) (rest : List Nat) (hs : Int)
    (ib : AudioBuffer) (hF : M4aFacts a M4A_CHK 0 hs ib) (hm32 : m < 4294967296)
    (h1 : be32Bytes m ≠ lit "mdat") :
    ∃ b, (∀ len : Int, read_M4A_Header a (be32Bytes m ++ (lit "mdat" ++ rest)) len = (b, 0)) ∧
      M4aFacts b M4A_MDAT 0 hs ib := by
  have hsz := bigEndian_be32 m (lit "mdat" ++ rest) hm32
  have e1 : specialIndexOf (be32Bytes m ++ (lit "mdat" ++ rest)) (lit "moov") 10 ≠ 4 := by
    intro h
    have hm := specialIndexOf_matchAt _ _ 10 4 (by simpa using h)
    rw [lit_moov, matchAt_four, lit_mdat, be32Bytes_eq] at hm
    simp [byteAt] at hm
  have e2 : specialIndexOf (be32Bytes m ++ (lit "mdat" ++ rest)) (lit "free") 10 ≠ 4 := by
    intro h
    have hm := specialIndexOf_matchAt _ _ 10 4 (by simpa using h)
    rw [lit_free, matchAt_four, lit_mdat, be32Bytes_eq] at hm
    simp [byteAt] at hm
  have e3 : specialIndexOf (be32Bytes m ++ (lit "mdat" ++ rest)) (lit "mdat") 10 = 4 := by
    rw [lit_mdat, be32Bytes_eq] at h1 ⊢
    exact specialIndexOf_name_at_4 _ _ _ _ _ _ _ _ _ h1 (by decide) (by decide) (by decide)
  have hnb : a.m_controlCounter ≠ M4A_BEGIN := by rw [hF.cc]; decide
  refine ⟨{ a with atomsize := m, m_controlCounter := M4A_MDAT },
    fun len => ?_, ⟨rfl, hF.ret, hF.hs, hF.ib⟩⟩
  rw [m4a_dispatch a _ len hnb hF.ret, if_neg (by rw [hF.cc]; decide), if_pos hF.cc]
  unfold read_M4A_Header_CHK
  simp only [hsz]
  rw [if_neg e1, if_neg e2, if_pos e3]

theorem m4a_call_MDAT (a : AudioM4A) (m : Nat) (rest : List Nat) (hs : Int)
    (ib : AudioBuffer) (hF : M4aFacts a M4A_MDAT 0 hs ib) (hm32 : m < 4294967296) :
    ∃ b, (∀ len : Int, read_M4A_Header a (be32Bytes m ++ rest) len = (b, 0)) ∧
      M4aFacts b M4A_AMRDY 8 (toSizeT (hs + 8)) ib ∧
      b.m_audioDataSize = toSizeT ((m : Int) - 8) := by
  have hsz := bigEndian_be32 m rest hm32
  have hnb : a.m_controlCounter ≠ M4A_BEGIN := by rw [hF.cc]; decide
  refine ⟨(read_M4A_Header_MDAT a (be32Bytes m ++ rest)).1, fun len => ?_,
    ⟨rfl, rfl, by rw [← hF.hs]; rfl, hF.ib⟩, ?_⟩
  · rw [m4a_dispatch a _ len hnb hF.ret]
    simp [hF.cc, M4A_MDAT, M4A_FTYP, M4A_CHK, M4A_MOOV, M4A_TRAK, M4A_ILST,
      read_M4A_Header_MDAT]
  · show toSizeT (bigEndian (be32Bytes m ++ rest) 4 8 - 8) = _
    rw [hsz]

theorem m4a_call_AMRDY (a : AudioM4A) (data : List Nat) (hs : Int)
    (ib : AudioBuffer) (hF : M4aFacts a M4A_AMRDY 0 hs ib) :
    ∃ b, (∀ len : Int, read_M4A_Header a data len = (b, 0)) ∧
      b.m_controlCounter = M4A_OKAY ∧ b.m_audioDataStart = hs ∧
      b.m_audioDataSize = a.m_audioDataSize := by
  have hnb : a.m_controlCounter ≠ M4A_BEGIN := by rw [hF.cc]; decide
  refine ⟨(read_M4A_Header_AMRDY a).1, fun len => ?_, ?_⟩
  · rw [m4a_dispatch a _ len hnb hF.ret]
    simp [hF.cc, M4A_MDAT, M4A_FTYP, M4A_CHK, M4A_MOOV, M4A_TRAK, M4A_ILST, M4A_AMRDY,
      read_M4A_Header_AMRDY]
  · unfold read_M4A_Header_AMRDY
    dsimp only
    split_ifs
    · exact ⟨rfl, hF.hs, rfl⟩
    · exact ⟨rfl, hF.hs, rfl⟩

theorem m4aFacts_skip (a : AudioM4A) (cc ret hs : Int) (ib : AudioBuffer)
    (hF : M4aFacts a cc ret hs ib) :
    M4aFacts { a with retvalue := 0, cnt := 0 } cc 0 hs ib :=
  ⟨hF.cc, rfl, hF.hs, hF.ib⟩

theorem m4a_atom_run (stream : List Nat) (a : AudioM4A) (pos : Nat) (t : M4aAtom)
    (rest : List Nat) (hs : Nat) (ib : AudioBuffer)
    (hdata : stream.drop pos = t.bytes ++ rest)
    (hF : M4aFacts a M4A_CHK 0 hs ib)
    (hlen : t.name.length = 4) (h1 : t.name ≠ lit "moov") (h2 : t.name ≠ lit "mdat")
    (hsz : hs + t.size < 4294967296) (hm : 1 ≤ ib.getMaxBlockSize) :
    ∃ a1, M4aFacts a1 M4A_CHK 0 ((hs + t.size : Nat) : Int) ib ∧
      HeaderRun read_M4A_Header (fun a => a.m_controlCounter) stream (2 * t.size)
        a pos a1 (pos + t.size) ((t.size : Nat) : Int) := by
  have hpos : 0 < t.size := by unfold M4aAtom.size; omega
  have hd0 : stream.drop pos = be32Bytes t.size ++ (t.name ++ (t.body ++ rest)) := by
    rw [hdata]; simp [M4aAtom.bytes]
  obtain ⟨b1, c1, f1⟩ := m4a_call_CHK_other a t.size t.name (t.body ++ rest) hs ib hF
    (by omega) hlen h1 h2
  have e1 : toSizeT ((hs : Int) + (t.size : Int)) = ((hs + t.size : Nat) : Int) := by
    rw [toSizeT_of_range _ (by omega) (by omega)]; omega
  rw [e1] at f1
  have r1 : HeaderRun read_M4A_Header (fun a => a.m_controlCounter) stream 1 a pos b1
      (pos + (0 : Int).toNat) 0 :=
    HeaderRun.one (by show a.m_controlCounter ≠ 100; rw [hF.cc]; decide)
      (fun len _ _ => by rw [hd0]; exact c1 len) (le_refl _)
  have r2 := m4a_skip_run stream t.size b1 (pos + (0 : Int).toNat) f1.ret hpos
    (by omega) (by rw [f1.cc]; decide) (by rw [f1.cc]; decide) (by rw [f1.ib]; exact hm)
  have f2 := m4aFacts_skip b1 _ _ _ _ f1
  refine ⟨_, f2, ?_⟩
  have r := r1.trans r2
  have hp : pos + (0 : Int).toNat + t.size = pos + t.size := by simp
  rw [hp, zero_add] at r
  exact r.mono (by omega)

theorem m4aAtomsSize_cons (t : M4aAtom) (ts : List M4aAtom) :
    m4aAtomsSize (t :: ts) = t.size + m4aAtomsSize ts := by
  simp [m4aAtomsSize]

theorem M4aAtom.bytes_length (t : M4aAtom) (h : t.name.length = 4) :
    t.bytes.length = t.size := by
  simp [M4aAtom.bytes, M4aAtom.size, be32Bytes, h]; omega

theorem m4a_atoms_run (stream : List Nat) (ib : AudioBuffer) (hm : 1 ≤ ib.getMaxBlockSize) :
    ∀ (atoms : List M4aAtom) (a : AudioM4A) (pos hs : Nat) (tail : List Nat),
      stream.drop pos = atoms.flatMap M4aAtom.bytes ++ tail →
      M4aFacts a M4A_CHK 0 hs ib →
      (∀ t ∈ atoms, t.name.length = 4 ∧ t.name ≠ lit "moov" ∧ t.name ≠ lit "mdat") →
      hs + m4aAtomsSize atoms < 4294967296 →
      ∃ a1, M4aFacts a1 M4A_CHK 0 ((hs + m4aAtomsSize atoms : Nat) : Int) ib ∧
        HeaderRun read_M4A_Header (fun a => a.m_controlCounter) stream
          (2 * m4aAtomsSize atoms) a pos a1 (pos + m4aAtomsSize atoms)
          ((m4aAtomsSize atoms : Nat) : Int) ∧
        stream.drop (pos + m4aAtomsSize atoms) = tail := by
  intro atoms
  induction atoms with
  | nil =>
    intro a pos hs tail hd hF _ _
    exact ⟨a, hF, HeaderRun.refl _ _ _ _ _, by simpa [m4aAtomsSize] using hd⟩
  | cons t ts ih =>
    intro a pos hs tail hdata hF ht hsz
    rw [m4aAtomsSize_cons] at hsz ⊢
    obtain ⟨ht1, ht2, ht3⟩ := ht t (List.mem_cons_self _ _)
    have hd : stream.drop pos = t.bytes ++ (ts.flatMap M4aAtom.bytes ++ tail) := by
      rw [hdata]; simp
    obtain ⟨a1, f1, r1⟩ := m4a_atom_run stream a pos t _ hs ib hd hF ht1 ht2 ht3 (by omega) hm
    have hd2 : stream.drop (pos + t.size) = ts.flatMap M4aAtom.bytes ++ tail :=
      drop_add_of_append stream _ _ pos _ hd (t.bytes_length ht1)
    obtain ⟨a2, f2, r2, d2⟩ := ih a1 (pos + t.size) (hs + t.size) tail hd2 f1
      (fun c hc => ht c (List.mem_cons_of_mem _ hc)) (by omega)
    refine ⟨a2, ?_, ?_, ?_⟩
    · rw [Nat.add_assoc] at f2; exact f2
    · have r := r1.trans r2
      rw [Nat.add_assoc, ← Nat.mul_add, ← Nat.cast_add] at r
      exact r
    · rw [← Nat.add_assoc]; exact d2

theorem m4a_stream_run (a : AudioM4A) (brand ftypRest : List Nat) (atoms : List M4aAtom)
    (m : Nat) (rest : List Nat)
    (hcc : a.m_controlCounter = M4A_BEGIN) (hm : 1 ≤ a.InBuff.getMaxBlockSize)
    (hbrand : brand = lit "M4A " ∨ brand = lit "isom" ∨ brand = lit "mp42")
    (hf1 : be32Bytes (12 + ftypRest.length) ≠ lit "ftyp")
    (hf2 : be32Bytes (12 + ftypRest.length) ≠ brand)
    (hat : ∀ t ∈ atoms, t.name.length = 4 ∧ t.name ≠ lit "moov" ∧ t.name ≠ lit "mdat")
    (hm1 : be32Bytes m ≠ lit "mdat") (hm32 : m < 4294967296)
    (hsz : 12 + ftypRest.length + m4aAtomsSize atoms + 8 < 4294967296) :
    ∃ b, b.m_controlCounter = M4A_OKAY ∧
      b.m_audioDataStart = ((12 + ftypRest.length + m4aAtomsSize atoms + 8 : Nat) : Int) ∧
      b.m_audioDataSize = toSizeT ((m : Int) - 8) ∧
      HeaderRun read_M4A_Header (fun a => a.m_controlCounter)
        (m4aStream brand ftypRest atoms m rest)
        (2 * (12 + ftypRest.length + m4aAtomsSize atoms + 8))
        a 0 b (12 + ftypRest.length + m4aAtomsSize atoms + 8)
        ((12 + ftypRest.length + m4aAtomsSize atoms + 8 : Nat) : Int) := by
  have hbl : brand.length = 4 := by
    rcases hbrand with h | h | h <;> rw [h] <;> decide
  have hstream : m4aStream brand ftypRest atoms m rest
      = be32Bytes (12 + ftypRest.length) ++ (lit "ftyp" ++ (brand ++ (ftypRest
        ++ (atoms.flatMap M4aAtom.bytes ++ (be32Bytes m ++ (lit "mdat" ++ rest)))))) := by
    unfold m4aStream M4aAtom.bytes M4aAtom.size
    have : 8 + (brand ++ ftypRest).length = 12 + ftypRest.length := by
      rw [List.length_append, hbl]; omega
    simp only [this, List.append_assoc]
  -- M4A_BEGIN
  have r0 : HeaderRun read_M4A_Header (fun a => a.m_controlCounter)
      (m4aStream brand ftypRest atoms m rest) 1 a 0
      (read_M4A_Header_BEGIN { a with retvalue := 0 }).1 0 0 :=
    HeaderRun.call0 (by show a.m_controlCounter ≠ 100; rw [hcc]; decide)
      (fun len _ _ => (m4a_call_BEGIN a _ len hcc).1)
  have f0 := (m4a_call_BEGIN a [] 0 hcc).2
  -- M4A_FTYP
  obtain ⟨b1, c1, f1⟩ := m4a_call_FTYP _ (12 + ftypRest.length) brand
    (ftypRest ++ (atoms.flatMap M4aAtom.bytes ++ (be32Bytes m ++ (lit "mdat" ++ rest))))
    _ _ f0 (by omega) hbrand hf1 hf2
  have r1 : HeaderRun read_M4A_Header (fun a => a.m_controlCounter)
      (m4aStream brand ftypRest atoms m rest) 1
      (read_M4A_Header_BEGIN { a with retvalue := 0 }).1 0 b1 0 0 :=
    HeaderRun.call0
      (by show (read_M4A_Header_BEGIN { a with retvalue := 0 }).1.m_controlCounter ≠ 100
          rw [f0.cc]; decide)
      (fun len _ _ => by rw [List.drop_zero, hstream]; exact c1 len)
  -- the skip of the atom ftyp
  have r2 := m4a_skip_run (m4aStream brand ftypRest atoms m rest) (12 + ftypRest.length) b1
    0 f1.ret (by omega) (by omega)
    (by rw [f1.cc]; decide) (by rw [f1.cc]; decide) (by rw [f1.ib]; exact hm)
  have f2 := m4aFacts_skip b1 _ _ _ _ f1
  -- the atoms before mdat
  have hd3 : (m4aStream brand ftypRest atoms m rest).drop (0 + (12 + ftypRest.length))
      = atoms.flatMap M4aAtom.bytes ++ (be32Bytes m ++ (lit "mdat" ++ rest)) :=
    drop_add_of_append (m4aStream brand ftypRest atoms m rest)
      (be32Bytes (12 + ftypRest.length) ++ (lit "ftyp" ++ (brand ++ ftypRest)))
      (atoms.flatMap M4aAtom.bytes ++ (be32Bytes m ++ (lit "mdat" ++ rest))) 0
      (12 + ftypRest.length)
      (by rw [List.drop_zero, hstream]; simp only [List.append_assoc])
      (by simp only [List.length_append, hbl, lit_ftyp, be32Bytes_eq, List.length_cons,
            List.length_nil]; omega)
  obtain ⟨b3, f3, r3, d3⟩ := m4a_atoms_run (m4aStream brand ftypRest atoms m rest) a.InBuff hm
    atoms _ _ (12 + ftypRest.length) _ hd3 f2 hat (by omega)
  -- the atom mdat
  obtain ⟨b4, c4, f4⟩ := m4a_call_CHK_mdat b3 m rest _ _ f3 hm32 hm1
  have r4 : HeaderRun read_M4A_Header (fun a => a.m_controlCounter)
      (m4aStream brand ftypRest atoms m rest) 1 b3
      (0 + (12 + ftypRest.length) + m4aAtomsSize atoms) b4
      (0 + (12 + ftypRest.length) + m4aAtomsSize atoms) 0 :=
    HeaderRun.call0 (by show b3.m_controlCounter ≠ 100; rw [f3.cc]; decide)
      (fun len _ _ => by rw [d3]; exact c4 len)
  obtain ⟨b5, c5, f5, g5⟩ := m4a_call_MDAT b4 m (lit "mdat" ++ rest) _ _ f4 hm32
  have r5 : HeaderRun read_M4A_Header (fun a => a.m_controlCounter)
      (m4aStream brand ftypRest atoms m rest) 1 b4
      (0 + (12 + ftypRest.length) + m4aAtomsSize atoms) b5
      (0 + (12 + ftypRest.length) + m4aAtomsSize atoms) 0 :=
    HeaderRun.call0 (by show b4.m_controlCounter ≠ 100; rw [f4.cc]; decide)
      (fun len _ _ => by rw [d3]; exact c5 len)
  have e5 : toSizeT (((12 + ftypRest.length + m4aAtomsSize atoms : Nat) : Int) + 8)
      = ((12 + ftypRest.length + m4aAtomsSize atoms + 8 : Nat) : Int) := by
    rw [toSizeT_of_range _ (by omega) (by omega)]; omega
  rw [e5] at f5
  have r6 := m4a_skip_run (m4aStream brand ftypRest atoms m rest) 8 b5
    (0 + (12 + ftypRest.length) + m4aAtomsSize atoms) f5.ret
    (by omega) (by decide) (by rw [f5.cc]; decide) (by rw [f5.cc]; decide)
    (by rw [f5.ib]; exact hm)
  have f6 := m4aFacts_skip b5 _ _ _ _ f5
  obtain ⟨b7, c7, g1, g2, g3⟩ := m4a_call_AMRDY { b5 with retvalue := 0, cnt := 0 }
    ((m4aStream brand ftypRest atoms m rest).drop
      (0 + (12 + ftypRest.length) + m4aAtomsSize atoms + 8)) _ _ f6
  have r7 : HeaderRun read_M4A_Header (fun a => a.m_controlCounter)
      (m4aStream brand ftypRest atoms m rest) 1 { b5 with retvalue := 0, cnt := 0 }
      (0 + (12 + ftypRest.length) + m4aAtomsSize atoms + 8) b7
      (0 + (12 + ftypRest.length) + m4aAtomsSize atoms + 8) 0 :=
    HeaderRun.call0 (by show b5.m_controlCounter ≠ 100; rw [f5.cc]; decide)
      (fun len _ _ => c7 len)
  refine ⟨b7, g1, g2, by rw [g3]; exact g5, ?_⟩
  have r := ((((((r0.trans r1).trans r2).trans r3).trans r4).trans r5).trans r6).trans r7
  have hp : 0 + (12 + ftypRest.length) + m4aAtomsSize atoms + 8
      = 12 + ftypRest.length + m4aAtomsSize atoms + 8 := by omega
  have ht : (0 : Int) + 0 + ((12 + ftypRest.length : Nat) : Int)
      + ((m4aAtomsSize atoms : Nat) : Int) + 0 + 0 + ((8 : Nat) : Int) + 0
      = ((12 + ftypRest.length + m4aAtomsSize atoms + 8 : Nat) : Int) := by
    push_cast; ring
  rw [hp, ht] at r
  exact r.mono (by omega)

end

/-! ## Auxiliary lemmas on the calls made while a skip is pending -/

theorem flac_pendingSkipCalls_done (data : List Nat) (wins : List Int) (a : AudioFLAC)
    (h : a.retvalue = 0) : AudioFLAC.pendingSkipCalls data wins a = some (a, []) := by
  cases wins with
  | nil => rfl
  | cons w ws => simp [AudioFLAC.pendingSkipCalls, h]

theorem m4a_pendingSkipCalls_done (data : List Nat) (wins : List Int) (a : AudioM4A)
    (h : a.retvalue = 0) : AudioM4A.pendingSkipCalls data wins a = (a, []) := by
  cases wins with
  | nil => rfl
  | cons w ws => simp [AudioM4A.pendingSkipCalls, h]

theorem flac_pendingSkipCalls_spec (data : List Nat) :
    ∀ (R : Nat) (a : AudioFLAC) (wins : List Int),
      a.retvalue = (R : Int) → 0 < R → (R : Int) < 4294967296 →
      1 ≤ a.InBuff.getMaxBlockSize → (∀ w ∈ wins, 1 ≤ w ∧ w < 2147483648) →
      R ≤ wins.length →
      ∃ q, AudioFLAC.pendingSkipCalls data wins a = some q ∧
        q.1 = { a with retvalue := 0 } ∧ q.2.sum = (R : Int) ∧ q.2.length ≤ R ∧
        List.Forall₂ (fun r w => 1 ≤ r ∧ r ≤ w) q.2 (wins.take q.2.length) := by
  intro R
  induction R using Nat.strong_induction_on with
  | _ R ih =>
    intro a wins hR h0 h1 hm hw hlen
    cases wins with
    | nil => simp at hlen; omega
    | cons w ws =>
      obtain ⟨hw1, hw2⟩ := hw w (List.mem_cons_self _ _)
      obtain ⟨r, hr1, hr2, hr3, hcall⟩ :=
        flac_skip_call a data w R hR (by omega) h1 hw1 hw2 hm
      have hne : a.retvalue ≠ 0 := by rw [hR]; omega
      have hstep : AudioFLAC.pendingSkipCalls data (w :: ws) a
          = (AudioFLAC.pendingSkipCalls data ws { a with retvalue := (R : Int) - r }).map
              (fun q => (q.1, r :: q.2)) := by
        simp [AudioFLAC.pendingSkipCalls, hne, hcall]
      rw [hstep]
      by_cases hlast : r = (R : Int)
      · have hd := flac_pendingSkipCalls_done data ws { a with retvalue := (R : Int) - r }
          (by show (R : Int) - r = 0; omega)
        rw [hd]
        refine ⟨_, rfl, by show _ = _; rw [hlast, sub_self], by simp [hlast],
          by simp; omega, ?_⟩
        simp only [List.length_cons, List.length_nil, List.take_succ_cons, List.take_zero]
        exact List.Forall₂.cons ⟨hr1, hr2⟩ List.Forall₂.nil
      · have hws : ∀ x ∈ ws, 1 ≤ x ∧ x < 2147483648 :=
          fun x hx => hw x (List.mem_cons_of_mem _ hx)
        have hlen2 : (R - r.toNat) ≤ ws.length := by
          simp only [List.length_cons] at hlen
          omega
        have hR2 : ({ a with retvalue := (R : Int) - r } : AudioFLAC).retvalue
            = ((R - r.toNat : Nat) : Int) := by
          show (R : Int) - r = _
          omega
        obtain ⟨q, hq, i1, i2, i3, i4⟩ := ih (R - r.toNat) (by omega)
          { a with retvalue := (R : Int) - r } ws hR2 (by omega) (by omega) hm hws hlen2
        rw [hq]
        refine ⟨_, rfl, i1, ?_, ?_, ?_⟩
        · show (r :: q.2).sum = _
          rw [List.sum_cons, i2]; omega
        · show (r :: q.2).length ≤ _
          simp only [List.length_cons]; omega
        · show List.Forall₂ _ (r :: q.2) (List.take (r :: q.2).length (w :: ws))
          simp only [List.length_cons, List.take_succ_cons]
          exact List.Forall₂.cons ⟨hr1, hr2⟩ i4

theorem m4a_pendingSkipCalls_spec (data : List Nat) :
    ∀ (R : Nat) (a : AudioM4A) (wins : List Int),
      a.retvalue = (R : Int) → 0 < R → (R : Int) < 4294967296 →
      a.m_controlCounter ≠ M4A_BEGIN →
      1 ≤ a.InBuff.getMaxBlockSize → (∀ w ∈ wins, 1 ≤ w ∧ w < 2147483648) →
      R ≤ wins.length →
      (AudioM4A.pendingSkipCalls data wins a).1 = { a with retvalue := 0, cnt := 0 } ∧
      (AudioM4A.pendingSkipCalls data wins a).2.sum = (R : Int) ∧
      (AudioM4A.pendingSkipCalls data wins a).2.length ≤ R ∧
      List.Forall₂ (fun r w => 1 ≤ r ∧ r ≤ w) (AudioM4A.pendingSkipCalls data wins a).2
        (wins.take (AudioM4A.pendingSkipCalls data wins a).2.length) := by
  intro R
  induction R using Nat.strong_induction_on with
  | _ R ih =>
    intro a wins hR h0 h1 hb hm hw hlen
    cases wins with
    | nil => simp at hlen; omega
    | cons w ws =>
      obtain ⟨hw1, hw2⟩ := hw w (List.mem_cons_self _ _)
      obtain ⟨r, c, hr1, hr2, hr3, hc0, hcall⟩ :=
        m4a_skip_call a data w R hb hR (by omega) h1 hw1 hw2 hm
      have hne : a.retvalue ≠ 0 := by rw [hR]; omega
      have hstep : AudioM4A.pendingSkipCalls data (w :: ws) a
          = ((AudioM4A.pendingSkipCalls data ws { a with retvalue := (R : Int) - r, cnt := c }).1,
              r :: (AudioM4A.pendingSkipCalls data ws
                { a with retvalue := (R : Int) - r, cnt := c }).2) := by
        simp [AudioM4A.pendingSkipCalls, hne, hcall]
      rw [hstep]
      by_cases hlast : r = (R : Int)
      · have hd := m4a_pendingSkipCalls_done data ws
          { a with retvalue := (R : Int) - r, cnt := c } (by show (R : Int) - r = 0; omega)
        rw [hd]
        refine ⟨by rw [hc0 hlast, hlast, sub_self], by simp [hlast], by simp; omega, ?_⟩
        simp only [List.length_cons, List.length_nil, List.take_succ_cons, List.take_zero]
        exact List.Forall₂.cons ⟨hr1, hr2⟩ List.Forall₂.nil
      · have hws : ∀ x ∈ ws, 1 ≤ x ∧ x < 2147483648 :=
          fun x hx => hw x (List.mem_cons_of_mem _ hx)
        have hlen2 : (R - r.toNat) ≤ ws.length := by
          simp only [List.length_cons] at hlen
          omega
        have hR2 : ({ a with retvalue := (R : Int) - r, cnt := c } : AudioM4A).retvalue
            = ((R - r.toNat : Nat) : Int) := by
          show (R : Int) - r = _
          omega
        obtain ⟨i1, i2, i3, i4⟩ := ih (R - r.toNat) (by omega)
          { a with retvalue := (R : Int) - r, cnt := c } ws hR2 (by omega) (by omega) hb hm
          hws hlen2
        refine ⟨i1, ?_, ?_, ?_⟩
        · rw [List.sum_cons, i2]; omega
        · simp only [List.length_cons]; omega
        · simp only [List.length_cons, List.take_succ_cons]
          exact List.Forall₂.cons ⟨hr1, hr2⟩ i4

section

open AudioBuffer

/-! ## The mirror copy of `getReadPtr` -/


theorem toSizeT_nonneg (x : Int) : 0 ≤ toSizeT x := by
  unfold toSizeT; omega

end

/-! ## Claims on the ring buffer -/

namespace AudioBuffer

/-- Claim C1, the code at the failing input. A buffer whose `init()` and
`getBufsize()` report the capacity 4 accepts a write of one byte after the
reset (`writeSpace()` is 5), and after `bytesWritten(1)` the sum
`bufferFilled() + freeSpace()` is 1 + 4 = 5, not the capacity 4. -/
theorem C1_filled_plus_free_after_write (m0 : Memory) :
    (init (fresh 6 2 m0) false false true).2 = 4 ∧
    getBufsize (ring4 m0) = 4 ∧
    writeSpace (ring4 m0) = 5 ∧
    bufferFilled (bytesWritten (ring4 m0) 1) = 1 ∧
    freeSpace (bytesWritten (ring4 m0) 1) = 4 ∧
    bufferFilled (bytesWritten (ring4 m0) 1) + freeSpace (bytesWritten (ring4 m0) 1)
      ≠ getBufsize (ring4 m0) :=
  ⟨rfl, rfl, rfl, rfl, rfl, fun h => absurd (show (5 : Int) = 4 from h) (by decide)⟩

/-- Claim C2, the code at the failing input. On the freshly reset buffer of
capacity 4 the bytes 1, 2, 3, 4, 5 are written in one chunk (`writeSpace()`
is 5) and read back in chunks of 2, 2 and 1 (each at most `bufferFilled()`
and at most the maximal block size 2): the second read leaves the read cursor
one byte before the buffer, and the third read yields the byte found there
instead of the byte 5. -/
theorem C2_read_back_differs (m0 : Memory) :
    writeSpace (ring4 m0) = 5 ∧
    (ring4 m0).m_maxBlockSize = 2 ∧
    bufferFilled (produce (ring4 m0) [1, 2, 3, 4, 5]) = 5 ∧
    bufferFilled (consume (produce (ring4 m0) [1, 2, 3, 4, 5]) 2).1 = 3 ∧
    bufferFilled (consume (consume (produce (ring4 m0) [1, 2, 3, 4, 5]) 2).1 2).1 = 1 ∧
    (consume (consume (produce (ring4 m0) [1, 2, 3, 4, 5]) 2).1 2).1.m_readPtr = -1 ∧
    (consume (produce (ring4 m0) [1, 2, 3, 4, 5]) 2).2
      ++ (consume (consume (produce (ring4 m0) [1, 2, 3, 4, 5]) 2).1 2).2
      ++ (consume (consume (consume (produce (ring4 m0) [1, 2, 3, 4, 5]) 2).1 2).1 1).2
      = [1, 2, 3, 4, m0 (-1)] :=
  ⟨rfl, rfl, rfl, rfl, rfl, rfl, rfl⟩

/-- Claim C3, the code at the failing input. After the writes 1, 2, 3, 4, 5,
two reads of 2 bytes and the write 6, 7 the buffer holds the 3 bytes 5, 6, 7,
which is at least the maximal block size 2; `getReadPtr()` returns the address
one byte before the buffer, and the 2 bytes from there are the stale byte
found before the buffer and 6, not 5 and 6. -/
theorem C3_stale_byte_at_read_pointer (m0 : Memory) :
    bufferFilled (produce (consume (consume (produce (ring4 m0)
      [1, 2, 3, 4, 5]) 2).1 2).1 [6, 7]) = 3 ∧
    (produce (consume (consume (produce (ring4 m0)
      [1, 2, 3, 4, 5]) 2).1 2).1 [6, 7]).m_maxBlockSize = 2 ∧
    (getReadPtr (produce (consume (consume (produce (ring4 m0)
      [1, 2, 3, 4, 5]) 2).1 2).1 [6, 7])).2 = -1 ∧
    loadBytes (getReadPtr (produce (consume (consume (produce (ring4 m0)
      [1, 2, 3, 4, 5]) 2).1 2).1 [6, 7])).1.mem
      (getReadPtr (produce (consume (consume (produce (ring4 m0)
      [1, 2, 3, 4, 5]) 2).1 2).1 [6, 7])).2 2 = [m0 (-1), 6] :=
  ⟨rfl, rfl, rfl, rfl⟩

/-- Claim C4, the code at the failing input. With equal cursors and the start
flag set, `writeSpace()` returns 5 on the buffer whose capacity (`init()`,
`getBufsize()`, and `freeSpace()` in the same state) is 4. -/
theorem C4_writeSpace_of_empty_buffer (m0 : Memory) :
    (ring4 m0).m_readPtr = (ring4 m0).m_writePtr ∧
    (ring4 m0).m_f_start = true ∧
    (init (fresh 6 2 m0) false false true).2 = 4 ∧
    getBufsize (ring4 m0) = 4 ∧
    freeSpace (ring4 m0) = 4 ∧
    writeSpace (ring4 m0) = 5 :=
  ⟨rfl, rfl, rfl, rfl, rfl, rfl⟩

/-- Claim C5, the code at the failing input. In the state reached by writing
5 bytes and reading 2, the read position is 2 and 3 bytes are buffered; after
`bytesWasRead(2)` the read position is `m_buffer - 1`, below the start of the
buffer, where the ring of the 5 positions 0 .. 4 asks for position 4. The
write cursor, which `bytesWritten` wraps past `m_endPtr`, did reach 4 + 1. -/
theorem C5_read_cursor_leaves_buffer (m0 : Memory) :
    (consume (produce (ring4 m0) [1, 2, 3, 4, 5]) 2).1.m_readPtr = 2 ∧
    (consume (produce (ring4 m0) [1, 2, 3, 4, 5]) 2).1.m_endPtr = 4 ∧
    bufferFilled (consume (produce (ring4 m0) [1, 2, 3, 4, 5]) 2).1 = 3 ∧
    (bytesWasRead (consume (produce (ring4 m0) [1, 2, 3, 4, 5]) 2).1 2).m_readPtr = -1 ∧
    (produce (ring4 m0) [1, 2, 3, 4, 5]).m_writePtr = 0 ∧
    (produce (ring4 m0) [1, 2, 3, 4]).m_writePtr = 4 :=
  ⟨rfl, rfl, rfl, rfl, rfl, rfl⟩

/-- Claim C6, the code at the failing input. After the writes 1, 2, 3, 4, 5,
a read of 2 bytes and the write 6, 7 both cursors stand at position 2 of the
positions 0 .. 4 and the buffer is full: 3 buffered bytes lie between the read
cursor and the physical end, yet `getMaxAvailableBytes()` returns 5. -/
theorem C6_available_bytes_past_the_end (m0 : Memory) :
    writeSpace (consume (produce (ring4 m0) [1, 2, 3, 4, 5]) 2).1 = 2 ∧
    (produce (consume (produce (ring4 m0) [1, 2, 3, 4, 5]) 2).1 [6, 7]).m_readPtr = 2 ∧
    (produce (consume (produce (ring4 m0) [1, 2, 3, 4, 5]) 2).1 [6, 7]).m_writePtr = 2 ∧
    (produce (consume (produce (ring4 m0) [1, 2, 3, 4, 5]) 2).1 [6, 7]).m_endPtr = 4 ∧
    bufferFilled (produce (consume (produce (ring4 m0) [1, 2, 3, 4, 5]) 2).1 [6, 7]) = 5 ∧
    getMaxAvailableBytes (produce (consume (produce (ring4 m0) [1, 2, 3, 4, 5]) 2).1 [6, 7])
      = 5 :=
  ⟨rfl, rfl, rfl, rfl, rfl, rfl⟩

end AudioBuffer

section

open Audio

/-! ## Claims on the ID3 parser: tags -/

/-- Claim C7, the code at the failing input. The ID3v2.3 tag declares the
size S = 14: one TIT2 frame (10 bytes of frame header, text encoding 0 and the
text "A") followed by 2 bytes of zero padding; MP3 data (`FF FB 90 00`)
follows, so the tag ends at offset 10 + S = 24. The first eight calls of the
header loop return 10, 0, 0, 4, 6, 2, 0 and 4: the eighth call reads the two
padding bytes and the first two bytes of the audio data as a frame identifier.
The values returned sum to 26, which exceeds 24, and the parser is in phase 4,
not in its terminal phase. -/
theorem C7_short_padding_read_as_frame :
    bigEndian [0, 0, 0, 14] 4 7 = 14 ∧
    (readHeaderLoop ⟨true, 0⟩
      (tit2Tag 3 0 0 0 14 0 0 0 2 [65] ++ [0, 0, 0xFF, 0xFB, 0x90, 0x00])
      [1600, 1600, 1600, 1600, 1600, 1600, 1600, 1600] (localMP3 28 4096) 0).map (fun q => q.2)
      = some (26, [10, 0, 0, 4, 6, 2, 0, 4]) ∧
    (readHeaderLoop ⟨true, 0⟩
      (tit2Tag 3 0 0 0 14 0 0 0 2 [65] ++ [0, 0, 0xFF, 0xFB, 0x90, 0x00])
      [1600, 1600, 1600, 1600, 1600, 1600, 1600, 1600] (localMP3 28 4096) 0).map
        (fun q => q.1.m_controlCounter)
      = some 4 := by
  obtain ⟨c0, c1, c2, c3, c4, c5, c6, c7⟩ := localMP3_facts 28 4096
  obtain ⟨a7, f7, -, -, hloop⟩ := tit2_frame_parse ⟨true, 0⟩ (localMP3 28 4096) 0 0 0 14 0 0 0 2
    [65] [0, 0, 0xFF, 0xFB, 0x90, 0x00] 1600 1600 1600 1600 1600 1600 1600
    (Event.audio_id3data (lit "Title: " ++ [65])) 14 c0 c1 c2 c3 c4 c5 c6 c7 (by decide)
    (by decide) (by decide) (by decide) (by decide) (by decide) (by decide)
    (fun a len rem ev hf hi hc h1 h2 => step6_TIT2 ⟨true, 0⟩ a [65] _ len _ _ _ rem ev _ hf
      (by decide) (by decide) (by rw [hi]; decide)
      (fun a' ha' => showID3Tag_TIT2 ⟨true, 0⟩ a' [] [65] (by decide) (by decide)
        (by rw [ha', hc]; decide)) h1 h2)
  have dend := (tit2Tag_drop 3 0 0 0 14 0 0 0 2 [65] [0, 0, 0xFF, 0xFB, 0x90, 0x00]).2.2.2.2
  rw [hloop]
  generalize tit2Tag 3 0 0 0 14 0 0 0 2 [65] ++ [0, 0, 0xFF, 0xFB, 0x90, 0x00] = stream at dend ⊢
  obtain ⟨a8, r8, f8⟩ := step3_frame_u ⟨true, 0⟩ a7 0 0 0xFF 0xFB [0x90, 0x00] 1600 _ _ _ _ _ _ _ f7
    (by decide) (by decide)
  rw [loop_next ⟨true, 0⟩ stream 1600 _ a7 a8 (21 + [65].length) _ 4 26 (by rw [f7.cc]; decide)
    dend r8 rfl]
  have hnil : readHeaderLoop ⟨true, 0⟩ stream [] a8 26 = some (a8, 26, []) := rfl
  rw [hnil]
  exact ⟨by decide, rfl, congrArg some f8.cc⟩

/-- Claim C8, counterexample. The ID3v2.3 tag holds the single TIT2 frame
with the Latin-1 text "?xml", which is made of printable ASCII characters, and
is followed by MP3 data. The full parse ends in the terminal phase and makes
one hook call, but that call is `showstreamtitle` with "Title: ?xml", not the
ID3 notification. -/
theorem C8_title_taken_for_stream_title :
    (readHeaderLoop ⟨true, 0⟩
      (tit2Tag 3 0 0 0 15 0 0 0 5 [63, 120, 109, 108] ++ [0xFF, 0xFB, 0x90, 0x00])
      [1600, 1600, 1600, 1600, 1600, 1600, 1600, 1600, 1600]
      (localMP3 29 4096) 0).map (fun q => (q.1.m_controlCounter, q.1.events))
      = some (100,
          [Event.showstreamtitle [84, 105, 116, 108, 101, 58, 32, 63, 120, 109, 108]]) ∧
    lit "Title: ?xml" = [84, 105, 116, 108, 101, 58, 32, 63, 120, 109, 108] ∧
    lit "?xml" = [63, 120, 109, 108] := by
  obtain ⟨c0, c1, c2, c3, c4, c5, c6, c7⟩ := localMP3_facts 29 4096
  obtain ⟨a', hl, hcc, hev, -⟩ := tit2_parse ⟨true, 0⟩ (localMP3 29 4096) 0 0 0 15 0 0 0 5
    [63, 120, 109, 108] [0xFF, 0xFB, 0x90, 0x00]
    [1600, 1600, 1600, 1600, 1600, 1600, 1600, 1600, 1600]
    (Event.showstreamtitle [84, 105, 116, 108, 101, 58, 32, 63, 120, 109, 108])
    c0 c1 c2 c3 c4 c5 c6 c7 (by decide) (by decide) (by decide)
    (fun a' ha' => showID3Tag_xml ⟨true, 0⟩ a' (by rw [ha']; decide))
    (by decide) (by decide) (by decide) (by decide) (by decide)
  rw [hl]
  refine ⟨?_, by decide, by decide⟩
  show some (a'.m_controlCounter, a'.events) = _
  rw [hcc, hev]

/-- Claim C8, amended. An ID3v2.3 tag without flags holds the single TIT2
frame with text encoding 0 and a text `t` of at most 1023 printable ASCII
characters that does not contain "?xml"; the tag declares the size
`11 + |t|`, the frame the size `1 + |t|`, and the bytes that follow do not
start with "ID3". The text with its prefix and terminator fits the buffers:
`|t| + 8` is at most the size `buffSize` of `m_ibuff` and of `m_chbuf`. Then
the header loop over at least 9 windows of non-negative length runs without
storing a byte behind a buffer and ends with `m_controlCounter == 100` after
the calls that return 10, 0, 0, 4, 6, `1 + |t|`, 0, 0, 0; it makes exactly
one hook call, `audio_id3data` with "Title: " followed by `t`, and
`m_audioDataStart` is `10 + (11 + |t|)`. -/
theorem C8_single_title_frame (env : Env) (fileSize buffSize : Int)
    (s0 s1 s2 s3 z0 z1 z2 z3 : Nat) (t rest : List Nat) (wins : List Int)
    (ht : ∀ c ∈ t, 0x20 ≤ c ∧ c ≤ 0x7E) (hlen : t.length ≤ 1023)
    (hfit : (t.length : Int) + 8 ≤ buffSize)
    (hx : ¬ lit "?xml" <:+: t)
    (hS : bigEndian [s0, s1, s2, s3] 4 7 = 11 + t.length)
    (hz : bigEndian [z0, z1, z2, z3] 4 8 = 1 + t.length)
    (hrest : ¬ (byteAt rest 0 = 73 ∧ byteAt rest 1 = 68 ∧ byteAt rest 2 = 51))
    (hw : 9 ≤ wins.length) (hwn : ∀ w ∈ wins, 0 ≤ w) :
    ∃ b : Audio,
      readHeaderLoop env (tit2Tag 3 s0 s1 s2 s3 z0 z1 z2 z3 t ++ rest) wins
        (localMP3 fileSize buffSize) 0
        = some (b, 21 + t.length, [10, 0, 0, 4, 6, 1 + (t.length : Int), 0, 0, 0]) ∧
      b.m_controlCounter = 100 ∧
      b.events = [Event.audio_id3data (lit "Title: " ++ t)] ∧
      b.m_audioDataStart = 10 + (11 + t.length) := by
  obtain ⟨c0, c1, c2, c3, c4, c5, c6, c7⟩ := localMP3_facts fileSize buffSize
  obtain ⟨i0, b0⟩ := localMP3_sizes fileSize buffSize
  have hasc : ∀ c ∈ t, c ≠ 0 ∧ c < 0x80 := by
    intro c hc
    have := ht c hc
    omega
  exact tit2_parse env (localMP3 fileSize buffSize)
    s0 s1 s2 s3 z0 z1 z2 z3 t rest wins (Event.audio_id3data (lit "Title: " ++ t))
    c0 c1 c2 c3 c4 c5 c6 c7 ht hlen (by rw [i0]; omega)
    (fun a' ha' => showID3Tag_TIT2 env a' [] t hasc hx (by rw [ha', b0]; exact hfit))
    hS hz hrest hw hwn

/-- Claim C8, amended, at the text "Test Song" and with the buffers of 576
bytes of a board without PSRAM: the tag of 30 bytes is parsed by nine calls
that return 10, 0, 0, 4, 6, 10, 0, 0 and 0, the one hook call is
`audio_id3data` with "Title: Test Song", and `m_audioDataStart` is 30. -/
theorem C8_single_title_frame_witness :
    (readHeaderLoop ⟨true, 0⟩
      (tit2Tag 3 0 0 0 20 0 0 0 10 (lit "Test Song") ++ [0xFF, 0xFB, 0x90, 0x00])
      (List.replicate 9 1600) (localMP3 34 576) 0).map
        (fun q => (q.1.m_controlCounter, q.1.events, q.1.m_audioDataStart, q.2))
      = some (100, [Event.audio_id3data (lit "Title: Test Song")], 30, 30,
          [10, 0, 0, 4, 6, 10, 0, 0, 0]) := by
  obtain ⟨b, h1, h2, h3, h4⟩ := C8_single_title_frame ⟨true, 0⟩ 34 576 0 0 0 20 0 0 0 10
    (lit "Test Song") [0xFF, 0xFB, 0x90, 0x00] (List.replicate 9 1600)
    (by decide) (by decide) (by decide) (by decide) (by decide) (by decide) (by decide)
    (by decide) (by decide)
  rw [h1]
  show some (b.m_controlCounter, b.events, b.m_audioDataStart, _) = _
  rw [h2, h3, h4]
  rfl

/-- Claim C10, the code at the failing input. Two ID3v2.3 tags are
concatenated and followed by MP3 data: the first has the total size 24 (one
TIT2 frame and 2 bytes of zero padding), the second the total size 22, so the
stream has 50 bytes and the audio data starts at 46. The first ten calls of
the header loop return 10, 0, 0, 4, 6, 2, 0, 4, 6 and 1024: the eighth call
reads the two padding bytes and the "ID" of the second tag as a frame
identifier, the ninth reads a frame size out of the second tag header, and
the tenth consumes 1024 bytes. The input offset is then 1056, beyond the end
of the stream, and the parser is in phase 5: it did not re-enter the magic
phase at offset 24. -/
theorem C10_second_tag_read_as_frame :
    (tit2Tag 3 0 0 0 14 0 0 0 2 [65] ++
      ([0, 0] ++ tit2Tag 3 0 0 0 12 0 0 0 2 [66] ++ [0xFF, 0xFB, 0x90, 0x00])).length = 50 ∧
    (readHeaderLoop ⟨true, 0⟩
      (tit2Tag 3 0 0 0 14 0 0 0 2 [65] ++
        ([0, 0] ++ tit2Tag 3 0 0 0 12 0 0 0 2 [66] ++ [0xFF, 0xFB, 0x90, 0x00]))
      [1600, 1600, 1600, 1600, 1600, 1600, 1600, 1600, 1600, 1600] (localMP3 50 4096) 0).map
        (fun q => q.2)
      = some (1056, [10, 0, 0, 4, 6, 2, 0, 4, 6, 1024]) ∧
    (readHeaderLoop ⟨true, 0⟩
      (tit2Tag 3 0 0 0 14 0 0 0 2 [65] ++
        ([0, 0] ++ tit2Tag 3 0 0 0 12 0 0 0 2 [66] ++ [0xFF, 0xFB, 0x90, 0x00]))
      [1600, 1600, 1600, 1600, 1600, 1600, 1600, 1600, 1600, 1600]
      (localMP3 50 4096) 0).map (fun q => q.1.m_controlCounter) = some 5 := by
  obtain ⟨c0, c1, c2, c3, c4, c5, c6, c7⟩ := localMP3_facts 50 4096
  obtain ⟨i0, b0⟩ := localMP3_sizes 50 4096
  obtain ⟨a7, f7, i7, b7, hloop⟩ := tit2_frame_parse ⟨true, 0⟩ (localMP3 50 4096) 0 0 0 14 0 0 0 2
    [65] ([0, 0] ++ tit2Tag 3 0 0 0 12 0 0 0 2 [66] ++ [0xFF, 0xFB, 0x90, 0x00])
    1600 1600 1600 1600 1600 1600 1600
    (Event.audio_id3data (lit "Title: " ++ [65])) 14 c0 c1 c2 c3 c4 c5 c6 c7 (by decide)
    (by decide) (by decide) (by decide) (by decide) (by decide) (by decide)
    (fun a len rem ev hf hi hc h1 h2 => step6_TIT2 ⟨true, 0⟩ a [65] _ len _ _ _ rem ev _ hf
      (by decide) (by decide) (by rw [hi]; decide)
      (fun a' ha' => showID3Tag_TIT2 ⟨true, 0⟩ a' [] [65] (by decide) (by decide)
        (by rw [ha', hc]; decide)) h1 h2)
  have d22 : (tit2Tag 3 0 0 0 14 0 0 0 2 [65] ++
      ([0, 0] ++ tit2Tag 3 0 0 0 12 0 0 0 2 [66] ++ [0xFF, 0xFB, 0x90, 0x00])).drop 22 =
      0 :: 0 :: 73 :: 68 :: [51, 3, 0, 0, 0, 0, 0, 12, 84, 73, 84, 50, 0, 0, 0, 2, 0, 0, 0, 66,
        0xFF, 0xFB, 0x90, 0x00] := by decide
  have d26 : (tit2Tag 3 0 0 0 14 0 0 0 2 [65] ++
      ([0, 0] ++ tit2Tag 3 0 0 0 12 0 0 0 2 [66] ++ [0xFF, 0xFB, 0x90, 0x00])).drop 26 =
      [51, 3, 0, 0, 0, 0, 0, 12, 84, 73, 84, 50, 0, 0, 0, 2, 0, 0, 0, 66,
        0xFF, 0xFB, 0x90, 0x00] := by decide
  have d32 : (tit2Tag 3 0 0 0 14 0 0 0 2 [65] ++
      ([0, 0] ++ tit2Tag 3 0 0 0 12 0 0 0 2 [66] ++ [0xFF, 0xFB, 0x90, 0x00])).drop 32 =
      [0, 12, 84, 73, 84, 50, 0, 0, 0, 2, 0, 0, 0, 66, 0xFF, 0xFB, 0x90, 0x00] := by decide
  refine ⟨by decide, ?_⟩
  rw [hloop]
  generalize tit2Tag 3 0 0 0 14 0 0 0 2 [65] ++
    ([0, 0] ++ tit2Tag 3 0 0 0 12 0 0 0 2 [66] ++ [0xFF, 0xFB, 0x90, 0x00]) = stream
    at d22 d26 d32 ⊢
  obtain ⟨a8, r8, f8⟩ := step3_frame_u ⟨true, 0⟩ a7 0 0 73 68
    [51, 3, 0, 0, 0, 0, 0, 12, 84, 73, 84, 50, 0, 0, 0, 2, 0, 0, 0, 66, 0xFF, 0xFB, 0x90, 0x00]
    1600 _ _ _ _ _ _ _ f7 (by decide) (by decide)
  obtain ⟨i8, b8⟩ := readAudioHeader_sizes _ a7 a8 _ _ _ r8
  rw [loop_next ⟨true, 0⟩ stream 1600 _ a7 a8 (21 + [65].length) _ 4 26 (by rw [f7.cc]; decide)
    d22 r8 rfl]
  obtain ⟨a9, r9, f9⟩ := step4 ⟨true, 0⟩ a8
    [51, 3, 0, 0, 0, 0, 0, 12, 84, 73, 84, 50, 0, 0, 0, 2, 0, 0, 0, 66, 0xFF, 0xFB, 0x90, 0x00]
    1600 _ _ _ _ _ 855834624 _ _ f8 (by decide) (by decide) (by decide) (by decide)
  obtain ⟨i9, b9⟩ := readAudioHeader_sizes _ a8 a9 _ _ _ r9
  rw [loop_next ⟨true, 0⟩ stream 1600 _ a8 a9 26 _ 6 32 (by rw [f8.cc]; decide) d26 r9 rfl]
  obtain ⟨a10, r10, c10⟩ := step6_other_ret ⟨true, 0⟩ a9
    [0, 12, 84, 73, 84, 50, 0, 0, 0, 2, 0, 0, 0, 66, 0xFF, 0xFB, 0x90, 0x00]
    1600 _ _ _ _ _ [0, 73, 68, 0] _ f9 (by decide) (by decide)
    (by rw [i9, i8, i7, i0]; decide) (by rw [b9, b8, b7, b0]; decide)
  rw [loop_next ⟨true, 0⟩ stream 1600 _ a9 a10 32 _ 1024 1056 (by rw [f9.cc]; decide) d32 r10 rfl]
  have hnil : readHeaderLoop ⟨true, 0⟩ stream [] a10 1056 = some (a10, 1056, []) := rfl
  rw [hnil]
  exact ⟨rfl, congrArg some c10⟩

end

section

open Audio

/-! ## Claims on the ID3 parser: input without a tag -/

/-- Claim C9. When `read_ID3_Header` is in its initial phase and the first
three input bytes are not "ID3", it returns -1, sets `m_audioDataSize` to the
content length (the file size for a local file) and leaves `m_audioDataStart`
as it was; `readAudioHeader` on the same input sets `m_controlCounter` to 100
and returns 0 for a running player, without stopping it and without changing
`m_audioDataStart` or calling a hook. -/
theorem C9_no_magic_all_audio (env : Env) (a : Audio) (data : List Nat) (len : Int)
    (hcc : a.m_controlCounter = 0) (hcodec : a.m_codec = Codec.CODEC_MP3)
    (hmagic : ¬ (byteAt data 0 = 73 ∧ byteAt data 1 = 68 ∧ byteAt data 2 = 51)) :
    ∃ b c : Audio,
      read_ID3_Header env a data len = some (b, -1) ∧
      b.m_audioDataSize = b.m_contentlength ∧
      b.m_contentlength =
        (if a.getDatamode = Datamode.AUDIO_LOCALFILE then a.getFileSize else a.m_contentlength) ∧
      b.m_audioDataStart = a.m_audioDataStart ∧
      readAudioHeader env a data len = some (c, 0) ∧
      c.m_controlCounter = 100 ∧
      c.m_f_running = a.m_f_running ∧
      c.m_audioDataStart = a.m_audioDataStart ∧
      c.m_audioDataSize =
        (if a.getDatamode = Datamode.AUDIO_LOCALFILE then a.getFileSize else a.m_contentlength) ∧
      c.events = a.events := by
  have hsp : specialIndexOf data (lit "ID3") 4 ≠ 0 := by
    rw [lit_ID3, specialIndexOf_ID3, if_neg hmagic]; decide
  have h0 : read_ID3_Header env a data len = some (read_ID3_Header_0 a data) := by
    simp [read_ID3_Header, hcc]
  refine ⟨(read_ID3_Header_0 a data).1,
    { (read_ID3_Header_0 a data).1 with m_controlCounter := 100 }, ?_⟩
  by_cases hl : a.getDatamode = Datamode.AUDIO_LOCALFILE <;>
  by_cases hr : a.m_f_running = true <;>
  simp [readAudioHeader, h0, read_ID3_Header_0, hsp, hl, hcodec, isRunning, hr]

/-- Claim C9 at a concrete input: a local MP3 file of 1000 bytes that starts
with the frame sync `FF FB 90 00`. -/
theorem C9_no_magic_all_audio_witness :
    (read_ID3_Header ⟨true, 0⟩ (localMP3 1000 4096) [0xFF, 0xFB, 0x90, 0x00] 1600).map
      (fun p => (p.2, p.1.m_audioDataSize, p.1.m_audioDataStart)) = some (-1, 1000, 0) ∧
    (readAudioHeader ⟨true, 0⟩ (localMP3 1000 4096) [0xFF, 0xFB, 0x90, 0x00] 1600).map
      (fun p => (p.2, p.1.m_controlCounter, p.1.m_f_running)) = some (0, 100, true) := by
  obtain ⟨b, c, h1, h2, h3, h4, h5, h6, h7, -, -, -⟩ :=
    C9_no_magic_all_audio ⟨true, 0⟩ (localMP3 1000 4096) [0xFF, 0xFB, 0x90, 0x00] 1600
      rfl rfl (by decide)
  rw [h1, h5]
  refine ⟨?_, ?_⟩
  · show some (_, b.m_audioDataSize, b.m_audioDataStart) = _
    rw [h2, h3, h4]
    rfl
  · show some (_, c.m_controlCounter, c.m_f_running) = _
    rw [h6, h7]
    rfl

end

section

open Audio

/-! ## Claim on the window length of the ID3 parser -/

/-- Claim C11, counterexample. In the magic phase, on a window of 5 bytes
that starts with "ID3", `read_ID3_Header` returns 10, which is neither
negative nor at most 5. -/
theorem C11_magic_phase_ignores_len :
    (read_ID3_Header ⟨true, 0⟩ (localMP3 1000 4096) [73, 68, 51, 3, 0] 5).map Prod.snd
      = some 10 ∧
    ¬ ((10 : Int) < 0 ∨ (10 : Int) ≤ 5) := by
  decide

/-- Claim C11, amended. Let the window have `len >= 0` bytes, the `size_t`
statics hold non-negative values and `ehsz` fit an `int`. In every phase
other than 6 and 10 `read_ID3_Header` returns; in the phases 6 and 10 it
returns unless the text of the frame is stored behind `m_ibuff` or `m_chbuf`.
Whenever it returns, the value `r` is at most the larger of `len` and 1024.
In the phases that skip data (2, 5 and 98: extended header, rest of a frame,
padding) `r` is at most `len`. In the other phases `r` does not depend on
`len`: it is -1 or 10 in phase 0, 0 or 4 in the phases 1 and 3, 6 or 10 in
phase 4, 0 or the smaller of the frame size and 1024 in phase 6, between 0
and 256 in phase 10, and 0 in phase 99 and in every other phase. -/
theorem C11_return_bounded (env : Env) (a : Audio) (data : List Nat) (len : Int)
    (hlen : 0 ≤ len) (hf : 0 ≤ a.framesize) (hr : 0 ≤ a.remainingHeaderBytes)
    (he : a.ehsz < 2147483648) :
    (a.m_controlCounter ≠ 6 → a.m_controlCounter ≠ 10 →
      (read_ID3_Header env a data len).isSome = true) ∧
    ∀ (b : Audio) (r : Int), read_ID3_Header env a data len = some (b, r) →
      r ≤ max len 1024 ∧
      (a.m_controlCounter = 2 ∨ a.m_controlCounter = 5 ∨ a.m_controlCounter = 98 → r ≤ len) ∧
      (a.m_controlCounter = 0 → r = -1 ∨ r = 10) ∧
      (a.m_controlCounter = 1 ∨ a.m_controlCounter = 3 → r = 0 ∨ r = 4) ∧
      (a.m_controlCounter = 4 → r = 6 ∨ r = 10) ∧
      (a.m_controlCounter = 6 → r = 0 ∨ r = min a.framesize 1024) ∧
      (a.m_controlCounter = 10 → 0 ≤ r ∧ r ≤ 256) ∧
      (a.m_controlCounter ≠ 0 → a.m_controlCounter ≠ 1 → a.m_controlCounter ≠ 2 →
        a.m_controlCounter ≠ 3 → a.m_controlCounter ≠ 4 → a.m_controlCounter ≠ 5 →
        a.m_controlCounter ≠ 6 → a.m_controlCounter ≠ 10 → a.m_controlCounter ≠ 98 →
        r = 0) := by
  have hmax : len ≤ max len 1024 := le_max_left _ _
  have hmax2 : (1024 : Int) ≤ max len 1024 := le_max_right _ _
  have r0 := read_ID3_Header_0_ret a data
  have r1 := read_ID3_Header_1_ret a data
  have r2 := read_ID3_Header_2_ret a len hlen he
  have r3 := read_ID3_Header_3_ret a data
  have r4 := read_ID3_Header_4_ret a data
  have r5 := read_ID3_Header_5_ret a len hlen hf
  have r6 := fun p => read_ID3_Header_6_ret env a data p hf
  have r10 := fun p => read_ID3_Header_10_ret env a data p
  have r98 := read_ID3_Header_98_ret a len hlen hr
  have r99 := read_ID3_Header_99_ret a data
  have hmin : (if a.framesize > 1024 then (1024 : Int) else a.framesize) = min a.framesize 1024 := by
    split_ifs with c
    · rw [min_eq_right (le_of_lt c)]
    · rw [min_eq_left (by omega)]
  rw [hmin] at r6
  have hm6 : min a.framesize 1024 ≤ 1024 := min_le_right _ _
  generalize min a.framesize 1024 = m6 at r6 hm6
  generalize max len 1024 = M at hmax hmax2 ⊢
  unfold read_ID3_Header
  by_cases h0 : a.m_controlCounter = 0
  · rw [if_pos h0]
    refine ⟨fun _ _ => rfl, fun b r h => ?_⟩
    have h := Option.some.inj h
    rw [h] at r0
    simp only [h0] at *
    refine ⟨by omega, ?_, fun _ => r0, ?_, ?_, ?_, ?_, ?_⟩ <;> intros <;> omega
  rw [if_neg h0]
  by_cases h1 : a.m_controlCounter = 1
  · rw [if_pos h1]
    refine ⟨fun _ _ => rfl, fun b r h => ?_⟩
    have h := Option.some.inj h
    rw [h] at r1
    simp only [h1] at *
    refine ⟨by omega, ?_, ?_, fun _ => by omega, ?_, ?_, ?_, ?_⟩ <;> intros <;> omega
  rw [if_neg h1]
  by_cases h2 : a.m_controlCounter = 2
  · rw [if_pos h2]
    refine ⟨fun _ _ => rfl, fun b r h => ?_⟩
    have h := Option.some.inj h
    rw [h] at r2
    simp only [h2] at *
    refine ⟨by omega, fun _ => r2, ?_, ?_, ?_, ?_, ?_, ?_⟩ <;> intros <;> omega
  rw [if_neg h2]
  by_cases h3 : a.m_controlCounter = 3
  · rw [if_pos h3]
    refine ⟨fun _ _ => rfl, fun b r h => ?_⟩
    have h := Option.some.inj h
    rw [h] at r3
    simp only [h3] at *
    refine ⟨by omega, ?_, ?_, fun _ => r3, ?_, ?_, ?_, ?_⟩ <;> intros <;> omega
  rw [if_neg h3]
  by_cases h4 : a.m_controlCounter = 4
  · rw [if_pos h4]
    refine ⟨fun _ _ => rfl, fun b r h => ?_⟩
    have h := Option.some.inj h
    rw [h] at r4
    simp only [h4] at *
    refine ⟨by omega, ?_, ?_, ?_, fun _ => by omega, ?_, ?_, ?_⟩ <;> intros <;> omega
  rw [if_neg h4]
  by_cases h5 : a.m_controlCounter = 5
  · rw [if_pos h5]
    refine ⟨fun _ _ => rfl, fun b r h => ?_⟩
    have h := Option.some.inj h
    rw [h] at r5
    simp only [h5] at *
    refine ⟨by omega, fun _ => r5, ?_, ?_, ?_, ?_, ?_, ?_⟩ <;> intros <;> omega
  rw [if_neg h5]
  by_cases h6 : a.m_controlCounter = 6
  · rw [if_pos h6]
    refine ⟨fun h => absurd h6 h, fun b r h => ?_⟩
    have r6' := r6 (b, r) h
    simp only [h6] at *
    refine ⟨by omega, ?_, ?_, ?_, ?_, fun _ => r6', ?_, ?_⟩ <;> intros <;> omega
  rw [if_neg h6]
  by_cases h10 : a.m_controlCounter = 10
  · rw [if_pos h10]
    refine ⟨fun _ h => absurd h10 h, fun b r h => ?_⟩
    have r10' := r10 (b, r) h
    simp only [h10] at *
    refine ⟨by omega, ?_, ?_, ?_, ?_, ?_, fun _ => r10', ?_⟩ <;> intros <;> omega
  rw [if_neg h10]
  by_cases h98 : a.m_controlCounter = 98
  · rw [if_pos h98]
    refine ⟨fun _ _ => rfl, fun b r h => ?_⟩
    have h := Option.some.inj h
    rw [h] at r98
    simp only [h98] at *
    refine ⟨by omega, fun _ => r98, ?_, ?_, ?_, ?_, ?_, ?_⟩ <;> intros <;> omega
  rw [if_neg h98]
  by_cases h99 : a.m_controlCounter = 99
  · rw [if_pos h99]
    refine ⟨fun _ _ => rfl, fun b r h => ?_⟩
    have h := Option.some.inj h
    rw [h] at r99
    simp only [h99] at *
    refine ⟨by omega, ?_, ?_, ?_, ?_, ?_, ?_, fun _ _ _ _ _ _ _ _ _ => r99⟩ <;> intros <;> omega
  rw [if_neg h99]
  refine ⟨fun _ _ => rfl, fun b r h => ?_⟩
  have h := Option.some.inj h
  have hr0 : r = 0 := (congrArg Prod.snd h).symm
  refine ⟨by omega, ?_, ?_, ?_, ?_, ?_, ?_, fun _ _ _ _ _ _ _ _ _ => hr0⟩ <;> intros <;> omega

/-- Claim C11, amended, at concrete inputs: a window of 2000 bytes in the
magic phase, where the call returns -1 or 10, at most 2000, and a frame rest
of 3000 bytes skipped through a window of 1600 bytes, where it returns at
most 1600. -/
theorem C11_return_bounded_witness :
    (read_ID3_Header ⟨true, 0⟩ (localMP3 1000 4096) [73, 68, 51, 3, 0] 2000).map
      (fun p => decide (p.2 ≤ 2000 ∧ (p.2 = -1 ∨ p.2 = 10))) = some true ∧
    (read_ID3_Header ⟨true, 0⟩
      { localMP3 5000 4096 with m_controlCounter := 5, framesize := 3000,
                                remainingHeaderBytes := 3500 } [] 1600).map
      (fun p => decide (p.2 ≤ 1600)) = some true := by
  have h1 := C11_return_bounded ⟨true, 0⟩ (localMP3 1000 4096) [73, 68, 51, 3, 0] 2000
    (by decide) (by decide) (by decide) (by decide)
  have h2 := C11_return_bounded ⟨true, 0⟩
    { localMP3 5000 4096 with m_controlCounter := 5, framesize := 3000,
                              remainingHeaderBytes := 3500 } [] 1600
    (by decide) (by decide) (by decide) (by decide)
  obtain ⟨p, hp⟩ := Option.isSome_iff_exists.mp (h1.1 (by decide) (by decide))
  obtain ⟨q, hq⟩ := Option.isSome_iff_exists.mp (h2.1 (by decide) (by decide))
  obtain ⟨g1, -, g3, -⟩ := h1.2 p.1 p.2 hp
  have g4 := (h2.2 q.1 q.2 hq).2.1 (Or.inr (Or.inl rfl))
  have g1' : p.2 ≤ 2000 := by simpa using g1
  rw [hp, hq]
  simp only [Option.map_some', Option.some.injEq, decide_eq_true_eq]
  exact ⟨⟨g1', g3 rfl⟩, g4⟩

end

/-! ## Claim on the UTF-16 conversion -/

/-- Claim C12, the code at the failing inputs. A buffer made of the mark
`FE FF` and the units U+0041, U+00E9, U+20AC is converted to their standard
UTF-8 encoding. A buffer made of the mark `FE FF` and the units U+0041,
U+FEFF, U+0042 is converted to the single byte `42`, because the scan for the
last mark runs through the text and takes the unit U+FEFF for a mark; the
standard encoding is `41 EF BB BF 42`. A buffer made of the mark `FE FF` and
the units U+01FE, U+FF41 is converted from the odd offset 5 on, because the
bytes `FE FF` that straddle the two units are taken for a mark; the standard
encoding is `C7 BE EF BD 81`. -/
theorem C12_mark_found_inside_text :
    unicode2utf8 (utf16BE [0x41, 0xE9, 0x20AC]) 8 = [0x41, 0xC3, 0xA9, 0xE2, 0x82, 0xAC] ∧
    [0x41, 0xE9, 0x20AC].flatMap utf8Standard = [0x41, 0xC3, 0xA9, 0xE2, 0x82, 0xAC] ∧
    utf16BE [0x41, 0xFEFF, 0x42] = [0xFE, 0xFF, 0x00, 0x41, 0xFE, 0xFF, 0x00, 0x42] ∧
    unicode2utf8 (utf16BE [0x41, 0xFEFF, 0x42]) 8 = [0x42] ∧
    [0x41, 0xFEFF, 0x42].flatMap utf8Standard = [0x41, 0xEF, 0xBB, 0xBF, 0x42] ∧
    utf16BE [0x1FE, 0xFF41] = [0xFE, 0xFF, 0x01, 0xFE, 0xFF, 0x41] ∧
    unicode2utf8_bom (utf16BE [0x1FE, 0xFF41]) 6 = (true, 5) ∧
    unicode2utf8 (utf16BE [0x1FE, 0xFF41]) 6 = [0xE4, 0x84, 0x80] ∧
    [0x1FE, 0xFF41].flatMap utf8Standard = [0xC7, 0xBE, 0xEF, 0xBD, 0x81] := by
  decide

section

open AudioWAV

/-! ## Claims on the WAV parser -/

/-- Claim C13, counterexample. A fmt payload with format code 1, 2 channels,
16 bits per sample and a sample rate field of 0 is accepted with 16 bytes
consumed, and the sample rate set is 44100, not the 0 of the payload. -/
theorem C13_sample_rate_zero_is_replaced :
    (read_WAV_Header { localWAV 1044 20 16 0 with m_controlCounter := 5 }
      (fmtPayload 1 2 0 0 4 16) 1600).2 = 16 ∧
    (read_WAV_Header { localWAV 1044 20 16 0 with m_controlCounter := 5 }
      (fmtPayload 1 2 0 0 4 16) 1600).1.m_sampleRate = 44100 ∧
    (read_WAV_Header { localWAV 1044 20 16 0 with m_controlCounter := 5 }
      (fmtPayload 1 2 0 0 4 16) 1600).1.m_sampleRate ≠ 0 := by
  decide

/-- Claim C13, amended. In the fmt payload phase, on a payload with format
code `fc`, channel count `nic`, sample rate `sr` and bits per sample `bps`,
`read_WAV_Header` returns -1 if and only if `bps` is neither 8 nor 16, or
`nic` is neither 1 nor 2, or `fc` is not 1; otherwise it returns 16, moves to
phase 6 and sets bits per sample and channel count from the payload, and the
sample rate to `sr` when `sr` is not zero and to the default 44100 when `sr`
is zero. -/
theorem C13_fmt_payload_validation (a : AudioWAV) (fc nic sr dr dbs bps : Nat) (tl : List Nat)
    (len : Int) (hcc : a.m_controlCounter = 5)
    (hfc : fc < 65536) (hnic : nic < 65536) (hsr : sr < 4294967296) (hbps : bps < 65536) :
    ((read_WAV_Header a (fmtPayload fc nic sr dr dbs bps ++ tl) len).2 = -1 ↔
      ((bps ≠ 8 ∧ bps ≠ 16) ∨ (nic ≠ 1 ∧ nic ≠ 2) ∨ fc ≠ 1)) ∧
    (¬ ((bps ≠ 8 ∧ bps ≠ 16) ∨ (nic ≠ 1 ∧ nic ≠ 2) ∨ fc ≠ 1) →
      (read_WAV_Header a (fmtPayload fc nic sr dr dbs bps ++ tl) len).2 = 16 ∧
      (read_WAV_Header a (fmtPayload fc nic sr dr dbs bps ++ tl) len).1.m_controlCounter = 6 ∧
      (read_WAV_Header a (fmtPayload fc nic sr dr dbs bps ++ tl) len).1.m_bitsPerSample = bps ∧
      (read_WAV_Header a (fmtPayload fc nic sr dr dbs bps ++ tl) len).1.m_channels = nic ∧
      (read_WAV_Header a (fmtPayload fc nic sr dr dbs bps ++ tl) len).1.m_sampleRate =
        (if sr = 0 then 44100 else (sr : Int))) := by
  have e : read_WAV_Header a (fmtPayload fc nic sr dr dbs bps ++ tl) len =
      read_WAV_Header_5 a (fmtPayload fc nic sr dr dbs bps ++ tl) := by
    simp [read_WAV_Header, hcc]
  rw [e, read_WAV_Header_5_fmtPayload a fc nic sr dr dbs bps tl hfc hnic hsr hbps]
  by_cases h1 : (bps : Int) ≠ 8 ∧ (bps : Int) ≠ 16
  · rw [if_pos h1]
    have h1' : bps ≠ 8 ∧ bps ≠ 16 := by omega
    exact ⟨⟨fun _ => Or.inl h1', fun _ => rfl⟩, fun hn => absurd (Or.inl h1') hn⟩
  · rw [if_neg h1]
    by_cases h2 : (nic : Int) ≠ 1 ∧ (nic : Int) ≠ 2
    · rw [if_pos h2]
      have h2' : nic ≠ 1 ∧ nic ≠ 2 := by omega
      exact ⟨⟨fun _ => Or.inr (Or.inl h2'), fun _ => rfl⟩,
        fun hn => absurd (Or.inr (Or.inl h2')) hn⟩
    · rw [if_neg h2]
      by_cases h3 : (fc : Int) ≠ 1
      · rw [if_pos h3]
        have h3' : fc ≠ 1 := by omega
        exact ⟨⟨fun _ => Or.inr (Or.inr h3'), fun _ => rfl⟩,
          fun hn => absurd (Or.inr (Or.inr h3')) hn⟩
      · rw [if_neg h3]
        have hb : bps = 8 ∨ bps = 16 := by omega
        have hn : nic = 1 ∨ nic = 2 := by omega
        refine ⟨⟨fun h => ?_, fun h => ?_⟩, fun _ => ⟨rfl, ?_, ?_, ?_, ?_⟩⟩
        · exact absurd (show (16 : Int) = -1 from h) (by decide)
        · omega
        · simp [hcc]
        · show toUInt8 (bps : Int) = bps
          unfold toUInt8; omega
        · show toUInt8 (nic : Int) = nic
          unfold toUInt8; omega
        · show (if (sr : Int) = 0 then (44100 : Int) else sr) = if sr = 0 then 44100 else (sr : Int)
          by_cases hs : sr = 0
          · simp [hs]
          · have : ¬ ((sr : Int) = 0) := by omega
            simp [hs, this]

/-- Claim C13, amended, at concrete payloads: 16-bit stereo PCM at 44100 Hz
is accepted and its values are set; the same payload with 24 bits per sample
is rejected. -/
theorem C13_fmt_payload_validation_witness :
    ((read_WAV_Header { localWAV 1044 20 16 0 with m_controlCounter := 5 }
        (fmtPayload 1 2 44100 176400 4 16 ++ []) 1600).2 = 16 ∧
      (read_WAV_Header { localWAV 1044 20 16 0 with m_controlCounter := 5 }
        (fmtPayload 1 2 44100 176400 4 16 ++ []) 1600).1.m_sampleRate = 44100) ∧
    (read_WAV_Header { localWAV 1044 20 16 0 with m_controlCounter := 5 }
        (fmtPayload 1 2 44100 264600 6 24 ++ []) 1600).2 = -1 := by
  have h16 := C13_fmt_payload_validation { localWAV 1044 20 16 0 with m_controlCounter := 5 }
    1 2 44100 176400 4 16 [] 1600 rfl (by decide) (by decide) (by decide) (by decide)
  have h24 := C13_fmt_payload_validation { localWAV 1044 20 16 0 with m_controlCounter := 5 }
    1 2 44100 264600 6 24 [] 1600 rfl (by decide) (by decide) (by decide) (by decide)
  have a16 := h16.2 (by decide)
  exact ⟨⟨a16.1, by rw [a16.2.2.2.2]; decide⟩, h24.1.2 (by decide)⟩

/-- Claim C14, the code at the failing input. In the phase that reads the
size of the fmt chunk, the size 41 is rejected and the size 40 is accepted
with 4 bytes consumed, but the size 65536 (bytes `00 00 01 00`), which is
above 40, is accepted as well: only the two low bytes of the field are read. -/
theorem C14_fmt_size_high_bytes_ignored :
    (read_WAV_Header { localWAV 1044 12 1036 0 with m_controlCounter := 4 }
      (le32Bytes 41) 1600).2 = -1 ∧
    (read_WAV_Header { localWAV 1044 12 1036 0 with m_controlCounter := 4 }
      (le32Bytes 40) 1600).2 = 4 ∧
    le32Bytes 65536 = [0, 0, 1, 0] ∧
    (read_WAV_Header { localWAV 1044 12 1036 0 with m_controlCounter := 4 }
      (le32Bytes 65536) 1600).2 = 4 ∧
    (read_WAV_Header { localWAV 1044 12 1036 0 with m_controlCounter := 4 }
      (le32Bytes 65536) 1600).1.cs = 0 := by
  decide

/-- Claim C15, the code at the failing input. In the phase that reads the
size of the data chunk, a declared size of 1000 sets `m_audioDataSize` to
956, which is 1000 - 44, and a declared size of 1 sets it to 4294967253,
which is 1 - 44 in the 32 bits of `size_t`. -/
theorem C15_data_size_minus_44 :
    (read_WAV_Header { localWAV 1044 40 16 0 with m_controlCounter := 8 }
      (le32Bytes 1000) 1600).2 = 4 ∧
    (read_WAV_Header { localWAV 1044 40 16 0 with m_controlCounter := 8 }
      (le32Bytes 1000) 1600).1.m_audioDataSize = 956 ∧
    (read_WAV_Header { localWAV 1044 40 16 0 with m_controlCounter := 8 }
      (le32Bytes 1) 1600).1.m_audioDataSize = 4294967253 := by
  decide

/-- Claim C16, the code at the failing input. A WAV file whose fmt chunk is
followed by a `LIST` chunk with the comment `metadata` has a header of 72
bytes: the tag of the data chunk is at offset 64 and the audio starts at
offset 72. The search for the tag, which advances byte by byte, stops at the
`data` inside `metadata` (offset 60), and the next phase reads the tag of the
data chunk as its size. The calls reach `m_controlCounter == 100`, the last
one returns 0 and `m_audioDataStart` is the sum 68 of the values returned,
which is not the size 72 of the header; `m_audioDataSize` is 1635017016, the
bytes `data` read as a number, minus 44. -/
theorem C16_data_tag_found_inside_chunk :
    wavHeaderInfoList.length = 72 ∧
    ((wavHeaderInfoList ++ [1, 0, 2, 0]).drop 60).take 12
      = lit "data" ++ lit "data" ++ le32Bytes 4 ∧
    (wavHeaderInfoList ++ [1, 0, 2, 0]).drop 72 = [1, 0, 2, 0] ∧
    (readWAVLoop (wavHeaderInfoList ++ [1, 0, 2, 0]) (List.replicate 40 1600)
      (localWAV 76 7 0 0) 0).2
      = (68, [4, 4, 4, 4, 4, 16, 0, 1, 1, 1, 1, 1, 1, 1, 1, 1, 1, 1, 1, 1, 1, 1, 1, 1, 1, 1, 1, 1,
          1, 1, 1, 4, 4, 0]) ∧
    (readWAVLoop (wavHeaderInfoList ++ [1, 0, 2, 0]) (List.replicate 40 1600)
      (localWAV 76 7 0 0) 0).1.m_controlCounter = 100 ∧
    (readWAVLoop (wavHeaderInfoList ++ [1, 0, 2, 0]) (List.replicate 40 1600)
      (localWAV 76 7 0 0) 0).1.m_audioDataStart = 68 ∧
    (readWAVLoop (wavHeaderInfoList ++ [1, 0, 2, 0]) (List.replicate 40 1600)
      (localWAV 76 7 0 0) 0).1.m_audioDataSize = 1635017016 := by
  decide

end

section

open AudioFLAC

/-! ## Claims on the FLAC parser -/

/-- Claim C17, the code at the failing input. In the phase `FLAC_SINFO` with
no skip pending, a `STREAMINFO` block with 16 bits per sample, a maximal
frame size of 4000 (below the maximal block size 16384), the sample rate
field 0 and 441000 samples in the stream passes both tests of the phase, and
`read_FLAC_Header` then evaluates `m_flacTotalSamplesInStream /
m_flacSampleRate` with the divisor 0: the call has no result and reports no
sample rate. The same block with no sample count is accepted, with the sample
rate 0 and 16 bits per sample. On the synthetic block of the claim (44100 Hz,
2 channels, 16 bits, 441000 samples) the call returns 0 and reports exactly
44100, 2, 16 and 441000. -/
theorem C17_streaminfo_zero_rate_divides :
    read_FLAC_Header (atSINFO 2000000 16384 (fun _ => 0))
      (streaminfoBlock 4096 4096 14 4000 0 1 15 441000 (List.replicate 16 0)) 1600 = none ∧
    (read_FLAC_Header (atSINFO 2000000 16384 (fun _ => 0))
      (streaminfoBlock 4096 4096 14 4000 0 1 15 0 (List.replicate 16 0)) 1600).map
        (fun r => (r.2, r.1.m_flacSampleRate, r.1.m_flacBitsPerSample)) = some (0, 0, 16) ∧
    (read_FLAC_Header (atSINFO 2000000 16384 (fun _ => 0))
      (streaminfoBlock 4096 4096 14 4000 44100 1 15 441000 (List.replicate 16 0)) 1600).map
        (fun r => (r.2, r.1.m_flacSampleRate, r.1.m_flacNumChannels, r.1.m_flacBitsPerSample,
          r.1.m_flacTotalSamplesInStream)) = some (0, 44100, 2, 16, 441000) :=
  ⟨Option.eq_none_of_isNone (by decide), by decide, by decide⟩

/-- Claim C18, the code at the failing input. On `STREAMINFO` blocks that
differ only in the 3-bit channel field, `read_FLAC_Header` reports 2 channels
for the field value 1 (2 channels), but also 2 channels for the field value 5
(6 channels) and 4 channels for the field value 7 (8 channels): the mask
`0x06` keeps two of the three bits. -/
theorem C18_channel_field_masked :
    (read_FLAC_Header (atSINFO 2000000 16384 (fun _ => 0))
      (streaminfoBlock 4096 4096 14 4000 44100 1 15 441000 (List.replicate 16 0))
      1600).map (fun r => r.1.m_flacNumChannels) = some 2 ∧
    (read_FLAC_Header (atSINFO 2000000 16384 (fun _ => 0))
      (streaminfoBlock 4096 4096 14 4000 44100 5 15 441000 (List.replicate 16 0))
      1600).map (fun r => r.2) = some 0 ∧
    (read_FLAC_Header (atSINFO 2000000 16384 (fun _ => 0))
      (streaminfoBlock 4096 4096 14 4000 44100 5 15 441000 (List.replicate 16 0))
      1600).map (fun r => r.1.m_flacNumChannels) = some 2 ∧
    (read_FLAC_Header (atSINFO 2000000 16384 (fun _ => 0))
      (streaminfoBlock 4096 4096 14 4000 44100 7 15 441000 (List.replicate 16 0))
      1600).map (fun r => r.1.m_flacNumChannels) = some 4 := by
  decide

/-- Claim C19, the code at the failing input. On a `STREAMINFO` block whose
36-bit total-samples field holds `2 ^ 32 + 441000` (the low 4 bits of the
byte shared with bits-per-sample are `0001`), `read_FLAC_Header` accepts the
block and stores 441000: the four bits above the last 4 bytes are dropped. -/
theorem C19_total_samples_top_bits_dropped :
    byteAt (streaminfoBlock 4096 4096 14 4000 44100 1 15 4295408296 (List.replicate 16 0)) 16
      = 0xF1 ∧
    (read_FLAC_Header (atSINFO 2000000 16384 (fun _ => 0))
      (streaminfoBlock 4096 4096 14 4000 44100 1 15 4295408296 (List.replicate 16 0))
      1600).map (fun r => r.2) = some 0 ∧
    (read_FLAC_Header (atSINFO 2000000 16384 (fun _ => 0))
      (streaminfoBlock 4096 4096 14 4000 44100 1 15 4295408296 (List.replicate 16 0))
      1600).map (fun r => r.1.m_flacTotalSamplesInStream) = some 441000 ∧
    (4295408296 : Int) ≠ 441000 := by
  decide

/-- Claim C20, the code at the failing input. In the phase `FLAC_SINFO` with
no skip pending and a maximal block size of 16384, a `STREAMINFO` block with
no maximal frame size given (0), 8 bits per sample, the sample rate field 0
and one sample in the stream fails neither test of the phase, and
`read_FLAC_Header` returns neither -1 nor a non-negative value: it divides
`m_flacTotalSamplesInStream` by the sample rate 0 and the call has no result.
On the blocks next to it the call returns as the claim says: 0 with the phase
`FLAC_MBH` and 37 bytes to skip for the sample rate 44100, -1 for the maximal
frame size 20000, -1 for 24 bits per sample. -/
theorem C20_streaminfo_zero_rate_no_return :
    read_FLAC_Header (atSINFO 2000000 16384 (fun _ => 0))
      (streaminfoBlock 4096 4096 0 0 0 0 7 1 (List.replicate 16 0)) 1600 = none ∧
    (read_FLAC_Header (atSINFO 2000000 16384 (fun _ => 0))
      (streaminfoBlock 4096 4096 0 0 44100 0 7 1 (List.replicate 16 0)) 1600).map
        (fun r => (r.2, r.1.m_controlCounter, r.1.retvalue)) = some (0, FLAC_MBH, 37) ∧
    (read_FLAC_Header (atSINFO 2000000 16384 (fun _ => 0))
      (streaminfoBlock 4096 4096 14 20000 0 0 7 1 (List.replicate 16 0)) 1600).map
        (fun r => r.2) = some (-1) ∧
    (read_FLAC_Header (atSINFO 2000000 16384 (fun _ => 0))
      (streaminfoBlock 4096 4096 0 0 0 0 23 1 (List.replicate 16 0)) 1600).map
        (fun r => r.2) = some (-1) :=
  ⟨Option.eq_none_of_isNone (by decide), by decide, by decide, by decide⟩

end

section

open AudioFLAC

/-- Claim C21, counterexample. A stream made of the magic and one `STREAMINFO`
block (type 0, flagged as the last one) that announces 24 bits per sample:
the calls return 0, 0, 4, 0, 1 and then -1, the phase stays `FLAC_SINFO` and
the terminal phase is not reached. -/
theorem C21_streaminfo_24_bit_is_fatal :
    (readFLACLoop
        (flacStream []
          ⟨0, (streaminfoBlock 4096 4096 0 1500 44100 1 23 441000 (List.replicate 16 0)).drop 3⟩
          [255, 248])
        (List.replicate 100 1600) (webFLAC 1000 1600) 0).map
      (fun q => (q.2.2, q.1.m_controlCounter)) = some ([0, 0, 4, 0, 1, -1], FLAC_SINFO) := by
  decide

/-- Claim C21, amended. Let a FLAC stream be made of the magic, of metadata
blocks of types 0..6 without the last-metadata-block flag, of one last block
of a type 0..6 with the flag, and of at least 2 bytes of audio; each payload
is shorter than `2 ^ 24` bytes and the whole header shorter than `2 ^ 32`
bytes. Let every `STREAMINFO` block (type 0) be accepted by the stream info
phase (frame size within the maximal block size, 8 or 16 bits per sample, no
division by a sample rate 0), and let the phase of every `VORBIS_COMMENT`
block (type 4) read inside the block only. Started in `FLAC_BEGIN` with no
skip pending and called with windows of at least `W >= 10` bytes that hold
every block of the types 0 and 4 as a whole (twice as many windows as the
header has bytes suffice), `read_FLAC_Header` returns from every call and
reaches `FLAC_OKAY` without a fatal result; `m_audioDataStart` is
`4 + sum (4 + l_i)`, which is the sum of the values returned and the offset
reached, and `m_audioDataSize` is the content length minus `m_audioDataStart`
in the 32 bits of `size_t`. -/
theorem C21_flac_metadata_size (a : AudioFLAC) (blocks : List FlacBlock)
    (lastBlock : FlacBlock) (audio : List Nat) (W : Int) (wins : List Int)
    (hcc : a.m_controlCounter = FLAC_BEGIN) (hret : a.retvalue = 0)
    (hm : 1 ≤ a.InBuff.getMaxBlockSize)
    (hW : 10 ≤ W)
    (hb : ∀ b ∈ blocks ++ [lastBlock], b.type ≤ 6 ∧ b.payload.length < 16777216 ∧
      (b.type = 0 → a.acceptsStreamInfo (be24Bytes b.payload.length ++ b.payload)) ∧
      (b.type = 4 → a.readsVorbisInside (be24Bytes b.payload.length ++ b.payload)) ∧
      (b.type = 0 ∨ b.type = 4 → ((3 + b.payload.length : Nat) : Int) ≤ W))
    (haudio : 2 ≤ audio.length)
    (hsz : 4 + flacBlocksSize (blocks ++ [lastBlock]) < 4294967296)
    (hw : ∀ w ∈ wins, W ≤ w ∧ w < 2147483648)
    (hlen : 2 * (4 + flacBlocksSize (blocks ++ [lastBlock])) ≤ wins.length) :
    ∃ (b : AudioFLAC) (rs : List Int),
      readFLACLoop (flacStream blocks lastBlock audio) wins a 0
        = some (b, 4 + flacBlocksSize (blocks ++ [lastBlock]), rs) ∧
      b.m_controlCounter = FLAC_OKAY ∧
      b.m_audioDataStart = ((4 + flacBlocksSize (blocks ++ [lastBlock]) : Nat) : Int) ∧
      rs.sum = b.m_audioDataStart ∧
      (∀ x ∈ rs, 0 ≤ x) ∧
      b.m_contentlength = (read_FLAC_Header_BEGIN a).1.m_contentlength ∧
      b.m_audioDataSize = toSizeT (b.m_contentlength - b.m_audioDataStart) := by
  obtain ⟨b, g1, g2, g3, g4, r⟩ :=
    flac_stream_run a blocks lastBlock audio W hW hcc hret hm hb haudio hsz
  obtain ⟨rs, e1, e2, e3⟩ :=
    r.done (by show b.m_controlCounter = 100; rw [g1]; rfl) wins hw hlen
  exact ⟨b, rs, e1, g1, g2, by rw [e2, g2], e3, g4, g3⟩

/-- Claim C21 at a concrete input: a `STREAMINFO` block (16 bits per sample,
frames of at most 1500 bytes, 34 bytes of payload), a `VORBIS_COMMENT` block
with the vendor string `xy` and the comment `A=B` (17 bytes of payload) and a
last `PADDING` block of 2 bytes, read through windows of 1600 bytes, give
the phase 100, `m_audioDataStart = 4 + 38 + 21 + 6 = 69`, the offset 69, the
sum 69 of the values returned and `m_audioDataSize = 1000 - 69`. -/
theorem C21_flac_metadata_size_witness :
    (readFLACLoop
        (flacStream
          [⟨0, (streaminfoBlock 4096 4096 0 1500 44100 1 15 441000 (List.replicate 16 0)).drop 3⟩,
           ⟨4, vorbisPayload (lit "xy") [lit "A=B"]⟩]
          ⟨1, [0, 0]⟩ [255, 248])
        (List.replicate 138 1600) (webFLAC 1000 1600) 0).map
      (fun q => (q.1.m_controlCounter, q.1.m_audioDataStart, q.2.1, q.2.2.sum,
        q.1.m_audioDataSize)) = some (100, 69, 69, 69, 931) := by
  obtain ⟨b, rs, e, h1, h2, h3, _, h5, h6⟩ := C21_flac_metadata_size (webFLAC 1000 1600)
    [⟨0, (streaminfoBlock 4096 4096 0 1500 44100 1 15 441000 (List.replicate 16 0)).drop 3⟩,
     ⟨4, vorbisPayload (lit "xy") [lit "A=B"]⟩]
    ⟨1, [0, 0]⟩ [255, 248] 1600 (List.replicate 138 1600) rfl rfl (by decide) (by decide)
    (by
      intro b hb
      simp only [List.cons_append, List.nil_append, List.mem_cons, List.mem_singleton,
        List.not_mem_nil, or_false] at hb
      rcases hb with rfl | rfl | rfl
      · exact ⟨by decide, by decide, fun _ => by unfold acceptsStreamInfo; decide,
          fun h => absurd h (by decide), fun _ => by decide⟩
      · exact ⟨by decide, by decide, fun h => absurd h (by decide),
          fun _ => by unfold readsVorbisInside; decide, fun _ => by decide⟩
      · exact ⟨by decide, by decide, fun h => absurd h (by decide),
          fun h => absurd h (by decide), fun h => absurd h (by decide)⟩)
    (by decide) (by decide)
    (by intro w hw; rw [List.mem_replicate] at hw; rw [hw.2]; decide)
    (by rw [List.length_replicate]; decide)
  have e69 : ((4 + flacBlocksSize
      ([⟨0, (streaminfoBlock 4096 4096 0 1500 44100 1 15 441000 (List.replicate 16 0)).drop 3⟩,
        ⟨4, vorbisPayload (lit "xy") [lit "A=B"]⟩] ++ [⟨1, [0, 0]⟩]) : Nat) : Int) = 69 := by
    decide
  have n69 : 4 + flacBlocksSize
      ([⟨0, (streaminfoBlock 4096 4096 0 1500 44100 1 15 441000 (List.replicate 16 0)).drop 3⟩,
        ⟨4, vorbisPayload (lit "xy") [lit "A=B"]⟩] ++ [⟨1, [0, 0]⟩]) = 69 := by
    decide
  have ecl : (read_FLAC_Header_BEGIN (webFLAC 1000 1600)).1.m_contentlength = 1000 := by
    decide
  rw [e69] at h2
  rw [h2] at h3 h6
  rw [h5, ecl] at h6
  rw [e, n69]
  show some (b.m_controlCounter, b.m_audioDataStart, 69, rs.sum, b.m_audioDataSize) = _
  rw [h1, h2, h3, h6]
  rfl

end

section

open AudioFLAC

/-- Claim C22, failing input. A `VORBIS_COMMENT` block with an empty vendor
string (length prefix 0) and the single comment `A=B`: the phase
`FLAC_VORBIS` reports the vendor string and no comment at all, since the four
bytes of the zero length prefix are not stepped over and are read once more
as the number of comments. The block of 15 bytes is still scheduled for
consumption with 18 bytes. With the vendor string `xy` the comment is
reported. -/
theorem C22_empty_vendor_string_hides_comments :
    (read_FLAC_Header { webFLAC 1000 1600 with m_controlCounter := FLAC_VORBIS, headerSize := 5 }
      (be24Bytes 15 ++ vorbisPayload [] [lit "A=B"]) 1600).map (fun r => r.1.events)
      = some [Event.audio_id3data (lit "VENDOR_STRING: ")] ∧
    (read_FLAC_Header { webFLAC 1000 1600 with m_controlCounter := FLAC_VORBIS, headerSize := 5 }
      (be24Bytes 15 ++ vorbisPayload [] [lit "A=B"]) 1600).map (fun r => r.1.retvalue)
      = some 18 ∧
    (read_FLAC_Header { webFLAC 1000 1600 with m_controlCounter := FLAC_VORBIS, headerSize := 5 }
      (be24Bytes 17 ++ vorbisPayload (lit "xy") [lit "A=B"]) 1600).map (fun r => r.1.events)
      = some [Event.audio_id3data (lit "VENDOR_STRING: xy"), Event.audio_id3data (lit "A=B")] := by
  decide

end

section

open AudioM4A

/-- Claim C23, counterexample. After a valid `ftyp` atom of 24 bytes comes
the atom `mdat`. (1) Its declared size is 0 (the atom runs to the end of the
file): `read_M4A_Header` reaches `M4A_OKAY` with `m_audioDataStart = 32`,
but `m_audioDataSize` is 4294967288, not `0 - 8`. (2) Its declared size is
1835295092, whose four bytes spell `mdat`: the phase `M4A_CHK` finds the
name `mdat` at offset 0 instead of 4, takes the atom for an unknown one and
schedules its 1835295092 bytes for skipping; the phase `M4A_MDAT` is not
entered and the calls go on returning the window length. -/
theorem C23_mdat_size_zero_or_spelling_mdat :
    ((readM4ALoop (m4aStream (lit "M4A ") ([0, 0, 2, 0] ++ lit "isomiso2") [] 0 [33, 0, 3])
        (List.replicate 20 1600) (webM4A M4A_BEGIN 0 1600) 0).2.2 = [0, 0, 24, 0, 0, 8, 0] ∧
      (readM4ALoop (m4aStream (lit "M4A ") ([0, 0, 2, 0] ++ lit "isomiso2") [] 0 [33, 0, 3])
        (List.replicate 20 1600) (webM4A M4A_BEGIN 0 1600) 0).1.m_controlCounter = M4A_OKAY ∧
      (readM4ALoop (m4aStream (lit "M4A ") ([0, 0, 2, 0] ++ lit "isomiso2") [] 0 [33, 0, 3])
        (List.replicate 20 1600) (webM4A M4A_BEGIN 0 1600) 0).1.m_audioDataStart = 32 ∧
      (readM4ALoop (m4aStream (lit "M4A ") ([0, 0, 2, 0] ++ lit "isomiso2") [] 0 [33, 0, 3])
        (List.replicate 20 1600) (webM4A M4A_BEGIN 0 1600) 0).1.m_audioDataSize = 4294967288 ∧
      (4294967288 : Int) ≠ 0 - 8) ∧
    (be32Bytes 1835295092 = lit "mdat" ∧
      (readM4ALoop
        (m4aStream (lit "M4A ") ([0, 0, 2, 0] ++ lit "isomiso2") [] 1835295092 [33, 0, 3])
        (List.replicate 6 1600) (webM4A M4A_BEGIN 0 1600) 0).2.2 = [0, 0, 24, 0, 1600, 1600] ∧
      (readM4ALoop
        (m4aStream (lit "M4A ") ([0, 0, 2, 0] ++ lit "isomiso2") [] 1835295092 [33, 0, 3])
        (List.replicate 6 1600) (webM4A M4A_BEGIN 0 1600) 0).1.m_controlCounter = M4A_CHK ∧
      (readM4ALoop
        (m4aStream (lit "M4A ") ([0, 0, 2, 0] ++ lit "isomiso2") [] 1835295092 [33, 0, 3])
        (List.replicate 6 1600) (webM4A M4A_BEGIN 0 1600) 0).1.retvalue = 1835291892) := by
  decide

/-- Claim C23, amended. Let an M4A stream be made of an atom `ftyp` whose subtype
`brand` is `M4A `, `isom` or `mp42` (declared size `a = 12 + |ftypRest|`), of
atoms with four-byte names other than `moov` and `mdat` (declared sizes
`s_i`, at least 8 each), and of an atom `mdat` of declared size `m >= 8`; the
size bytes of `ftyp` spell neither `ftyp` nor the subtype, those of `mdat` do
not spell `mdat`, and the header is shorter than `2 ^ 32` bytes. Started in
`M4A_BEGIN` and called with windows of at least one byte (twice as many as the
header has bytes suffice), `read_M4A_Header` reaches `M4A_OKAY` without a
fatal result, with `m_audioDataSize = m - 8` and
`m_audioDataStart = a + s_1 + ... + s_k + 8`, which is the sum of the values
returned and the offset reached: every atom in between was left by exactly
its declared size. -/
theorem C23_m4a_header_size (a : AudioM4A) (brand ftypRest : List Nat)
    (atoms : List M4aAtom) (m : Nat) (rest : List Nat) (wins : List Int)
    (hcc : a.m_controlCounter = M4A_BEGIN) (hm : 1 ≤ a.InBuff.getMaxBlockSize)
    (hbrand : brand = lit "M4A " ∨ brand = lit "isom" ∨ brand = lit "mp42")
    (hf1 : be32Bytes (12 + ftypRest.length) ≠ lit "ftyp")
    (hf2 : be32Bytes (12 + ftypRest.length) ≠ brand)
    (hat : ∀ t ∈ atoms, t.name.length = 4 ∧ t.name ≠ lit "moov" ∧ t.name ≠ lit "mdat")
    (hm1 : be32Bytes m ≠ lit "mdat") (hm8 : 8 ≤ m) (hm32 : m < 4294967296)
    (hsz : 12 + ftypRest.length + m4aAtomsSize atoms + 8 < 4294967296)
    (hw : ∀ w ∈ wins, 1 ≤ w ∧ w < 2147483648)
    (hlen : 2 * (12 + ftypRest.length + m4aAtomsSize atoms + 8) ≤ wins.length) :
    (readM4ALoop (m4aStream brand ftypRest atoms m rest) wins a 0).1.m_controlCounter
      = M4A_OKAY ∧
    (readM4ALoop (m4aStream brand ftypRest atoms m rest) wins a 0).1.m_audioDataSize
      = (m : Int) - 8 ∧
    (readM4ALoop (m4aStream brand ftypRest atoms m rest) wins a 0).1.m_audioDataStart
      = ((12 + ftypRest.length + m4aAtomsSize atoms + 8 : Nat) : Int) ∧
    (readM4ALoop (m4aStream brand ftypRest atoms m rest) wins a 0).2.2.sum
      = (readM4ALoop (m4aStream brand ftypRest atoms m rest) wins a 0).1.m_audioDataStart ∧
    (∀ x ∈ (readM4ALoop (m4aStream brand ftypRest atoms m rest) wins a 0).2.2, 0 ≤ x) ∧
    (readM4ALoop (m4aStream brand ftypRest atoms m rest) wins a 0).2.1
      = 12 + ftypRest.length + m4aAtomsSize atoms + 8 := by
  obtain ⟨b, g1, g2, g3, r⟩ := m4a_stream_run a brand ftypRest atoms m rest hcc hm hbrand hf1 hf2
    hat hm1 hm32 hsz
  obtain ⟨e1, e2, e3, e4⟩ := r.finish (by show b.m_controlCounter = 100; rw [g1]; rfl) wins hw hlen
  unfold readM4ALoop
  rw [e1, e2, e3]
  refine ⟨g1, ?_, g2, g2.symm, e4, rfl⟩
  rw [g3, toSizeT_of_range _ (by omega) (by omega)]

/-- Claim C23 at a concrete input: `ftyp` of 24 bytes, `free` of 11 bytes,
`wide` of 8 bytes, then `mdat` of declared size 1008 give
`m_audioDataStart = 24 + 11 + 8 + 8 = 51` and `m_audioDataSize = 1000`. -/
theorem C23_m4a_header_size_witness :
    (readM4ALoop
        (m4aStream (lit "M4A ") ([0, 0, 2, 0] ++ lit "isomiso2")
          [⟨lit "free", [1, 2, 3]⟩, ⟨lit "wide", []⟩] 1008 [33, 0, 3])
        (List.replicate 102 1600) (webM4A M4A_BEGIN 0 1600) 0).1.m_controlCounter = M4A_OKAY ∧
    (readM4ALoop
        (m4aStream (lit "M4A ") ([0, 0, 2, 0] ++ lit "isomiso2")
          [⟨lit "free", [1, 2, 3]⟩, ⟨lit "wide", []⟩] 1008 [33, 0, 3])
        (List.replicate 102 1600) (webM4A M4A_BEGIN 0 1600) 0).1.m_audioDataSize = 1000 ∧
    (readM4ALoop
        (m4aStream (lit "M4A ") ([0, 0, 2, 0] ++ lit "isomiso2")
          [⟨lit "free", [1, 2, 3]⟩, ⟨lit "wide", []⟩] 1008 [33, 0, 3])
        (List.replicate 102 1600) (webM4A M4A_BEGIN 0 1600) 0).1.m_audioDataStart = 51 ∧
    (readM4ALoop
        (m4aStream (lit "M4A ") ([0, 0, 2, 0] ++ lit "isomiso2")
          [⟨lit "free", [1, 2, 3]⟩, ⟨lit "wide", []⟩] 1008 [33, 0, 3])
        (List.replicate 102 1600) (webM4A M4A_BEGIN 0 1600) 0).2.2.sum = 51 := by
  have h := C23_m4a_header_size (webM4A M4A_BEGIN 0 1600) (lit "M4A ")
    ([0, 0, 2, 0] ++ lit "isomiso2") [⟨lit "free", [1, 2, 3]⟩, ⟨lit "wide", []⟩] 1008
    [33, 0, 3] (List.replicate 102 1600) rfl (by decide) (Or.inl rfl) (by decide) (by decide)
    (by
      intro t ht
      simp only [List.mem_cons, List.mem_singleton, List.not_mem_nil, or_false] at ht
      rcases ht with rfl | rfl <;> exact ⟨by decide, by decide, by decide⟩)
    (by decide) (by decide) (by decide) (by decide)
    (by intro w hw; rw [List.mem_replicate] at hw; rw [hw.2]; decide)
    (by decide)
  obtain ⟨h1, h2, h3, h4, _, _⟩ := h
  have e51 : ((12 + ([0, 0, 2, 0] ++ lit "isomiso2").length
      + m4aAtomsSize [⟨lit "free", [1, 2, 3]⟩, ⟨lit "wide", []⟩] + 8 : Nat) : Int) = 51 := by
    decide
  rw [e51] at h3
  exact ⟨h1, by rw [h2]; decide, h3, by rw [h4, h3]⟩

end

section

open AudioM4A

/-- Claim C24, counterexample. A web stream is parsed from `M4A_BEGIN`, the
one-time flag clear. (1) The atom `moov` holds an atom `ilst` with the title
`Song` and the windows have 100 bytes: the phase `M4A_ILST` runs once and
reports `Title: Song`, the parse reaches `M4A_OKAY`, and
`m_f_m4aID3dataAreRead` is still clear: the phase does not set the flag.
(2) The atom `ilst` holds the comment `x trak ilst` before the title, the
window of the first call in `M4A_MOOV` has 32 bytes and the other windows
100: the phase `M4A_ILST` runs at the name of the atom (offset 36) and
reports title and comment, `M4A_MOOV` then finds `trak` and `ilst` in the
comment, the phase `M4A_ILST` runs a second time inside the same atom
(offset 71) and reports the title again. -/
theorem C24_ilst_phase_leaves_flag_clear :
    ((readM4ALoop
        (m4aStream (lit "M4A ") ([0, 0, 2, 0] ++ lit "isomiso2")
          [⟨lit "moov", M4aAtom.bytes ⟨lit "ilst", ilstItem (lit "nam") (lit "Song")⟩⟩]
          1008 [33, 0, 3])
        (List.replicate 20 100) (webM4A M4A_BEGIN 0 1600) 0).2.2
        = [0, 0, 24, 0, 0, 12, 0, 0, 32, 0, 0, 8, 0] ∧
      (readM4ALoop
        (m4aStream (lit "M4A ") ([0, 0, 2, 0] ++ lit "isomiso2")
          [⟨lit "moov", M4aAtom.bytes ⟨lit "ilst", ilstItem (lit "nam") (lit "Song")⟩⟩]
          1008 [33, 0, 3])
        (List.replicate 20 100) (webM4A M4A_BEGIN 0 1600) 0).1.m_controlCounter = M4A_OKAY ∧
      (readM4ALoop
        (m4aStream (lit "M4A ") ([0, 0, 2, 0] ++ lit "isomiso2")
          [⟨lit "moov", M4aAtom.bytes ⟨lit "ilst", ilstItem (lit "nam") (lit "Song")⟩⟩]
          1008 [33, 0, 3])
        (List.replicate 20 100) (webM4A M4A_BEGIN 0 1600) 0).1.events
        = [Event.audio_id3data (lit "Title: Song")] ∧
      (readM4ALoop
        (m4aStream (lit "M4A ") ([0, 0, 2, 0] ++ lit "isomiso2")
          [⟨lit "moov", M4aAtom.bytes ⟨lit "ilst", ilstItem (lit "nam") (lit "Song")⟩⟩]
          1008 [33, 0, 3])
        (List.replicate 20 100) (webM4A M4A_BEGIN 0 1600) 0).1.m_f_m4aID3dataAreRead
        = false) ∧
    ((readM4ALoop
        (m4aStream (lit "M4A ") ([0, 0, 2, 0] ++ lit "isomiso2")
          [⟨lit "moov", M4aAtom.bytes ⟨lit "ilst",
            ilstItem (lit "cmt") (lit "x trak ilst") ++ ilstItem (lit "nam") (lit "Song")⟩⟩]
          1008 [33, 0, 3])
        ([100, 100, 100, 100, 32] ++ List.replicate 20 100)
        (webM4A M4A_BEGIN 0 1600) 0).2.2
        = [0, 0, 24, 0, 0, 12, 0, 0, 30, 0, 0, 5, 0, 0, 32, 0, 0, 8, 0] ∧
      (readM4ALoop
        (m4aStream (lit "M4A ") ([0, 0, 2, 0] ++ lit "isomiso2")
          [⟨lit "moov", M4aAtom.bytes ⟨lit "ilst",
            ilstItem (lit "cmt") (lit "x trak ilst") ++ ilstItem (lit "nam") (lit "Song")⟩⟩]
          1008 [33, 0, 3])
        ([100, 100, 100, 100, 32] ++ List.replicate 20 100)
        (webM4A M4A_BEGIN 0 1600) 0).1.m_controlCounter = M4A_OKAY ∧
      (readM4ALoop
        (m4aStream (lit "M4A ") ([0, 0, 2, 0] ++ lit "isomiso2")
          [⟨lit "moov", M4aAtom.bytes ⟨lit "ilst",
            ilstItem (lit "cmt") (lit "x trak ilst") ++ ilstItem (lit "nam") (lit "Song")⟩⟩]
          1008 [33, 0, 3])
        ([100, 100, 100, 100, 32] ++ List.replicate 20 100)
        (webM4A M4A_BEGIN 0 1600) 0).1.events
        = [Event.audio_id3data (lit "Title: Song"),
           Event.audio_id3data (lit "Comment: x trak ilst"),
           Event.audio_id3data (lit "Title: Song")]) :=
  ⟨⟨by decide, by decide, by decide, by decide⟩, ⟨by decide, by decide, by decide⟩⟩

/-- Claim C24, amended. A call of `read_M4A_Header` in the phase `M4A_ILST`
with no skip pending returns 0, goes back to the phase `M4A_MOOV` and leaves
`m_f_m4aID3dataAreRead` as it is. With the flag set the call emits no
metadata notification; with the flag clear it reports every item of the
table found in the window, so that a second run with the flag still clear
reports them again. The flag is set by `seek_m4a_ilst`, which reports the
items of a local file before the header is parsed: the phase run after it on
the same window adds no notification. -/
theorem C24_ilst_phase_and_flag (a : AudioM4A) (data : List Nat) (len : Int)
    (hcc : a.m_controlCounter = M4A_ILST) (hret : a.retvalue = 0) :
    (read_M4A_Header a data len).2 = 0 ∧
    (read_M4A_Header a data len).1.m_controlCounter = M4A_MOOV ∧
    (read_M4A_Header a data len).1.m_f_m4aID3dataAreRead = a.m_f_m4aID3dataAreRead ∧
    (a.m_f_m4aID3dataAreRead = true → (read_M4A_Header a data len).1.events = a.events) ∧
    (a.m_f_m4aID3dataAreRead = false →
      (read_M4A_Header a data len).1.events = ilstItems data len a.events) ∧
    (seek_m4a_ilst_found a data len).m_f_m4aID3dataAreRead = true ∧
    (seek_m4a_ilst_found a data len).events = ilstItems data len a.events ∧
    (read_M4A_Header (seek_m4a_ilst_found a data len) data len).1.events
      = ilstItems data len a.events := by
  have hd : ∀ b : AudioM4A, b.m_controlCounter = M4A_ILST → b.retvalue = 0 →
      read_M4A_Header b data len = read_M4A_Header_ILST b data len := by
    intro b h1 h2
    simp [read_M4A_Header, h1, h2, M4A_ILST, M4A_BEGIN, M4A_FTYP, M4A_CHK, M4A_MOOV, M4A_TRAK]
  have hs : read_M4A_Header (seek_m4a_ilst_found a data len) data len
      = read_M4A_Header_ILST (seek_m4a_ilst_found a data len) data len := hd _ hcc hret
  rw [hd a hcc hret, hs]
  unfold read_M4A_Header_ILST seek_m4a_ilst_found
  refine ⟨rfl, rfl, ?_, ?_, ?_, rfl, rfl, ?_⟩
  · dsimp only
    split_ifs <;> rfl
  · intro h
    dsimp only
    split_ifs <;> simp_all
  · intro h
    dsimp only
    split_ifs <;> simp_all
  · dsimp only
    split_ifs <;> simp_all

/-- Claim C24, amended, at a concrete input: the window holds the name of the
atom `ilst` and the item `nam` with the value `Song`. With the flag clear
the phase reports `Title: Song` and leaves the flag clear; run after
`seek_m4a_ilst`, which has reported the title and set the flag, the phase
adds nothing. -/
theorem C24_ilst_phase_and_flag_witness :
    (read_M4A_Header (webM4A M4A_ILST 0 1600)
      (lit "ilst" ++ ilstItem (lit "nam") (lit "Song") ++ [0, 0, 0, 0]) 36).1.events
      = [Event.audio_id3data (lit "Title: Song")] ∧
    (read_M4A_Header (webM4A M4A_ILST 0 1600)
      (lit "ilst" ++ ilstItem (lit "nam") (lit "Song") ++ [0, 0, 0, 0]) 36).1.m_f_m4aID3dataAreRead
      = false ∧
    (read_M4A_Header
      (seek_m4a_ilst_found (webM4A M4A_ILST 0 1600)
        (lit "ilst" ++ ilstItem (lit "nam") (lit "Song") ++ [0, 0, 0, 0]) 36)
      (lit "ilst" ++ ilstItem (lit "nam") (lit "Song") ++ [0, 0, 0, 0]) 36).1.events
      = [Event.audio_id3data (lit "Title: Song")] := by
  have h := C24_ilst_phase_and_flag (webM4A M4A_ILST 0 1600)
    (lit "ilst" ++ ilstItem (lit "nam") (lit "Song") ++ [0, 0, 0, 0]) 36 rfl rfl
  obtain ⟨_, _, h3, _, h5, _, _, h8⟩ := h
  have hi : ilstItems (lit "ilst" ++ ilstItem (lit "nam") (lit "Song") ++ [0, 0, 0, 0]) 36
      (webM4A M4A_ILST 0 1600).events = [Event.audio_id3data (lit "Title: Song")] := by
    decide
  exact ⟨by rw [h5 rfl, hi], by rw [h3]; rfl, by rw [h8, hi]⟩

/-- Claim C25, failing input. The audio data start at 1000, the side table
holds the sample sizes 100 and 200, the position asked for is 1000 (the least
one `processLocalFile` passes on): `m4a_correctResumeFilePos` returns 1100,
the end of the first sample, although 1000 itself is a position of the form
`m_audioDataStart + z_1 + ... + z_k` with `k = 0`. The first size is added
before the first comparison. -/
theorem C25_first_sample_always_skipped :
    ({ webM4A M4A_OKAY 0 1600 with
        m_audioDataStart := 1000, m_stsz_position := 4, m_stsz_numEntries := 2 } :
      AudioM4A).m_audioDataStart = 1000 ∧
    m4a_correctResumeFilePos
      { webM4A M4A_OKAY 0 1600 with
        m_audioDataStart := 1000, m_stsz_position := 4, m_stsz_numEntries := 2 }
      ([0, 0, 0, 2] ++ be32Bytes 100 ++ be32Bytes 200) 1000 = 1100 := by
  decide

end

/-- Claim C26, failing input. The buffer of `bufflen = 4` bytes holds the
Latin-1 string `E9 E9` and its NUL (3 bytes, so the input fits). The
converted string `C3 A9 C3 A9` needs 5 bytes with its NUL, yet `latinToUTF8`
returns true: the four bytes fill the buffer and the terminating NUL is
stored at index 4, which is `bufflen`. -/
theorem C26_terminator_written_at_bufflen :
    latinToUTF8 [0xE9, 0xE9, 0, 0] 4 true = ([0xC3, 0xA9, 0xC3, 0xA9], true) ∧
    (latinToUTF8 [0xE9, 0xE9, 0, 0] 4 true).1.length = 4 ∧
    latinToUTF8 [0xE9, 0xE9, 0, 0] 4 false = ([0xC3, 0xA9, 0xC3, 0xA9], true) := by
  decide

section

open AudioBuffer

end

/-- Claim C28, counterexample. In the phase `M4A_BEGIN` a leftover pending
skip of 5 bytes (`retvalue == 5`, kept by the static from a parse that was
broken off) is discarded by `read_M4A_Header`: the call with a window of 10
bytes returns 0, not a value between 1 and 10, and the phase changes to
`M4A_FTYP`. -/
theorem C28_skip_dropped_in_M4A_BEGIN :
    (AudioM4A.webM4A M4A_BEGIN 5 1600).retvalue = 5 ∧
    (AudioM4A.read_M4A_Header (AudioM4A.webM4A M4A_BEGIN 5 1600) (lit "abcdefghij") 10).2 = 0 ∧
    (AudioM4A.read_M4A_Header (AudioM4A.webM4A M4A_BEGIN 5 1600)
      (lit "abcdefghij") 10).1.m_controlCounter = M4A_FTYP ∧
    (AudioM4A.read_M4A_Header (AudioM4A.webM4A M4A_BEGIN 5 1600)
      (lit "abcdefghij") 10).1.retvalue = 0 := by
  decide

/-- Claim C28, amended. Let a skip of `R > 0` bytes be pending
(`retvalue == R`) in `read_FLAC_Header`, or in `read_M4A_Header` outside its
phase `M4A_BEGIN`, the maximal block size of the input buffer being at least
1. A call with a window of `1 <= len < 2 ^ 31` bytes returns a value between
1 and `min len R` and changes nothing but the pending count, which drops by
the value returned (and, for M4A, the counter `cnt`): the phase is kept.
Calls with windows `wins` of at least one byte go on until the count is 0;
at most `R` calls are needed, each returns between 1 and its window length,
the values returned sum to `R`, and the object is then the one before the
skip with `retvalue == 0` (for M4A also `cnt == 0`). -/
theorem C28_pending_skip (data : List Nat) (f : AudioFLAC) (m : AudioM4A) (R : Nat)
    (len : Int) (wins : List Int)
    (hR0 : 0 < R) (hR1 : (R : Int) < 4294967296)
    (hf : f.retvalue = (R : Int)) (hm : m.retvalue = (R : Int))
    (hmb : m.m_controlCounter ≠ M4A_BEGIN)
    (hfm : 1 ≤ f.InBuff.getMaxBlockSize) (hmm : 1 ≤ m.InBuff.getMaxBlockSize)
    (hl0 : 1 ≤ len) (hl1 : len < 2147483648)
    (hw : ∀ w ∈ wins, 1 ≤ w ∧ w < 2147483648) (hlen : R ≤ wins.length) :
    (∃ r : Int, AudioFLAC.read_FLAC_Header f data len
        = some ({ f with retvalue := (R : Int) - r }, r) ∧
      1 ≤ r ∧ r ≤ len ∧ r ≤ (R : Int)) ∧
    (1 ≤ (AudioM4A.read_M4A_Header m data len).2 ∧
      (AudioM4A.read_M4A_Header m data len).2 ≤ len ∧
      (AudioM4A.read_M4A_Header m data len).2 ≤ (R : Int) ∧
      (AudioM4A.read_M4A_Header m data len).1
        = { m with
            retvalue := (R : Int) - (AudioM4A.read_M4A_Header m data len).2
            cnt := (AudioM4A.read_M4A_Header m data len).1.cnt }) ∧
    (∃ q, AudioFLAC.pendingSkipCalls data wins f = some q ∧
      q.1 = { f with retvalue := 0 } ∧ q.2.sum = (R : Int) ∧ q.2.length ≤ R ∧
      List.Forall₂ (fun r w => 1 ≤ r ∧ r ≤ w) q.2 (wins.take q.2.length)) ∧
    ((AudioM4A.pendingSkipCalls data wins m).1 = { m with retvalue := 0, cnt := 0 } ∧
      (AudioM4A.pendingSkipCalls data wins m).2.sum = (R : Int) ∧
      (AudioM4A.pendingSkipCalls data wins m).2.length ≤ R ∧
      List.Forall₂ (fun r w => 1 ≤ r ∧ r ≤ w) (AudioM4A.pendingSkipCalls data wins m).2
        (wins.take (AudioM4A.pendingSkipCalls data wins m).2.length)) := by
  refine ⟨?_, ?_, flac_pendingSkipCalls_spec data R f wins hf hR0 hR1 hfm hw hlen,
    m4a_pendingSkipCalls_spec data R m wins hm hR0 hR1 hmb hmm hw hlen⟩
  · obtain ⟨r, h1, h2, h3, hc⟩ := flac_skip_call f data len R hf (by omega) hR1 hl0 hl1 hfm
    exact ⟨r, hc, h1, h2, h3⟩
  · obtain ⟨r, c, h1, h2, h3, _, hc⟩ :=
      m4a_skip_call m data len R hmb hm (by omega) hR1 hl0 hl1 hmm
    rw [hc]
    exact ⟨h1, h2, h3, rfl⟩

/-- Claim C28 at a concrete input: a skip of 5 bytes pending in the phases
`FLAC_MBH` and `M4A_CHK`, windows of 2 bytes: the calls return 2, 2 and 1. -/
theorem C28_pending_skip_witness :
    (AudioFLAC.pendingSkipCalls (lit "abcdefghij") [2, 2, 2, 2, 2]
      { AudioFLAC.webFLAC 1000 1600 with m_controlCounter := FLAC_MBH, retvalue := 5 }).map
        (fun q => q.2.sum) = some 5 ∧
    (AudioFLAC.pendingSkipCalls (lit "abcdefghij") [2, 2, 2, 2, 2]
      { AudioFLAC.webFLAC 1000 1600 with m_controlCounter := FLAC_MBH, retvalue := 5 }).map
        (fun q => (q.2, q.1.m_controlCounter, q.1.retvalue)) = some ([2, 2, 1], FLAC_MBH, 0) ∧
    (AudioM4A.pendingSkipCalls (lit "abcdefghij") [2, 2, 2, 2, 2]
      (AudioM4A.webM4A M4A_CHK 5 1600)).2.sum = 5 ∧
    (AudioM4A.pendingSkipCalls (lit "abcdefghij") [2, 2, 2, 2, 2]
      (AudioM4A.webM4A M4A_CHK 5 1600)).1.m_controlCounter = M4A_CHK := by
  have h := C28_pending_skip (lit "abcdefghij")
    { AudioFLAC.webFLAC 1000 1600 with m_controlCounter := FLAC_MBH, retvalue := 5 }
    (AudioM4A.webM4A M4A_CHK 5 1600) 5 2 [2, 2, 2, 2, 2] (by decide) (by decide) rfl rfl
    (by decide) (by decide) (by decide) (by decide) (by decide) (by decide) (by decide)
  obtain ⟨_, _, ⟨q, hq, _, h3, _, _⟩, ⟨h4, h5, _, _⟩⟩ := h
  refine ⟨by rw [hq]; exact congrArg some h3, by decide, h5, ?_⟩
  rw [h4]
  rfl

section

open AudioWAV

/-- Claim C29, failing input. A fmt chunk that declares the size 14 is
accepted by the size phase (it returns 4), the payload phase consumes 16
bytes and the skip phase `(uint8_t)(14 - 16) = 254` bytes: 270 bytes in all
instead of 14. With the declared size 18 the two phases consume 16 + 2. -/
theorem C29_fmt_chunk_below_16_overrun :
    (read_WAV_Header { localWAV 1000 16 0 0 with m_controlCounter := 4 } (le32Bytes 14) 1600).2
      = 4 ∧
    (read_WAV_Header
      (read_WAV_Header { localWAV 1000 16 0 0 with m_controlCounter := 4 } (le32Bytes 14) 1600).1
      (fmtPayload 1 2 44100 176400 4 16) 1600).2 = 16 ∧
    (read_WAV_Header
      (read_WAV_Header
        (read_WAV_Header { localWAV 1000 16 0 0 with m_controlCounter := 4 } (le32Bytes 14)
          1600).1
        (fmtPayload 1 2 44100 176400 4 16) 1600).1
      (lit "data") 1600).2 = 254 ∧
    (read_WAV_Header
      (read_WAV_Header
        (read_WAV_Header { localWAV 1000 16 0 0 with m_controlCounter := 4 } (le32Bytes 18)
          1600).1
        (fmtPayload 1 2 44100 176400 4 16) 1600).1
      (lit "data") 1600).2 = 2 := by
  decide

end

/-- Claim C30, failing input. For input that does not begin with `OggS` the
test of `specialIndexOf(data, "fLaC", 6)` is taken for its truth value, which
is that of "not found at offset 0": a window that begins with the magic
`fLaC` gives `CODEC_NONE`, a window that begins with `RIFF` gives
`CODEC_FLAC`. -/
theorem C30_native_flac_magic_inverted :
    determineOggCodec (lit "fLaC" ++ [0, 0, 0, 34, 16, 0]) = Codec.CODEC_NONE ∧
    determineOggCodec (lit "RIFF" ++ [0, 0, 0, 34, 16, 0]) = Codec.CODEC_FLAC := by
  decide
